import Mathlib

/-!
# Timer and CPUTimer of caffe/util/benchmark.cpp

A shallow embedding of the two timers of `src/caffe/util/benchmark.cpp`.

* The object state is the record `Timer` (the data members of the class).  The
  class declaration, caffe/util/benchmark.hpp, is not part of the sources;
  benchmark.cpp shows `CPUTimer` to be derived from `Timer` (it assigns the
  members of `Timer` through `this->`, calls its accessors and defines neither
  `Seconds` nor a destructor), so a `CPUTimer` object has the same members and
  is constructed and destroyed through the constructor and destructor of
  `Timer`.
* Everything outside the object is explicit.  An API call is made in a
  context `Ctx`: the execution mode `Caffe::mode()` reports during the call
  (it is not changed while a member function runs) and the instant the host
  clock shows during the call (no member function reads the clock more than
  once per call).  The device runtime is an oracle
  in `Env`: whether the k-th runtime call succeeds, and the elapsed time it
  reports for two recorded markers.  `World` carries the runtime-side state
  and the chronological log of every external effect.
* A member function is a function `Timer → World → Outcome α`; the outcome is
  either a normal return or the fatal abort of the process (`LOG(FATAL)` /
  a failed `CUDA_CHECK`).
* The two preprocessor switches are parameters: `Env.CPU_ONLY`, and
  `USE_BOOST` only selects which library supplies the clock, so both
  variants are covered by the clock period `Env.ticksPerMicrosecond`.
* A `float` value is the rational number it denotes.  Every conversion to
  `float` or `double` the code performs (an integer count stored in a `float`
  member, the `float` product, the `double` quotient returned as `float`) is
  the IEEE 754 rounding to nearest, ties to even, onto binary32 or binary64,
  subnormal values included (`toFloat`, `toDouble`).  Infinities and NaN are
  not values of the model: a result beyond the largest finite `float` (about
  3.4e38, which no integer count reaches) is outside of it.
-/

namespace caffe

/-- Execution mode reported by `Caffe::mode()`. -/
inductive Mode where
  | CPU
  | GPU
  deriving DecidableEq, Repr

/-- The two device markers a `Timer` owns: `start_gpu_` and `stop_gpu_`. -/
inductive Marker where
  | start
  | stop
  deriving DecidableEq, Repr

/-- External effects, in the order the code performs them.  Runtime calls
carry the handle value that was passed (`none`: the member was never set by
`cudaEventCreate`). -/
inductive Event where
  | modeQuery (m : Mode)
  | clockNow (t : Int)
  | warning
  | cudaEventCreate (k : Marker)
  | cudaEventRecord (k : Marker) (h : Option Nat)
  | cudaEventSynchronize (k : Marker) (h : Option Nat)
  | cudaEventElapsedTime (hstart hstop : Option Nat)
  | cudaEventDestroy (k : Marker) (h : Option Nat)
  deriving DecidableEq, Repr

/-- Build configuration and device-runtime oracle.
`ticksPerMicrosecond` is the period of the clock type (declared in the
header, which is not part of the sources): clock instants are integers
counted in ticks.  `cudaSuccess k` tells whether the k-th runtime call
returns `cudaSuccess`; `cudaElapsedTime a b` is the number of milliseconds
the runtime reports (the `float` it writes) between a start marker last
recorded by runtime call `a` and a stop marker last recorded by runtime call
`b`. -/
structure Env where
  CPU_ONLY : Bool
  ticksPerMicrosecond : Nat
  cudaSuccess : Nat → Bool
  cudaElapsedTime : Option Nat → Option Nat → ℚ

/-- Conditions during one API call: the mode `Caffe::mode()` reports and the
instant `clock::now()` returns. -/
structure Ctx where
  mode : Mode
  now : Int
  deriving DecidableEq, Repr

/-- Data members of `Timer` (and of `CPUTimer`), as benchmark.cpp uses them;
the class declaration (caffe/util/benchmark.hpp) is not part of the sources.
A device marker member holds the handle `cudaEventCreate` stored in it, `none`
while it was never set; the host marks are clock instants in ticks. -/
structure Timer where
  initted_ : Bool
  running_ : Bool
  has_run_at_least_once_ : Bool
  start_gpu_ : Option Nat
  stop_gpu_ : Option Nat
  start_cpu_ : Int
  stop_cpu_ : Int
  elapsed_milliseconds_ : ℚ
  elapsed_microseconds_ : ℚ
  deriving DecidableEq, Repr

/-- State outside the object: number of device-runtime calls made so far,
which runtime call last recorded each marker, and the effect log. -/
structure World where
  cudaCalls : Nat
  start_stamp : Option Nat
  stop_stamp : Option Nat
  log : List Event
  deriving DecidableEq, Repr

/-- Result of running a member function: normal return with a value and the
new states, or fatal abort (the world at the abort is kept). -/
inductive Outcome (α : Type) where
  | ok (val : α) (t : Timer) (w : World)
  | fatal (w : World)
  deriving DecidableEq, Repr

/-- Computations over the object and the world that may abort. -/
def M (α : Type) : Type := Timer → World → Outcome α

/-- Normal return. -/
def M.pure {α : Type} (a : α) : M α := fun t w => Outcome.ok a t w

/-- Sequencing; a fatal abort ends the computation. -/
def M.bind {α β : Type} (x : M α) (f : α → M β) : M β := fun t w =>
  match x t w with
  | Outcome.ok a t1 w1 => f a t1 w1
  | Outcome.fatal w1 => Outcome.fatal w1

instance : Monad M where
  pure := M.pure
  bind := M.bind

/-- Read the object. -/
def getT : M Timer := fun t w => Outcome.ok t t w

/-- Assign to data members. -/
def modifyT (f : Timer → Timer) : M Unit := fun t w => Outcome.ok () (f t) w

/-- Append an effect to the log. -/
def emit (e : Event) : M Unit := fun t w =>
  Outcome.ok () t { w with log := w.log ++ [e] }

/-- Modelled from the spec: `LOG(FATAL)`, the fatal-error reporter, which
terminates the process. -/
def LOG_FATAL {α : Type} : M α := fun _ w => Outcome.fatal w

/-- Modelled from the spec: `LOG(WARNING) << ...`, one message on the
non-fatal diagnostic channel. -/
def LOG_WARNING : M Unit := emit Event.warning

/-- Modelled from the spec: the macro `NO_GPU` of caffe/common.hpp, the fatal
path taken when device support is compiled out. -/
def NO_GPU : M Unit := LOG_FATAL

/-- Modelled from the spec: the macro `CUDA_CHECK` of caffe/common.hpp: abort
unless the runtime call returned success. -/
def CUDA_CHECK (call : M Bool) : M Unit := do
  let success ← call
  if success then pure () else LOG_FATAL

/-- Modelled from the spec: the execution-mode selector `Caffe::mode()`
(caffe/common.hpp, not part of the sources).  It answers Host or Device; each
consultation is logged. -/
def Caffe.mode (c : Ctx) : M Mode := do
  emit (Event.modeQuery c.mode)
  pure c.mode

/-- The host clock, `clock::now()` (with `USE_BOOST`:
`microsec_clock::local_time()`), an external library call; each reading is
logged. -/
def clock.now (c : Ctx) : M Int := do
  emit (Event.clockNow c.now)
  pure c.now

/-- Modelled from the spec: the inline accessor `running()` declared in
caffe/util/benchmark.hpp (not part of the sources); it reads `running_`. -/
def running : M Bool := do pure (← getT).running_

/-- Modelled from the spec: the inline accessor `has_run_at_least_once()`
declared in caffe/util/benchmark.hpp; it reads `has_run_at_least_once_`. -/
def has_run_at_least_once : M Bool := do pure (← getT).has_run_at_least_once_

/-- Modelled from the spec: the inline accessor `initted()` declared in
caffe/util/benchmark.hpp; it reads `initted_`. -/
def initted : M Bool := do pure (← getT).initted_

/-- Handle stored in the member for marker `k`. -/
def Timer.handle (t : Timer) : Marker → Option Nat
  | Marker.start => t.start_gpu_
  | Marker.stop => t.stop_gpu_

/-- Runtime call `cudaEventCreate(&start_gpu_)` / `(&stop_gpu_)`: on success
the member receives a fresh handle. -/
def cudaEventCreate (env : Env) (k : Marker) : M Bool := fun t w =>
  let n := w.cudaCalls
  let w1 := { w with cudaCalls := n + 1, log := w.log ++ [Event.cudaEventCreate k] }
  if env.cudaSuccess n then
    match k with
    | Marker.start => Outcome.ok true { t with start_gpu_ := some n } w1
    | Marker.stop => Outcome.ok true { t with stop_gpu_ := some n } w1
  else Outcome.ok false t w1

/-- Runtime call `cudaEventRecord(marker, 0)`: on success the marker is
stamped by this call. -/
def cudaEventRecord (env : Env) (k : Marker) : M Bool := fun t w =>
  let n := w.cudaCalls
  let w1 := { w with cudaCalls := n + 1, log := w.log ++ [Event.cudaEventRecord k (t.handle k)] }
  if env.cudaSuccess n then
    match k with
    | Marker.start => Outcome.ok true t { w1 with start_stamp := some n }
    | Marker.stop => Outcome.ok true t { w1 with stop_stamp := some n }
  else Outcome.ok false t w1

/-- Runtime call `cudaEventSynchronize(marker)`: returns once the device has
reached the marker. -/
def cudaEventSynchronize (env : Env) (k : Marker) : M Bool := fun t w =>
  let n := w.cudaCalls
  let w1 := { w with cudaCalls := n + 1,
                     log := w.log ++ [Event.cudaEventSynchronize k (t.handle k)] }
  Outcome.ok (env.cudaSuccess n) t w1

/-- Runtime call `cudaEventElapsedTime(&elapsed_milliseconds_, start_gpu_,
stop_gpu_)`: on success the member receives the reported milliseconds. -/
def cudaEventElapsedTime (env : Env) : M Bool := fun t w =>
  let n := w.cudaCalls
  let w1 := { w with cudaCalls := n + 1,
                     log := w.log ++ [Event.cudaEventElapsedTime t.start_gpu_ t.stop_gpu_] }
  if env.cudaSuccess n then
    Outcome.ok true
      { t with elapsed_milliseconds_ := env.cudaElapsedTime w.start_stamp w.stop_stamp } w1
  else Outcome.ok false t w1

/-- Runtime call `cudaEventDestroy(marker)`. -/
def cudaEventDestroy (env : Env) (k : Marker) : M Bool := fun t w =>
  let n := w.cudaCalls
  let w1 := { w with cudaCalls := n + 1,
                     log := w.log ++ [Event.cudaEventDestroy k (t.handle k)] }
  Outcome.ok (env.cudaSuccess n) t w1

/-- Rounding of a rational to the nearest integer, a tie going to the even
neighbour. -/
def roundNearestEven (q : ℚ) : Int :=
  if q - (⌊q⌋ : ℚ) < 1 / 2 then ⌊q⌋
  else if 1 / 2 < q - (⌊q⌋ : ℚ) then ⌊q⌋ + 1
  else if ⌊q⌋ % 2 = 0 then ⌊q⌋ else ⌊q⌋ + 1

/-- Spacing of the values of a binary floating-point format around `q`: the
format has `prec` significand bits and least normal exponent `emin`; below
`2 ^ emin` the spacing is that of the subnormal values. -/
def ulpAt (prec : Nat) (emin : Int) (q : ℚ) : ℚ :=
  (2 : ℚ) ^ (max (Int.log 2 |q|) emin - ((prec : Int) - 1))

/-- Rounding to the nearest value of a binary floating-point format, ties to
even (the IEEE 754 default), without an upper exponent limit. -/
def roundToFormat (prec : Nat) (emin : Int) (q : ℚ) : ℚ :=
  (roundNearestEven (q / ulpAt prec emin q) : ℚ) * ulpAt prec emin q

/-- Conversion to `float` (binary32: 24 significand bits, least normal
exponent -126). -/
def toFloat (q : ℚ) : ℚ := roundToFormat 24 (-126) q

/-- Conversion to `double` (binary64: 53 significand bits, least normal
exponent -1022). -/
def toDouble (q : ℚ) : ℚ := roundToFormat 53 (-1022) q

/-- Whole microseconds in a clock difference:
`duration_cast<microseconds>(d).count()` / `d.total_microseconds()`
(integer division truncating toward zero). -/
def microseconds (env : Env) (d : Int) : Int :=
  Int.tdiv d (env.ticksPerMicrosecond : Int)

/-- Whole milliseconds in a clock difference:
`duration_cast<milliseconds>(d).count()` / `d.total_milliseconds()`. -/
def milliseconds (env : Env) (d : Int) : Int :=
  Int.tdiv d (1000 * (env.ticksPerMicrosecond : Int))

/-- The function `Timer::Init()`. -/
def Timer.Init (env : Env) (c : Ctx) : M Unit := do
  if !(← initted) then
    if (← Caffe.mode c) = Mode.GPU then
      if env.CPU_ONLY then
        NO_GPU
      else
        CUDA_CHECK (cudaEventCreate env Marker.start)
        CUDA_CHECK (cudaEventCreate env Marker.stop)
    modifyT fun t => { t with initted_ := true }

/-- The constructor `Timer::Timer()`, run on the raw storage of the object. -/
def Timer.construct (env : Env) (c : Ctx) : M Unit := do
  modifyT fun t => { t with initted_ := false, running_ := false,
                            has_run_at_least_once_ := false }
  Timer.Init env c

/-- The destructor `Timer::~Timer()`. -/
def Timer.destruct (env : Env) (c : Ctx) : M Unit := do
  if (← Caffe.mode c) = Mode.GPU then
    if env.CPU_ONLY then
      NO_GPU
    else
      CUDA_CHECK (cudaEventDestroy env Marker.start)
      CUDA_CHECK (cudaEventDestroy env Marker.stop)

/-- The function `Timer::Start()`. -/
def Timer.Start (env : Env) (c : Ctx) : M Unit := do
  if !(← running) then
    if (← Caffe.mode c) = Mode.GPU then
      if env.CPU_ONLY then
        NO_GPU
      else
        CUDA_CHECK (cudaEventRecord env Marker.start)
    else
      let now ← clock.now c
      modifyT fun t => { t with start_cpu_ := now }
    modifyT fun t => { t with running_ := true }
    modifyT fun t => { t with has_run_at_least_once_ := true }

/-- The function `Timer::Stop()`. -/
def Timer.Stop (env : Env) (c : Ctx) : M Unit := do
  if (← running) then
    if (← Caffe.mode c) = Mode.GPU then
      if env.CPU_ONLY then
        NO_GPU
      else
        CUDA_CHECK (cudaEventRecord env Marker.stop)
        CUDA_CHECK (cudaEventSynchronize env Marker.stop)
    else
      let now ← clock.now c
      modifyT fun t => { t with stop_cpu_ := now }
    modifyT fun t => { t with running_ := false }

/-- The function `Timer::MicroSeconds()`. -/
def Timer.MicroSeconds (env : Env) (c : Ctx) : M ℚ := do
  if !(← has_run_at_least_once) then
    LOG_WARNING
    pure 0
  else
    if (← running) then
      Timer.Stop env c
    if (← Caffe.mode c) = Mode.GPU then
      if env.CPU_ONLY then
        NO_GPU
      else
        CUDA_CHECK (cudaEventElapsedTime env)
        modifyT fun t =>
          { t with elapsed_microseconds_ := toFloat (t.elapsed_milliseconds_ * 1000) }
    else
      modifyT fun t =>
        { t with elapsed_microseconds_ :=
            toFloat (microseconds env (t.stop_cpu_ - t.start_cpu_) : Int) }
    pure (← getT).elapsed_microseconds_

/-- The function `Timer::MilliSeconds()`. -/
def Timer.MilliSeconds (env : Env) (c : Ctx) : M ℚ := do
  if !(← has_run_at_least_once) then
    LOG_WARNING
    pure 0
  else
    if (← running) then
      Timer.Stop env c
    if (← Caffe.mode c) = Mode.GPU then
      if env.CPU_ONLY then
        NO_GPU
      else
        CUDA_CHECK (cudaEventElapsedTime env)
    else
      modifyT fun t =>
        { t with elapsed_milliseconds_ :=
            toFloat (milliseconds env (t.stop_cpu_ - t.start_cpu_) : Int) }
    pure (← getT).elapsed_milliseconds_

/-- The function `Timer::Seconds()`: the `float` result of `MilliSeconds()` is
divided by the `double` constant `1000.` in `double`, and the quotient is
converted to the return type `float`. -/
def Timer.Seconds (env : Env) (c : Ctx) : M ℚ := do
  pure (toFloat (toDouble ((← Timer.MilliSeconds env c) / 1000)))

/-- The body of the constructor `CPUTimer::CPUTimer()`. -/
def CPUTimer.construct : M Unit := do
  modifyT fun t => { t with initted_ := true }
  modifyT fun t => { t with running_ := false }
  modifyT fun t => { t with has_run_at_least_once_ := false }

/-- The function `CPUTimer::Start()`. -/
def CPUTimer.Start (c : Ctx) : M Unit := do
  if !(← running) then
    let now ← clock.now c
    modifyT fun t => { t with start_cpu_ := now }
    modifyT fun t => { t with running_ := true }
    modifyT fun t => { t with has_run_at_least_once_ := true }

/-- The function `CPUTimer::Stop()`. -/
def CPUTimer.Stop (c : Ctx) : M Unit := do
  if (← running) then
    let now ← clock.now c
    modifyT fun t => { t with stop_cpu_ := now }
    modifyT fun t => { t with running_ := false }

/-- The function `CPUTimer::MilliSeconds()`. -/
def CPUTimer.MilliSeconds (env : Env) (c : Ctx) : M ℚ := do
  if !(← has_run_at_least_once) then
    LOG_WARNING
    pure 0
  else
    if (← running) then
      CPUTimer.Stop c
    modifyT fun t =>
      { t with elapsed_milliseconds_ :=
            toFloat (milliseconds env (t.stop_cpu_ - t.start_cpu_) : Int) }
    pure (← getT).elapsed_milliseconds_

/-- The function `CPUTimer::MicroSeconds()`. -/
def CPUTimer.MicroSeconds (env : Env) (c : Ctx) : M ℚ := do
  if !(← has_run_at_least_once) then
    LOG_WARNING
    pure 0
  else
    if (← running) then
      CPUTimer.Stop c
    modifyT fun t =>
      { t with elapsed_microseconds_ :=
            toFloat (microseconds env (t.stop_cpu_ - t.start_cpu_) : Int) }
    pure (← getT).elapsed_microseconds_

/-- Modelled from the spec: `Seconds()` called on a `CPUTimer`.  benchmark.cpp
defines no `CPUTimer::Seconds`, so the body that runs is that of
`Timer::Seconds`; the class declaration (caffe/util/benchmark.hpp), which
would tell whether its call of `MilliSeconds()` is dispatched to the derived
class, is not part of the sources.  The spec gives HostTimer the contract
`Seconds() = MilliSeconds() / 1000` of its own MilliSeconds(), i.e. the call
resolved to `CPUTimer::MilliSeconds`. -/
def CPUTimer.Seconds (env : Env) (c : Ctx) : M ℚ := do
  pure (toFloat (toDouble ((← CPUTimer.MilliSeconds env c) / 1000)))

/-- The member functions a caller can invoke between construction and
destruction. -/
inductive Op where
  | Start
  | Stop
  | MicroSeconds
  | MilliSeconds
  | Seconds
  deriving DecidableEq, Repr

/-- One API call: the member function and the conditions during the call. -/
structure Call where
  op : Op
  ctx : Ctx
  deriving DecidableEq, Repr

/-- One API call on a `Timer`; a duration query yields its return value. -/
def Timer.call (env : Env) (x : Call) : M (Option ℚ) :=
  match x.op with
  | Op.Start => do Timer.Start env x.ctx; pure none
  | Op.Stop => do Timer.Stop env x.ctx; pure none
  | Op.MicroSeconds => do pure (some (← Timer.MicroSeconds env x.ctx))
  | Op.MilliSeconds => do pure (some (← Timer.MilliSeconds env x.ctx))
  | Op.Seconds => do pure (some (← Timer.Seconds env x.ctx))

/-- One API call on a `CPUTimer`. -/
def CPUTimer.call (env : Env) (x : Call) : M (Option ℚ) :=
  match x.op with
  | Op.Start => do CPUTimer.Start x.ctx; pure none
  | Op.Stop => do CPUTimer.Stop x.ctx; pure none
  | Op.MicroSeconds => do pure (some (← CPUTimer.MicroSeconds env x.ctx))
  | Op.MilliSeconds => do pure (some (← CPUTimer.MilliSeconds env x.ctx))
  | Op.Seconds => do pure (some (← CPUTimer.Seconds env x.ctx))

/-- A caller making a sequence of API calls.  The result lists, for every
call in order, the value it returned and the object state right after it. -/
def runWith (step : Call → M (Option ℚ)) : List Call → M (List (Option ℚ × Timer))
  | [] => pure []
  | x :: xs => do
    let v ← step x
    let t ← getT
    let rest ← runWith step xs
    pure ((v, t) :: rest)

/-- A sequence of API calls on a `Timer`. -/
def Timer.run (env : Env) (calls : List Call) : M (List (Option ℚ × Timer)) :=
  runWith (Timer.call env) calls

/-- A sequence of API calls on a `CPUTimer`. -/
def CPUTimer.run (env : Env) (calls : List Call) : M (List (Option ℚ × Timer)) :=
  runWith (CPUTimer.call env) calls

/-- The value returned by the last call of a sequence (`none` when the
sequence aborted, was empty, or ended in `Start`/`Stop`). -/
def lastValue : Outcome (List (Option ℚ × Timer)) → Option ℚ
  | Outcome.ok r _ _ => ((r.map Prod.fst).getLast?).getD none
  | Outcome.fatal _ => none

/-- The world after `n` further warnings and nothing else. -/
def World.warned (w : World) (n : Nat) : World :=
  { w with log := w.log ++ List.replicate n Event.warning }

/-- Every call of the sequence is made while the selector reports host mode. -/
def hostCalls (calls : List Call) : Prop := ∀ x ∈ calls, x.ctx.mode = Mode.CPU

/-- No call of the sequence is `Start`. -/
def noStart (calls : List Call) : Prop := ∀ x ∈ calls, x.op ≠ Op.Start

/-- A build with device support, a nanosecond clock and a runtime whose calls
all succeed; the reported elapsed time is a quarter millisecond per runtime
call between the two records. -/
def sampleEnv : Env :=
  { CPU_ONLY := false
    ticksPerMicrosecond := 1000
    cudaSuccess := fun _ => true
    cudaElapsedTime := fun a b => ((b.getD 0 : Int) - (a.getD 0 : Int)) / 4 }

/-- A timer right after construction in host mode. -/
def sampleTimer : Timer :=
  { initted_ := true, running_ := false, has_run_at_least_once_ := false
    start_gpu_ := none, stop_gpu_ := none, start_cpu_ := 0, stop_cpu_ := 0
    elapsed_milliseconds_ := 0, elapsed_microseconds_ := 0 }

/-- A world in which nothing has happened yet. -/
def sampleWorld : World :=
  { cudaCalls := 0, start_stamp := none, stop_stamp := none, log := [] }

/-- Host-mode call context at clock instant `n`. -/
def hostAt (n : Int) : Ctx := { mode := Mode.CPU, now := n }

/-- Device-mode call context at clock instant `n`. -/
def deviceAt (n : Int) : Ctx := { mode := Mode.GPU, now := n }

/-- Number of duration queries in a sequence without `Start`. -/
def queryCount (calls : List Call) : Nat := calls.countP (fun x => x.op ≠ Op.Stop)

/-- What a never-started timer in state `t` answers to a sequence without
`Start`: nothing for `Stop`, zero for a query, and the state stays `t`. -/
def neverRunResults (t : Timer) (calls : List Call) : List (Option ℚ × Timer) :=
  calls.map (fun x => (if x.op = Op.Stop then none else some 0, t))

/-- Apply a function to the value of a normal return. -/
def Outcome.map {α β : Type} (f : α → β) : Outcome α → Outcome β
  | Outcome.ok v t w => Outcome.ok (f v) t w
  | Outcome.fatal w => Outcome.fatal w

/-- The outcome was a normal return that left the timer not Running. -/
def Outcome.stopped {α : Type} : Outcome α → Prop
  | Outcome.ok _ t _ => t.running_ = false
  | Outcome.fatal _ => False

/-- A host-mode timer that is Running since instant 10. -/
def sampleRunning : Timer :=
  { sampleTimer with running_ := true, has_run_at_least_once_ := true, start_cpu_ := 10 }

/-- The world after a device-mode duration query on object `t`: the mode
query that selected the device branch and one elapsed-time runtime call,
markers untouched. -/
def World.afterElapsedQuery (w : World) (t : Timer) : World :=
  { w with cudaCalls := w.cudaCalls + 1,
           log := w.log ++ [Event.modeQuery Mode.GPU,
                            Event.cudaEventElapsedTime t.start_gpu_ t.stop_gpu_] }

/-- The effect is a consultation of the mode selector. -/
def Event.isModeQuery : Event → Bool
  | Event.modeQuery _ => true
  | _ => false

/-- The world with the consultations of the mode selector left out of the
effect log: what remains are clock readings, warnings and runtime calls. -/
def World.hideModeQueries (w : World) : World :=
  { w with log := w.log.filter (fun e => !e.isModeQuery) }

/-- An outcome with the consultations of the mode selector left out of the
effect log. -/
def Outcome.hideModeQueries {α : Type} : Outcome α → Outcome α
  | Outcome.ok v t w => Outcome.ok v t w.hideModeQueries
  | Outcome.fatal w => Outcome.fatal w.hideModeQueries

/-- The outcome is a normal return. -/
def Outcome.returns {α : Type} : Outcome α → Prop
  | Outcome.ok _ _ _ => True
  | Outcome.fatal _ => False

/-- The clock is non-decreasing along the sequence: no call is made at an
earlier instant than a call before it. -/
def nonDecreasingClock (calls : List Call) : Prop :=
  calls.Pairwise (fun a b => a.ctx.now ≤ b.ctx.now)

/-- The sequence returned normally and every value a query returned is
non-negative. -/
def nonnegValues : Outcome (List (Option ℚ × Timer)) → Prop
  | Outcome.ok r _ _ => ∀ p ∈ r, ∀ v, p.1 = some v → 0 ≤ v
  | Outcome.fatal _ => False

/-- Marks in order: once the timer has run its start mark is not later than
`bound`, and when it is stopped its stop mark is not earlier than its start
mark. -/
def marksOrdered (bound : Int) (t : Timer) : Prop :=
  t.has_run_at_least_once_ = true →
    t.start_cpu_ ≤ bound ∧ (t.running_ = false → t.start_cpu_ ≤ t.stop_cpu_)

/-- The instant of the effective Stop of a cycle: the instant of the first
call made after the last Start, which is the first call of `mid` or, when
`mid` is empty, the final query itself. -/
def effectiveStopInstant (mid : List Call) (cq : Ctx) : Int :=
  match mid.head? with
  | some y => y.ctx.now
  | none => cq.now

/-- What a host-mode timer whose start mark is `a` and whose stop mark is `b`
answers to a call that is not `Start`. -/
def hostValue (env : Env) (a b : Int) : Op → Option ℚ
  | Op.Start => none
  | Op.Stop => none
  | Op.MicroSeconds => some (toFloat ((microseconds env (b - a) : Int) : ℚ))
  | Op.MilliSeconds => some (toFloat ((milliseconds env (b - a) : Int) : ℚ))
  | Op.Seconds =>
    some (toFloat (toDouble (toFloat ((milliseconds env (b - a) : Int) : ℚ) / 1000)))

/-- Running implies has-run-once. -/
def Timer.consistent (t : Timer) : Prop :=
  t.running_ = true → t.has_run_at_least_once_ = true

/-- Construction of a `CPUTimer` object on raw storage.  The class declaration
(caffe/util/benchmark.hpp) is not part of the sources; benchmark.cpp shows
`CPUTimer` to be derived from `Timer`: its member functions assign the data
members of `Timer` through `this->` (among them `initted_`, which only
`Timer::Init` reads), they call the accessors `running()` and
`has_run_at_least_once()`, and the file defines neither a `CPUTimer::Seconds`
nor a destructor of `CPUTimer`.  So the constructor of the base class,
`Timer::Timer()`, runs first, and then the body of `CPUTimer::CPUTimer()`. -/
def CPUTimer.constructObject (env : Env) (c : Ctx) : M Unit := do
  Timer.construct env c
  CPUTimer.construct

/-- Destruction of a `CPUTimer` object: benchmark.cpp defines no destructor for
the derived class, so what runs is the destructor of the base class,
`Timer::~Timer()`. -/
def CPUTimer.destruct (env : Env) (c : Ctx) : M Unit := Timer.destruct env c

/-- The whole life of a `CPUTimer` object: construction on raw storage while
the conditions are `c0`, a sequence of API calls, and destruction while the
conditions are `cend`. -/
def CPUTimer.life (env : Env) (c0 : Ctx) (calls : List Call) (cend : Ctx) :
    M (List (Option ℚ × Timer)) := do
  CPUTimer.constructObject env c0
  let r ← CPUTimer.run env calls
  CPUTimer.destruct env cend
  pure r

/-- The effect involves neither the mode selector nor the device runtime: it
is a reading of the host clock or a warning. -/
def Event.isHostOnly : Event → Bool
  | Event.clockNow _ => true
  | Event.warning => true
  | _ => false

/-- World `w1` is world `w` followed by host-only effects: the device-runtime
side is untouched and the effect log of `w1` is the log of `w` extended by
clock readings and warnings only. -/
def World.hostExtension (w w1 : World) : Prop :=
  w1.cudaCalls = w.cudaCalls ∧ w1.start_stamp = w.start_stamp ∧
    w1.stop_stamp = w.stop_stamp ∧
    ∃ es, w1.log = w.log ++ es ∧ ∀ e ∈ es, e.isHostOnly = true

/-- The whole life of a `Timer` object: construction on raw storage while the
conditions are `c0`, a sequence of API calls, and destruction while the
conditions are `cend`. -/
def Timer.life (env : Env) (c0 : Ctx) (calls : List Call) (cend : Ctx) :
    M (List (Option ℚ × Timer)) := do
  Timer.construct env c0
  let r ← Timer.run env calls
  Timer.destruct env cend
  pure r

/-- The effect is the creation call for marker `k`. -/
def Event.isCreate (k : Marker) : Event → Bool
  | Event.cudaEventCreate j => decide (j = k)
  | _ => false

/-- The effect is a release call for marker `k`. -/
def Event.isDestroy (k : Marker) : Event → Bool
  | Event.cudaEventDestroy j _ => decide (j = k)
  | _ => false

/-- The effect is a warning. -/
def Event.isWarning : Event → Bool
  | Event.warning => true
  | _ => false

/-- Number of creation calls for marker `k` in the effect log. -/
def World.creations (k : Marker) (w : World) : Nat := w.log.countP (Event.isCreate k)

/-- Number of release calls for marker `k` in the effect log. -/
def World.releases (k : Marker) (w : World) : Nat := w.log.countP (Event.isDestroy k)

/-- Number of warnings in the effect log. -/
def World.warnings (w : World) : Nat := w.log.countP Event.isWarning

/-- The world at the end of a computation, also when it aborted. -/
def Outcome.world {α : Type} : Outcome α → World
  | Outcome.ok _ _ w => w
  | Outcome.fatal w => w

/-- No creation or release call was made between world `w` and world `w1`. -/
def World.sameMarkerCalls (w w1 : World) : Prop :=
  ∀ k, w1.creations k = w.creations k ∧ w1.releases k = w.releases k

/-- What one API call does to the flags, the marker handles and the effect
log, whenever it returns: Running holds afterwards exactly after `Start`,
has-run-once holds afterwards exactly when it held before or the call was
`Start`, `initted_` and the marker handles are unchanged, no creation or
release call is logged, and no warning is logged once the timer has run. -/
def callFacts (x : Call) (t : Timer) (w : World) (t1 : Timer) (w1 : World) : Prop :=
  t1.consistent ∧ (t1.running_ = true ↔ x.op = Op.Start) ∧
    (t1.has_run_at_least_once_ = true ↔ t.has_run_at_least_once_ = true ∨ x.op = Op.Start) ∧
    t1.initted_ = t.initted_ ∧ t1.start_gpu_ = t.start_gpu_ ∧ t1.stop_gpu_ = t.stop_gpu_ ∧
    w.sameMarkerCalls w1 ∧ (t.has_run_at_least_once_ = true → w1.warnings = w.warnings)

/-- The sequence contains a `Start` and no `Stop` and no duration query
occurs after the last `Start`: it is some calls, then a `Start`, then only
further `Start` calls. -/
def startPending (calls : List Call) : Prop :=
  ∃ pre c starts, calls = pre ++ ⟨Op.Start, c⟩ :: starts ∧ ∀ x ∈ starts, x.op = Op.Start

/-- What a sequence of API calls started in state `t` and world `w` has done
when it returned with per-call results `r`, final state `t1` and world `w1`. -/
def runFacts (calls : List Call) (t : Timer) (w : World) (r : List (Option ℚ × Timer))
    (t1 : Timer) (w1 : World) : Prop :=
  t1.consistent ∧ (∀ p ∈ r, p.2.consistent) ∧
    (t1.running_ = true ↔
      (calls = [] ∧ t.running_ = true) ∨ ∃ y, calls.getLast? = some y ∧ y.op = Op.Start) ∧
    (t1.has_run_at_least_once_ = true ↔
      t.has_run_at_least_once_ = true ∨ ∃ x ∈ calls, x.op = Op.Start) ∧
    t1.initted_ = t.initted_ ∧ t1.start_gpu_ = t.start_gpu_ ∧ t1.stop_gpu_ = t.stop_gpu_ ∧
    w.sameMarkerCalls w1 ∧ (t.has_run_at_least_once_ = true → w1.warnings = w.warnings)

/-- One when the mode is Device, zero when it is Host. -/
def Mode.deviceCount : Mode → Nat
  | Mode.GPU => 1
  | Mode.CPU => 0

/-- A build without device support (`CPU_ONLY` defined), nanosecond clock. -/
def sampleHostOnlyEnv : Env :=
  { CPU_ONLY := true
    ticksPerMicrosecond := 1000
    cudaSuccess := fun _ => true
    cudaElapsedTime := fun _ _ => 0 }

/-- The world after the mode selector was consulted and answered Device, and
nothing else happened. -/
def World.afterDeviceModeQuery (w : World) : World :=
  { w with log := w.log ++ [Event.modeQuery Mode.GPU] }

/-- A sequence of `Init()` calls on one object, one per listed context. -/
def Timer.Inits (env : Env) : List Ctx → M Unit
  | [] => pure ()
  | c :: cs => do
    Timer.Init env c
    Timer.Inits env cs

/-- The stop mark a host-mode duration query made in context `c` subtracts
the start mark from: the instant of the call when the query itself stops a
Running timer, the stored stop mark otherwise. -/
def stopMarkUsed (t : Timer) (c : Ctx) : Int :=
  if t.running_ = true then c.now else t.stop_cpu_

/-- The value a computation returned, if it returned. -/
def Outcome.value {α : Type} : Outcome α → Option α
  | Outcome.ok v _ _ => some v
  | Outcome.fatal _ => none

/-- Progress of the device-call protocol of one `Timer`, used to judge the
sequence of device-runtime calls it issues: the index of the next runtime
call, the handles the creation calls produced (`none` before creation and
after release), whether the start marker has been recorded, and whether the
stop marker has been recorded, and then synchronized, after the latest record
of the start marker. -/
structure Protocol where
  next : Nat
  startHandle : Option Nat
  stopHandle : Option Nat
  startRecorded : Bool
  stopRecorded : Bool
  stopSynced : Bool
  deriving DecidableEq, Repr

/-- The protocol state before the object is constructed, when `n` runtime
calls have been made so far. -/
def Protocol.init (n : Nat) : Protocol :=
  { next := n, startHandle := none, stopHandle := none, startRecorded := false,
    stopRecorded := false, stopSynced := false }

/-- One logged effect judged against the protocol; `none` means the call is
ill-formed.  Creation makes a handle.  A record, synchronize or release call
must pass the handle its marker was created with.  An elapsed-time call must
pass both created handles, after the start marker was recorded and the stop
marker was recorded and then synchronized after that record.  Effects other
than runtime calls are not judged. -/
def Protocol.step (p : Protocol) : Event → Option Protocol
  | Event.modeQuery _ => some p
  | Event.clockNow _ => some p
  | Event.warning => some p
  | Event.cudaEventCreate Marker.start =>
    some { p with next := p.next + 1, startHandle := some p.next }
  | Event.cudaEventCreate Marker.stop =>
    some { p with next := p.next + 1, stopHandle := some p.next }
  | Event.cudaEventRecord Marker.start h =>
    if h.isSome = true ∧ h = p.startHandle then
      some { p with next := p.next + 1, startRecorded := true, stopRecorded := false,
                    stopSynced := false }
    else none
  | Event.cudaEventRecord Marker.stop h =>
    if h.isSome = true ∧ h = p.stopHandle then
      some { p with next := p.next + 1, stopRecorded := true, stopSynced := false }
    else none
  | Event.cudaEventSynchronize Marker.start h =>
    if h.isSome = true ∧ h = p.startHandle then some { p with next := p.next + 1 } else none
  | Event.cudaEventSynchronize Marker.stop h =>
    if h.isSome = true ∧ h = p.stopHandle then
      some { p with next := p.next + 1, stopSynced := p.stopRecorded }
    else none
  | Event.cudaEventElapsedTime hs hp =>
    if hs.isSome = true ∧ hs = p.startHandle ∧ hp.isSome = true ∧ hp = p.stopHandle ∧
        p.startRecorded = true ∧ p.stopRecorded = true ∧ p.stopSynced = true then
      some { p with next := p.next + 1 }
    else none
  | Event.cudaEventDestroy Marker.start h =>
    if h.isSome = true ∧ h = p.startHandle then
      some { p with next := p.next + 1, startHandle := none }
    else none
  | Event.cudaEventDestroy Marker.stop h =>
    if h.isSome = true ∧ h = p.stopHandle then
      some { p with next := p.next + 1, stopHandle := none }
    else none

/-- A sequence of logged effects judged against the protocol, in order. -/
def Protocol.run (p : Protocol) : List Event → Option Protocol
  | [] => some p
  | e :: es =>
    match p.step e with
    | some q => q.run es
    | none => none

/-- The protocol state `p` describes the object `t` in world `w`: same count
of runtime calls, both markers created with the handles the object holds, the
start marker recorded once the timer has run, and the stop marker recorded and
synchronized after it once the timer has run and is stopped. -/
def Protocol.tracks (p : Protocol) (t : Timer) (w : World) : Prop :=
  p.next = w.cudaCalls ∧ p.startHandle = t.start_gpu_ ∧ p.stopHandle = t.stop_gpu_ ∧
    t.start_gpu_.isSome = true ∧ t.stop_gpu_.isSome = true ∧ t.consistent ∧
    (t.has_run_at_least_once_ = true → p.startRecorded = true) ∧
    (t.has_run_at_least_once_ = true → t.running_ = false →
      p.stopRecorded = true ∧ p.stopSynced = true)

/-- The computation with outcome `o`, started in world `w` with protocol
state `p`, logged a well-formed sequence of effects (also when it aborted),
and when it returned the protocol state reached describes the new object and
world. -/
def protocolKept {α : Type} (p : Protocol) (w : World) (o : Outcome α) : Prop :=
  ∃ es q, o.world.log = w.log ++ es ∧ p.run es = some q ∧
    ∀ v t1 w1, o = Outcome.ok v t1 w1 → q.tracks t1 w1

/-- The computation with outcome `o`, started in world `w` when the object
did not exist yet, logged a sequence of effects that is well-formed from the
initial protocol state. -/
def wellFormedCalls {α : Type} (w : World) (o : Outcome α) : Prop :=
  ∃ es, o.world.log = w.log ++ es ∧ ((Protocol.init w.cudaCalls).run es).isSome = true

/-- Every call of the sequence is made while the selector reports device mode. -/
def deviceCalls (calls : List Call) : Prop := ∀ x ∈ calls, x.ctx.mode = Mode.GPU

/-- The `float` value `v` is the conversion of the integer count `d`: the
binary32 value nearest to `d` (ties to even), which is `d` itself when `d` is
below `2 ^ 24` in magnitude and is within a relative error of `2 ^ -24` of `d`
in every case. -/
def convertsToFloat (d : Int) (v : ℚ) : Prop :=
  v = toFloat (d : ℚ) ∧ (|d| < 2 ^ 24 → v = (d : ℚ)) ∧ |v - (d : ℚ)| ≤ |(d : ℚ)| / 2 ^ 24

/-- The values `us` and `ms` are what MicroSeconds() and MilliSeconds() return
for marks `n` whole microseconds apart: each is the `float` conversion of its
count, the millisecond count being `n` divided by 1000 with the fraction
discarded; the millisecond value is a whole number; and while `n` is below
`2 ^ 24` the millisecond value is the returned microsecond value divided by
1000 with the fraction discarded. -/
def millisecondsTruncate (n : Int) (us ms : Option ℚ) : Prop :=
  (∃ v, us = some v ∧ convertsToFloat n v) ∧
    (∃ v, ms = some v ∧ convertsToFloat (Int.tdiv n 1000) v) ∧
    (∃ m : Int, ms = some (m : ℚ)) ∧
    (n < 2 ^ 24 → ∃ u : Int, us = some (u : ℚ) ∧ ms = some ((Int.tdiv u 1000 : Int) : ℚ))

/-- The measurement cycle as the calls made so far determine it: whether a
Start is pending, the instant captured by the Start that began the current
cycle, and the instant captured by the Stop (explicit, or made by a query)
that matches it; `none` while not captured. -/
structure Cycle where
  running : Bool
  start : Option Int
  stop : Option Int
  deriving DecidableEq, Repr

/-- What a call does to the cycle.  A `Start` made while no Start is pending
begins a new cycle at the instant of the call, whose stop mark is not captured
yet; a `Stop` or a query made while a Start is pending captures the matching
stop mark at the instant of the call; every other call leaves the cycle as it
is. -/
def Cycle.step (g : Cycle) (x : Call) : Cycle :=
  match x.op with
  | Op.Start =>
    if g.running = true then g
    else { running := true, start := some x.ctx.now, stop := none }
  | _ => if g.running = true then { g with running := false, stop := some x.ctx.now } else g

/-- The computation issues no creation and no release call, whether it returns
or aborts. -/
def keepsMarkers {α : Type} (m : M α) : Prop :=
  ∀ (t : Timer) (w : World), w.sameMarkerCalls (m t w).world

/-! ## Basic facts about the primitives -/

@[simp] theorem bind_def {α β : Type} (x : M α) (f : α → M β) : (x >>= f) = M.bind x f := rfl

@[simp] theorem pure_def {α : Type} (a : α) : (pure a : M α) = M.pure a := rfl

/-! ## Conversion to `float` and `double` -/

theorem roundNearestEven_intCast (z : Int) : roundNearestEven (z : ℚ) = z := by
  simp [roundNearestEven]

theorem roundNearestEven_nonneg (q : ℚ) (h : 0 ≤ q) : 0 ≤ roundNearestEven q := by
  have hf : 0 ≤ ⌊q⌋ := Int.floor_nonneg.mpr h
  unfold roundNearestEven
  split_ifs <;> omega

theorem roundNearestEven_close (q : ℚ) : |(roundNearestEven q : ℚ) - q| ≤ 1 / 2 := by
  have h1 : (⌊q⌋ : ℚ) ≤ q := Int.floor_le q
  have h2 : q < (⌊q⌋ : ℚ) + 1 := Int.lt_floor_add_one q
  unfold roundNearestEven
  rw [abs_le]
  split_ifs <;> push_cast <;> constructor <;> linarith

theorem roundNearestEven_of_tie (q : ℚ) (f : Int) (h : q = (f : ℚ) + 1 / 2) :
    roundNearestEven q = if f % 2 = 0 then f else f + 1 := by
  have hf : ⌊q⌋ = f := Int.floor_eq_iff.mpr ⟨by linarith, by linarith⟩
  unfold roundNearestEven
  rw [hf, if_neg (by linarith), if_neg (by linarith)]

theorem ulpAt_pos (prec : Nat) (emin : Int) (q : ℚ) : 0 < ulpAt prec emin q := by
  unfold ulpAt
  positivity

theorem roundToFormat_zero (prec : Nat) (emin : Int) : roundToFormat prec emin 0 = 0 := by
  simp [roundToFormat, roundNearestEven]

theorem roundToFormat_nonneg (prec : Nat) (emin : Int) (q : ℚ) (h : 0 ≤ q) :
    0 ≤ roundToFormat prec emin q := by
  unfold roundToFormat
  have hu := ulpAt_pos prec emin q
  have hr : 0 ≤ roundNearestEven (q / ulpAt prec emin q) :=
    roundNearestEven_nonneg _ (div_nonneg h hu.le)
  have hr2 : (0 : ℚ) ≤ (roundNearestEven (q / ulpAt prec emin q) : ℚ) := by exact_mod_cast hr
  exact mul_nonneg hr2 hu.le

theorem roundToFormat_of_multiple (prec : Nat) (emin : Int) (q : ℚ) (z : Int)
    (h : q = (z : ℚ) * ulpAt prec emin q) : roundToFormat prec emin q = q := by
  have hu := ulpAt_pos prec emin q
  have hz : q / ulpAt prec emin q = (z : ℚ) := by
    rw [div_eq_iff hu.ne']
    exact h
  unfold roundToFormat
  rw [hz, roundNearestEven_intCast]
  exact h.symm

theorem roundToFormat_close (prec : Nat) (emin : Int) (q : ℚ) :
    |roundToFormat prec emin q - q| ≤ ulpAt prec emin q / 2 := by
  have hu := ulpAt_pos prec emin q
  have h := roundNearestEven_close (q / ulpAt prec emin q)
  unfold roundToFormat
  have e : (roundNearestEven (q / ulpAt prec emin q) : ℚ) * ulpAt prec emin q - q
      = ((roundNearestEven (q / ulpAt prec emin q) : ℚ) - q / ulpAt prec emin q)
          * ulpAt prec emin q := by
    field_simp
  rw [e, abs_mul, abs_of_pos hu]
  calc |(roundNearestEven (q / ulpAt prec emin q) : ℚ) - q / ulpAt prec emin q| * ulpAt prec emin q
      ≤ 1 / 2 * ulpAt prec emin q := mul_le_mul_of_nonneg_right h hu.le
    _ = ulpAt prec emin q / 2 := by ring


theorem log_two_eq (q : ℚ) (e : Int) (h1 : (2 : ℚ) ^ e ≤ |q|) (h2 : |q| < (2 : ℚ) ^ (e + 1)) :
    Int.log 2 |q| = e := by
  have hpos : 0 < |q| := lt_of_lt_of_le (by positivity) h1
  have a : e ≤ Int.log 2 |q| :=
    (Int.zpow_le_iff_le_log (by norm_num) hpos).mp (by exact_mod_cast h1)
  have b : Int.log 2 |q| < e + 1 :=
    (Int.lt_zpow_iff_log_lt (by norm_num) hpos).mp (by exact_mod_cast h2)
  omega

theorem ulpAt_eq (prec : Nat) (emin : Int) (q : ℚ) (e : Int) (h1 : (2 : ℚ) ^ e ≤ |q|)
    (h2 : |q| < (2 : ℚ) ^ (e + 1)) (he : emin ≤ e) :
    ulpAt prec emin q = (2 : ℚ) ^ (e - ((prec : Int) - 1)) := by
  unfold ulpAt
  rw [log_two_eq q e h1 h2, max_eq_left he]

theorem ulpAt_le (prec : Nat) (emin : Int) (q : ℚ) (h : (2 : ℚ) ^ emin ≤ |q|) :
    ulpAt prec emin q / 2 ≤ |q| / 2 ^ prec := by
  have hpos : 0 < |q| := lt_of_lt_of_le (by positivity) h
  have a : emin ≤ Int.log 2 |q| :=
    (Int.zpow_le_iff_le_log (by norm_num) hpos).mp (by exact_mod_cast h)
  have b : (2 : ℚ) ^ Int.log 2 |q| ≤ |q| := by
    have := Int.zpow_log_le_self (b := 2) (r := |q|) (by norm_num) hpos
    exact_mod_cast this
  unfold ulpAt
  rw [max_eq_left a]
  have e : (2 : ℚ) ^ (Int.log 2 |q| - ((prec : Int) - 1)) / 2
      = (2 : ℚ) ^ Int.log 2 |q| / 2 ^ prec := by
    rw [zpow_sub₀ (by norm_num), zpow_sub₀ (by norm_num), zpow_natCast, zpow_one]
    field_simp
    ring
  rw [e]
  exact div_le_div_of_nonneg_right b (by positivity)

theorem roundToFormat_error (prec : Nat) (emin : Int) (q : ℚ) (h : (2 : ℚ) ^ emin ≤ |q|) :
    |roundToFormat prec emin q - q| ≤ |q| / 2 ^ prec :=
  le_trans (roundToFormat_close prec emin q) (ulpAt_le prec emin q h)


theorem log_two_intCast_bounds (n : Int) (k : Nat) (h0 : n ≠ 0) (h : |n| < 2 ^ k) :
    0 ≤ Int.log 2 |(n : ℚ)| ∧ Int.log 2 |(n : ℚ)| < k := by
  have h1 : (1 : ℚ) ≤ |(n : ℚ)| := by
    have : 1 ≤ |n| := Int.one_le_abs h0
    exact_mod_cast this
  have hpos : 0 < |(n : ℚ)| := lt_of_lt_of_le one_pos h1
  constructor
  · exact (Int.zpow_le_iff_le_log (by norm_num) hpos).mp (by simpa using h1)
  · apply (Int.lt_zpow_iff_log_lt (by norm_num) hpos).mp
    have : |(n : ℚ)| < 2 ^ k := by exact_mod_cast h
    simpa using this

theorem toFloat_intCast_of_lt (n : Int) (h : |n| < 2 ^ 24) : toFloat (n : ℚ) = n := by
  by_cases h0 : n = 0
  · subst h0
    simp [toFloat, roundToFormat_zero]
  · obtain ⟨a, b⟩ := log_two_intCast_bounds n 24 h0 h
    obtain ⟨k, hk⟩ := Int.eq_ofNat_of_zero_le (show 0 ≤ 23 - Int.log 2 |(n : ℚ)| by omega)
    have hu : ulpAt 24 (-126) (n : ℚ) = ((2 : ℚ) ^ k)⁻¹ := by
      unfold ulpAt
      rw [max_eq_left (by omega), ← zpow_natCast, ← zpow_neg]
      congr 1
      omega
    apply roundToFormat_of_multiple 24 (-126) (n : ℚ) (n * 2 ^ k)
    rw [hu]
    push_cast
    field_simp

theorem toFloat_intCast_eq (n : Int) (h1 : -16777216 < n) (h2 : n < 16777216) :
    toFloat (n : ℚ) = n := by
  apply toFloat_intCast_of_lt
  rw [abs_lt]
  constructor <;> omega

theorem toFloat_natCast_of_lt (n : Nat) (h : n < 2 ^ 24) : toFloat (n : ℚ) = n := by
  have h1 : |(n : Int)| < 2 ^ 24 := by
    rw [abs_of_nonneg (Int.ofNat_nonneg n)]
    exact_mod_cast h
  simpa using toFloat_intCast_of_lt (n : Int) h1

theorem toFloat_ofNat (n : Nat) [n.AtLeastTwo] (h : n < 2 ^ 24) :
    toFloat (OfNat.ofNat n : ℚ) = OfNat.ofNat n := by
  simpa using toFloat_natCast_of_lt n h

@[simp] theorem toFloat_zero : toFloat 0 = 0 := roundToFormat_zero 24 (-126)

@[simp] theorem toDouble_zero : toDouble 0 = 0 := roundToFormat_zero 53 (-1022)

theorem toFloat_one : toFloat 1 = 1 := by
  simpa using toFloat_natCast_of_lt 1 (by norm_num)

theorem toFloat_nonneg (q : ℚ) (h : 0 ≤ q) : 0 ≤ toFloat q := roundToFormat_nonneg 24 (-126) q h

theorem toDouble_nonneg (q : ℚ) (h : 0 ≤ q) : 0 ≤ toDouble q :=
  roundToFormat_nonneg 53 (-1022) q h

theorem toFloat_intCast_isInt (n : Int) : ∃ m : Int, toFloat (n : ℚ) = m := by
  by_cases h : |n| < 2 ^ 24
  · exact ⟨n, toFloat_intCast_of_lt n h⟩
  · have h1 : (2 : ℚ) ^ (24 : Int) ≤ |(n : ℚ)| := by
      have : (2 : Int) ^ 24 ≤ |n| := not_lt.mp h
      have h2 : ((2 ^ 24 : Int) : ℚ) ≤ ((|n| : Int) : ℚ) := Int.cast_le.mpr this
      have h3 : (2 : ℚ) ^ (24 : Nat) ≤ |(n : ℚ)| := by
        rw [Int.cast_abs] at h2
        exact_mod_cast h2
      rw [show (24 : Int) = ((24 : Nat) : Int) from rfl, zpow_natCast]
      exact h3
    have hpos : 0 < |(n : ℚ)| := lt_of_lt_of_le (by positivity) h1
    have a : (24 : Int) ≤ Int.log 2 |(n : ℚ)| :=
      (Int.zpow_le_iff_le_log (by norm_num) hpos).mp (by exact_mod_cast h1)
    obtain ⟨k, hk⟩ := Int.eq_ofNat_of_zero_le (show 0 ≤ Int.log 2 |(n : ℚ)| - 23 by omega)
    have hu : ulpAt 24 (-126) (n : ℚ) = (2 : ℚ) ^ k := by
      unfold ulpAt
      rw [max_eq_left (by omega), ← zpow_natCast]
      congr 1
    refine ⟨roundNearestEven ((n : ℚ) / ulpAt 24 (-126) (n : ℚ)) * 2 ^ k, ?_⟩
    unfold toFloat roundToFormat
    rw [hu]
    push_cast
    rfl

theorem toFloat_intCast_error (n : Int) : |toFloat (n : ℚ) - n| ≤ |(n : ℚ)| / 2 ^ 24 := by
  by_cases h0 : n = 0
  · subst h0
    simp [toFloat, roundToFormat_zero]
  · have h1 : (1 : ℚ) ≤ |(n : ℚ)| := by
      have : 1 ≤ |n| := Int.one_le_abs h0
      exact_mod_cast this
    apply roundToFormat_error
    refine le_trans ?_ h1
    exact zpow_le_one_of_nonpos₀ (by norm_num) (by norm_num)


theorem convertsToFloat_toFloat (d : Int) : convertsToFloat d (toFloat (d : ℚ)) :=
  ⟨rfl, toFloat_intCast_of_lt d, toFloat_intCast_error d⟩

theorem roundToFormat_eval (prec : Nat) (emin : Int) (q : ℚ) (e z : Int) (h0 : 0 ≤ q)
    (h1 : (2 : ℚ) ^ e ≤ q) (h2 : q < (2 : ℚ) ^ (e + 1)) (he : emin ≤ e)
    (hz : roundNearestEven (q / (2 : ℚ) ^ (e - ((prec : Int) - 1))) = z) :
    roundToFormat prec emin q = (z : ℚ) * (2 : ℚ) ^ (e - ((prec : Int) - 1)) := by
  unfold roundToFormat
  rw [← abs_of_nonneg h0] at h1 h2
  rw [ulpAt_eq prec emin q e h1 h2 he, hz]

theorem Timer_Start_running (env : Env) (c : Ctx) (t : Timer) (w : World)
    (h : t.running_ = true) : Timer.Start env c t w = Outcome.ok () t w := by
  simp [Timer.Start, M.bind, M.pure, running, getT, h]

theorem CPUTimer_Start_running (c : Ctx) (t : Timer) (w : World)
    (h : t.running_ = true) : CPUTimer.Start c t w = Outcome.ok () t w := by
  simp [CPUTimer.Start, M.bind, M.pure, running, getT, h]

theorem Timer_Stop_idle (env : Env) (c : Ctx) (t : Timer) (w : World)
    (h : t.running_ = false) : Timer.Stop env c t w = Outcome.ok () t w := by
  simp [Timer.Stop, M.bind, M.pure, running, getT, h]

theorem CPUTimer_Stop_idle (c : Ctx) (t : Timer) (w : World)
    (h : t.running_ = false) : CPUTimer.Stop c t w = Outcome.ok () t w := by
  simp [CPUTimer.Stop, M.bind, M.pure, running, getT, h]

theorem Timer_Start_host (env : Env) (c : Ctx) (t : Timer) (w : World)
    (h : t.running_ = false) (hm : c.mode = Mode.CPU) :
    Timer.Start env c t w =
      Outcome.ok () { t with start_cpu_ := c.now, running_ := true, has_run_at_least_once_ := true }
        { w with log := w.log ++ [Event.modeQuery Mode.CPU, Event.clockNow c.now] } := by
  simp [Timer.Start, M.bind, M.pure, running, getT, h, hm, Caffe.mode, emit, clock.now, modifyT]

theorem CPUTimer_Start_idle (c : Ctx) (t : Timer) (w : World) (h : t.running_ = false) :
    CPUTimer.Start c t w =
      Outcome.ok () { t with start_cpu_ := c.now, running_ := true, has_run_at_least_once_ := true }
        { w with log := w.log ++ [Event.clockNow c.now] } := by
  simp [CPUTimer.Start, M.bind, M.pure, running, getT, h, emit, clock.now, modifyT]

theorem Timer_Stop_host (env : Env) (c : Ctx) (t : Timer) (w : World)
    (h : t.running_ = true) (hm : c.mode = Mode.CPU) :
    Timer.Stop env c t w =
      Outcome.ok () { t with stop_cpu_ := c.now, running_ := false }
        { w with log := w.log ++ [Event.modeQuery Mode.CPU, Event.clockNow c.now] } := by
  simp [Timer.Stop, M.bind, M.pure, running, getT, h, hm, Caffe.mode, emit, clock.now, modifyT]

theorem CPUTimer_Stop_running (c : Ctx) (t : Timer) (w : World) (h : t.running_ = true) :
    CPUTimer.Stop c t w =
      Outcome.ok () { t with stop_cpu_ := c.now, running_ := false }
        { w with log := w.log ++ [Event.clockNow c.now] } := by
  simp [CPUTimer.Stop, M.bind, M.pure, running, getT, h, emit, clock.now, modifyT]

theorem World_warned_log (w : World) (n : Nat) :
    { w.warned n with log := (w.warned n).log ++ [Event.warning] } = w.warned (n + 1) := by
  simp [World.warned, List.replicate_succ']

theorem World_warned_zero (w : World) : w.warned 0 = w := by
  simp [World.warned]

theorem Timer_MicroSeconds_never (env : Env) (c : Ctx) (t : Timer) (w : World)
    (h : t.has_run_at_least_once_ = false) :
    Timer.MicroSeconds env c t w = Outcome.ok 0 t { w with log := w.log ++ [Event.warning] } := by
  simp [Timer.MicroSeconds, M.bind, M.pure, has_run_at_least_once, getT, h, LOG_WARNING, emit]

theorem Timer_MilliSeconds_never (env : Env) (c : Ctx) (t : Timer) (w : World)
    (h : t.has_run_at_least_once_ = false) :
    Timer.MilliSeconds env c t w = Outcome.ok 0 t { w with log := w.log ++ [Event.warning] } := by
  simp [Timer.MilliSeconds, M.bind, M.pure, has_run_at_least_once, getT, h, LOG_WARNING, emit]

theorem Timer_Seconds_never (env : Env) (c : Ctx) (t : Timer) (w : World)
    (h : t.has_run_at_least_once_ = false) :
    Timer.Seconds env c t w = Outcome.ok 0 t { w with log := w.log ++ [Event.warning] } := by
  simp [Timer.Seconds, M.bind, M.pure, Timer_MilliSeconds_never env c t w h]

theorem CPUTimer_MicroSeconds_never (env : Env) (c : Ctx) (t : Timer) (w : World)
    (h : t.has_run_at_least_once_ = false) :
    CPUTimer.MicroSeconds env c t w =
      Outcome.ok 0 t { w with log := w.log ++ [Event.warning] } := by
  simp [CPUTimer.MicroSeconds, M.bind, M.pure, has_run_at_least_once, getT, h, LOG_WARNING, emit]

theorem CPUTimer_MilliSeconds_never (env : Env) (c : Ctx) (t : Timer) (w : World)
    (h : t.has_run_at_least_once_ = false) :
    CPUTimer.MilliSeconds env c t w =
      Outcome.ok 0 t { w with log := w.log ++ [Event.warning] } := by
  simp [CPUTimer.MilliSeconds, M.bind, M.pure, has_run_at_least_once, getT, h, LOG_WARNING, emit]

theorem CPUTimer_Seconds_never (env : Env) (c : Ctx) (t : Timer) (w : World)
    (h : t.has_run_at_least_once_ = false) :
    CPUTimer.Seconds env c t w = Outcome.ok 0 t { w with log := w.log ++ [Event.warning] } := by
  simp [CPUTimer.Seconds, M.bind, M.pure, CPUTimer_MilliSeconds_never env c t w h]

theorem runWith_cons (step : Call → M (Option ℚ)) (x : Call) (xs : List Call) (t : Timer)
    (w : World) :
    runWith step (x :: xs) t w =
      match step x t w with
      | Outcome.ok v t1 w1 =>
        match runWith step xs t1 w1 with
        | Outcome.ok r t2 w2 => Outcome.ok ((v, t1) :: r) t2 w2
        | Outcome.fatal w2 => Outcome.fatal w2
      | Outcome.fatal w1 => Outcome.fatal w1 := by
  simp only [runWith, bind_def, pure_def, M.bind, M.pure, getT]
  cases step x t w with
  | fatal w1 => rfl
  | ok v t1 w1 =>
    simp only []
    cases runWith step xs t1 w1 <;> rfl

theorem runWith_nil (step : Call → M (Option ℚ)) (t : Timer) (w : World) :
    runWith step [] t w = Outcome.ok [] t w := by
  simp [runWith, M.pure]

theorem Timer_call_never (env : Env) (x : Call) (t : Timer) (w : World)
    (hnever : t.has_run_at_least_once_ = false) (hidle : t.running_ = false)
    (hx : x.op ≠ Op.Start) :
    Timer.call env x t w =
      Outcome.ok (if x.op = Op.Stop then none else some 0) t
        (w.warned (if x.op = Op.Stop then 0 else 1)) := by
  obtain ⟨op, c⟩ := x
  cases op
  · exact absurd rfl hx
  · simp [Timer.call, M.bind, M.pure, Timer_Stop_idle env c t w hidle, World.warned]
  · simp [Timer.call, M.bind, M.pure, Timer_MicroSeconds_never env c t w hnever, World.warned]
  · simp [Timer.call, M.bind, M.pure, Timer_MilliSeconds_never env c t w hnever, World.warned]
  · simp [Timer.call, M.bind, M.pure, Timer_Seconds_never env c t w hnever, World.warned]

theorem CPUTimer_call_never (env : Env) (x : Call) (t : Timer) (w : World)
    (hnever : t.has_run_at_least_once_ = false) (hidle : t.running_ = false)
    (hx : x.op ≠ Op.Start) :
    CPUTimer.call env x t w =
      Outcome.ok (if x.op = Op.Stop then none else some 0) t
        (w.warned (if x.op = Op.Stop then 0 else 1)) := by
  obtain ⟨op, c⟩ := x
  cases op
  · exact absurd rfl hx
  · simp [CPUTimer.call, M.bind, M.pure, CPUTimer_Stop_idle c t w hidle, World.warned]
  · simp [CPUTimer.call, M.bind, M.pure, CPUTimer_MicroSeconds_never env c t w hnever,
      World.warned]
  · simp [CPUTimer.call, M.bind, M.pure, CPUTimer_MilliSeconds_never env c t w hnever,
      World.warned]
  · simp only [CPUTimer.call, bind_def, pure_def, M.bind, CPUTimer_Seconds_never env c t w hnever]
    simp [M.pure, World.warned]

theorem World_warned_add (w : World) (m n : Nat) : (w.warned m).warned n = w.warned (m + n) := by
  simp [World.warned]

theorem runWith_never (step : Call → M (Option ℚ)) (t : Timer)
    (hstep : ∀ x w, x.op ≠ Op.Start → step x t w =
      Outcome.ok (if x.op = Op.Stop then none else some 0) t
        (w.warned (if x.op = Op.Stop then 0 else 1)))
    (pre : List Call) (hpre : noStart pre) (w : World) :
    runWith step pre t w = Outcome.ok (neverRunResults t pre) t (w.warned (queryCount pre)) := by
  induction pre generalizing w with
  | nil => simp [runWith_nil, neverRunResults, queryCount, World_warned_zero]
  | cons x xs ih =>
    have hx : x.op ≠ Op.Start := hpre x (List.mem_cons_self _ _)
    have hxs : noStart xs := fun y hy => hpre y (List.mem_cons_of_mem _ hy)
    rw [runWith_cons, hstep x w hx]
    simp only [ih hxs, World_warned_add]
    by_cases hs : x.op = Op.Stop
    · simp [neverRunResults, queryCount, hs]
    · simp [neverRunResults, queryCount, hs, Nat.add_comm]

/-- C1: on a timer on which Start has never been called (has-run-once false and
not running, as after construction), any sequence of Stop calls and duration
queries leaves the object unchanged, answers 0 to every query and adds one
warning per query and nothing else to the effect log; after it each of
MicroSeconds, MilliSeconds and Seconds, of Timer and of CPUTimer, returns
normally with 0, leaves the object unchanged and adds exactly one warning (no
mode query, no clock reading, no device-runtime call, no fatal abort). -/
theorem C1_query_before_first_start (env : Env) (t : Timer) (w : World)
    (hnever : t.has_run_at_least_once_ = false) (hidle : t.running_ = false)
    (pre : List Call) (hpre : noStart pre) (c : Ctx) :
    Timer.run env pre t w
        = Outcome.ok (neverRunResults t pre) t (w.warned (queryCount pre)) ∧
    CPUTimer.run env pre t w
        = Outcome.ok (neverRunResults t pre) t (w.warned (queryCount pre)) ∧
    Timer.MicroSeconds env c t (w.warned (queryCount pre))
        = Outcome.ok 0 t (w.warned (queryCount pre + 1)) ∧
    Timer.MilliSeconds env c t (w.warned (queryCount pre))
        = Outcome.ok 0 t (w.warned (queryCount pre + 1)) ∧
    Timer.Seconds env c t (w.warned (queryCount pre))
        = Outcome.ok 0 t (w.warned (queryCount pre + 1)) ∧
    CPUTimer.MicroSeconds env c t (w.warned (queryCount pre))
        = Outcome.ok 0 t (w.warned (queryCount pre + 1)) ∧
    CPUTimer.MilliSeconds env c t (w.warned (queryCount pre))
        = Outcome.ok 0 t (w.warned (queryCount pre + 1)) ∧
    CPUTimer.Seconds env c t (w.warned (queryCount pre))
        = Outcome.ok 0 t (w.warned (queryCount pre + 1)) := by
  refine ⟨?_, ?_, ?_, ?_, ?_, ?_, ?_, ?_⟩
  · exact runWith_never _ t (fun x w hx => Timer_call_never env x t w hnever hidle hx) pre hpre w
  · exact runWith_never _ t (fun x w hx => CPUTimer_call_never env x t w hnever hidle hx) pre hpre w
  · rw [Timer_MicroSeconds_never env c t _ hnever, World_warned_log]
  · rw [Timer_MilliSeconds_never env c t _ hnever, World_warned_log]
  · rw [Timer_Seconds_never env c t _ hnever, World_warned_log]
  · rw [CPUTimer_MicroSeconds_never env c t _ hnever, World_warned_log]
  · rw [CPUTimer_MilliSeconds_never env c t _ hnever, World_warned_log]
  · rw [CPUTimer_Seconds_never env c t _ hnever, World_warned_log]

theorem C1_query_before_first_start_witness :
    sampleTimer.has_run_at_least_once_ = false ∧ sampleTimer.running_ = false ∧
    noStart [⟨Op.Stop, hostAt 5⟩, ⟨Op.MilliSeconds, deviceAt 7⟩] ∧
    Timer.run sampleEnv [⟨Op.Stop, hostAt 5⟩, ⟨Op.MilliSeconds, deviceAt 7⟩] sampleTimer sampleWorld
      = Outcome.ok [(none, sampleTimer), (some 0, sampleTimer)] sampleTimer
          { sampleWorld with log := [Event.warning] } ∧
    Timer.Seconds sampleEnv (deviceAt 9) sampleTimer { sampleWorld with log := [Event.warning] }
      = Outcome.ok 0 sampleTimer { sampleWorld with log := [Event.warning, Event.warning] } := by
  have h := C1_query_before_first_start sampleEnv sampleTimer sampleWorld rfl rfl
    [⟨Op.Stop, hostAt 5⟩, ⟨Op.MilliSeconds, deviceAt 7⟩] (by simp [noStart]) (deviceAt 9)
  refine ⟨rfl, rfl, by simp [noStart], ?_, ?_⟩
  · simpa [neverRunResults, queryCount, World.warned, sampleWorld] using h.1
  · simpa [neverRunResults, queryCount, World.warned, sampleWorld] using h.2.2.2.2.1

/-! ## Host-mode behaviour of the member functions -/

theorem Timer_Start_host_eq (env : Env) (c : Ctx) (t : Timer) (w : World)
    (hm : c.mode = Mode.CPU) :
    Timer.Start env c t w =
      if t.running_ = true then Outcome.ok () t w
      else Outcome.ok ()
        { t with start_cpu_ := c.now, running_ := true, has_run_at_least_once_ := true }
        { w with log := w.log ++ [Event.modeQuery Mode.CPU, Event.clockNow c.now] } := by
  by_cases h : t.running_ = true
  · simp [h, Timer_Start_running]
  · simp only [Bool.not_eq_true] at h
    simp [h, Timer_Start_host env c t w h hm]

theorem Timer_Stop_host_eq (env : Env) (c : Ctx) (t : Timer) (w : World)
    (hm : c.mode = Mode.CPU) :
    Timer.Stop env c t w =
      if t.running_ = true then
        Outcome.ok () { t with stop_cpu_ := c.now, running_ := false }
          { w with log := w.log ++ [Event.modeQuery Mode.CPU, Event.clockNow c.now] }
      else Outcome.ok () t w := by
  by_cases h : t.running_ = true
  · simp [h, Timer_Stop_host env c t w h hm]
  · simp only [Bool.not_eq_true] at h
    simp [h, Timer_Stop_idle]

theorem CPUTimer_Start_eq (c : Ctx) (t : Timer) (w : World) :
    CPUTimer.Start c t w =
      if t.running_ = true then Outcome.ok () t w
      else Outcome.ok ()
        { t with start_cpu_ := c.now, running_ := true, has_run_at_least_once_ := true }
        { w with log := w.log ++ [Event.clockNow c.now] } := by
  by_cases h : t.running_ = true
  · simp [h, CPUTimer_Start_running]
  · simp only [Bool.not_eq_true] at h
    simp [h, CPUTimer_Start_idle c t w h]

theorem CPUTimer_Stop_eq (c : Ctx) (t : Timer) (w : World) :
    CPUTimer.Stop c t w =
      if t.running_ = true then
        Outcome.ok () { t with stop_cpu_ := c.now, running_ := false }
          { w with log := w.log ++ [Event.clockNow c.now] }
      else Outcome.ok () t w := by
  by_cases h : t.running_ = true
  · simp [h, CPUTimer_Stop_running c t w h]
  · simp only [Bool.not_eq_true] at h
    simp [h, CPUTimer_Stop_idle]

theorem Timer_MicroSeconds_host_eq (env : Env) (c : Ctx) (t : Timer) (w : World)
    (hm : c.mode = Mode.CPU) (hhas : t.has_run_at_least_once_ = true) :
    Timer.MicroSeconds env c t w =
      if t.running_ = true then
        Outcome.ok (toFloat ((microseconds env (c.now - t.start_cpu_) : Int) : ℚ))
          { t with stop_cpu_ := c.now, running_ := false,
                   elapsed_microseconds_ :=
                     toFloat (microseconds env (c.now - t.start_cpu_) : Int) }
          { w with log := w.log ++ [Event.modeQuery Mode.CPU, Event.clockNow c.now,
                                    Event.modeQuery Mode.CPU] }
      else
        Outcome.ok (toFloat ((microseconds env (t.stop_cpu_ - t.start_cpu_) : Int) : ℚ))
          { t with elapsed_microseconds_ :=
                     toFloat (microseconds env (t.stop_cpu_ - t.start_cpu_) : Int) }
          { w with log := w.log ++ [Event.modeQuery Mode.CPU] } := by
  by_cases h : t.running_ = true
  · simp [Timer.MicroSeconds, M.bind, M.pure, has_run_at_least_once, running, getT, hhas, h,
      Timer_Stop_host env c t w h hm, Caffe.mode, emit, hm, modifyT]
  · simp only [Bool.not_eq_true] at h
    simp [Timer.MicroSeconds, M.bind, M.pure, has_run_at_least_once, running, getT, hhas, h,
      Caffe.mode, emit, hm, modifyT]

theorem Timer_MilliSeconds_host_eq (env : Env) (c : Ctx) (t : Timer) (w : World)
    (hm : c.mode = Mode.CPU) (hhas : t.has_run_at_least_once_ = true) :
    Timer.MilliSeconds env c t w =
      if t.running_ = true then
        Outcome.ok (toFloat ((milliseconds env (c.now - t.start_cpu_) : Int) : ℚ))
          { t with stop_cpu_ := c.now, running_ := false,
                   elapsed_milliseconds_ :=
                     toFloat (milliseconds env (c.now - t.start_cpu_) : Int) }
          { w with log := w.log ++ [Event.modeQuery Mode.CPU, Event.clockNow c.now,
                                    Event.modeQuery Mode.CPU] }
      else
        Outcome.ok (toFloat ((milliseconds env (t.stop_cpu_ - t.start_cpu_) : Int) : ℚ))
          { t with elapsed_milliseconds_ :=
                     toFloat (milliseconds env (t.stop_cpu_ - t.start_cpu_) : Int) }
          { w with log := w.log ++ [Event.modeQuery Mode.CPU] } := by
  by_cases h : t.running_ = true
  · simp [Timer.MilliSeconds, M.bind, M.pure, has_run_at_least_once, running, getT, hhas, h,
      Timer_Stop_host env c t w h hm, Caffe.mode, emit, hm, modifyT]
  · simp only [Bool.not_eq_true] at h
    simp [Timer.MilliSeconds, M.bind, M.pure, has_run_at_least_once, running, getT, hhas, h,
      Caffe.mode, emit, hm, modifyT]

theorem CPUTimer_MicroSeconds_eq (env : Env) (c : Ctx) (t : Timer) (w : World)
    (hhas : t.has_run_at_least_once_ = true) :
    CPUTimer.MicroSeconds env c t w =
      if t.running_ = true then
        Outcome.ok (toFloat ((microseconds env (c.now - t.start_cpu_) : Int) : ℚ))
          { t with stop_cpu_ := c.now, running_ := false,
                   elapsed_microseconds_ :=
                     toFloat (microseconds env (c.now - t.start_cpu_) : Int) }
          { w with log := w.log ++ [Event.clockNow c.now] }
      else
        Outcome.ok (toFloat ((microseconds env (t.stop_cpu_ - t.start_cpu_) : Int) : ℚ))
          { t with elapsed_microseconds_ :=
                     toFloat (microseconds env (t.stop_cpu_ - t.start_cpu_) : Int) }
          w := by
  by_cases h : t.running_ = true
  · simp [CPUTimer.MicroSeconds, M.bind, M.pure, has_run_at_least_once, running, getT, hhas, h,
      CPUTimer_Stop_running c t w h, modifyT]
  · simp only [Bool.not_eq_true] at h
    simp [CPUTimer.MicroSeconds, M.bind, M.pure, has_run_at_least_once, running, getT, hhas, h,
      modifyT]

theorem CPUTimer_MilliSeconds_eq (env : Env) (c : Ctx) (t : Timer) (w : World)
    (hhas : t.has_run_at_least_once_ = true) :
    CPUTimer.MilliSeconds env c t w =
      if t.running_ = true then
        Outcome.ok (toFloat ((milliseconds env (c.now - t.start_cpu_) : Int) : ℚ))
          { t with stop_cpu_ := c.now, running_ := false,
                   elapsed_milliseconds_ :=
                     toFloat (milliseconds env (c.now - t.start_cpu_) : Int) }
          { w with log := w.log ++ [Event.clockNow c.now] }
      else
        Outcome.ok (toFloat ((milliseconds env (t.stop_cpu_ - t.start_cpu_) : Int) : ℚ))
          { t with elapsed_milliseconds_ :=
                     toFloat (milliseconds env (t.stop_cpu_ - t.start_cpu_) : Int) }
          w := by
  by_cases h : t.running_ = true
  · simp [CPUTimer.MilliSeconds, M.bind, M.pure, has_run_at_least_once, running, getT, hhas, h,
      CPUTimer_Stop_running c t w h, modifyT]
  · simp only [Bool.not_eq_true] at h
    simp [CPUTimer.MilliSeconds, M.bind, M.pure, has_run_at_least_once, running, getT, hhas, h,
      modifyT]

theorem Timer_Seconds_eq (env : Env) (c : Ctx) (t : Timer) (w : World) :
    Timer.Seconds env c t w
      = (Timer.MilliSeconds env c t w).map (fun v => toFloat (toDouble (v / 1000))) := by
  simp only [Timer.Seconds, bind_def, pure_def, M.bind, M.pure]
  cases Timer.MilliSeconds env c t w <;> rfl

theorem CPUTimer_Seconds_eq (env : Env) (c : Ctx) (t : Timer) (w : World) :
    CPUTimer.Seconds env c t w
      = (CPUTimer.MilliSeconds env c t w).map (fun v => toFloat (toDouble (v / 1000))) := by
  simp only [CPUTimer.Seconds, bind_def, pure_def, M.bind, M.pure]
  cases CPUTimer.MilliSeconds env c t w <;> rfl

theorem Timer_Stop_frame (env : Env) (c : Ctx) (t : Timer) (w : World) (t1 : Timer)
    (w1 : World) (h : Timer.Stop env c t w = Outcome.ok () t1 w1) :
    t1.running_ = false ∧ t1.has_run_at_least_once_ = t.has_run_at_least_once_ := by
  by_cases hr : t.running_ = true
  · by_cases hm : c.mode = Mode.GPU
    · by_cases hc : env.CPU_ONLY = true
      · simp [Timer.Stop, M.bind, M.pure, running, getT, hr, hm, hc, Caffe.mode, emit, NO_GPU,
          LOG_FATAL] at h
      · by_cases h1 : env.cudaSuccess w.cudaCalls = true
        · by_cases h2 : env.cudaSuccess (w.cudaCalls + 1) = true
          · simp [Timer.Stop, M.bind, M.pure, running, getT, hr, hm, hc, Caffe.mode, emit,
              CUDA_CHECK, cudaEventRecord, cudaEventSynchronize, h1, h2, modifyT] at h
            rw [← h.1]; exact ⟨rfl, rfl⟩
          · simp [Timer.Stop, M.bind, M.pure, running, getT, hr, hm, hc, Caffe.mode, emit,
              CUDA_CHECK, cudaEventRecord, cudaEventSynchronize, h1, h2, modifyT,
              LOG_FATAL] at h
        · simp [Timer.Stop, M.bind, M.pure, running, getT, hr, hm, hc, Caffe.mode, emit,
            CUDA_CHECK, cudaEventRecord, cudaEventSynchronize, h1, modifyT, LOG_FATAL] at h
    · have hm2 : c.mode = Mode.CPU := by
        cases hmode : c.mode
        · rfl
        · exact absurd hmode hm
      rw [Timer_Stop_host env c t w hr hm2] at h
      simp only [Outcome.ok.injEq, true_and] at h
      rw [← h.1]; exact ⟨rfl, rfl⟩
  · simp only [Bool.not_eq_true] at hr
    rw [Timer_Stop_idle env c t w hr] at h
    simp only [Outcome.ok.injEq, true_and] at h
    rw [← h.1]; exact ⟨hr, rfl⟩

theorem Timer_Stop_then (env : Env) (c1 c2 : Ctx) {α : Type} (k : M α) (t : Timer) (w : World) :
    (Timer.Stop env c1 >>= fun _ => Timer.Stop env c2 >>= fun _ => k) t w
      = (Timer.Stop env c1 >>= fun _ => k) t w := by
  simp only [bind_def, M.bind]
  cases h : Timer.Stop env c1 t w with
  | fatal w1 => rfl
  | ok v t1 w1 =>
    simp only []
    rw [Timer_Stop_idle env c2 t1 w1 (Timer_Stop_frame env c1 t w t1 w1 h).1]

theorem CPUTimer_Stop_then (c1 c2 : Ctx) {α : Type} (k : M α) (t : Timer) (w : World) :
    (CPUTimer.Stop c1 >>= fun _ => CPUTimer.Stop c2 >>= fun _ => k) t w
      = (CPUTimer.Stop c1 >>= fun _ => k) t w := by
  simp only [bind_def, M.bind, CPUTimer_Stop_eq]
  by_cases h : t.running_ = true <;> simp [h]

/-- C3: on a Running timer Start() is a no-op, for Timer in either mode and
for CPUTimer: the object and the world are returned unchanged (no mark or flag
changes, no mode query, no clock reading, no device-runtime call).
Consequently, on a host-mode timer that is not Running, Start at instant a,
Start again at instant b, Stop at instant s and then MicroSeconds measures
s - a, not s - b: it returns the `float` conversion of s - a in whole
microseconds (that count itself while it is below 2^24), whatever b is. -/
theorem C3_start_while_running_is_noop (env : Env) (c : Ctx) (t : Timer) (w : World) :
    (t.running_ = true →
      Timer.Start env c t w = Outcome.ok () t w ∧ CPUTimer.Start c t w = Outcome.ok () t w) ∧
    (t.running_ = false → ∀ a b s q : Int,
      (∃ v, lastValue (Timer.run env [⟨Op.Start, hostAt a⟩, ⟨Op.Start, hostAt b⟩,
            ⟨Op.Stop, hostAt s⟩, ⟨Op.MicroSeconds, hostAt q⟩] t w) = some v ∧
        convertsToFloat (microseconds env (s - a)) v) ∧
      (∃ v, lastValue (CPUTimer.run env [⟨Op.Start, hostAt a⟩, ⟨Op.Start, hostAt b⟩,
            ⟨Op.Stop, hostAt s⟩, ⟨Op.MicroSeconds, hostAt q⟩] t w) = some v ∧
        convertsToFloat (microseconds env (s - a)) v)) := by
  refine ⟨fun h => ⟨Timer_Start_running env c t w h, CPUTimer_Start_running c t w h⟩, ?_⟩
  intro h a b s q
  constructor
  · refine ⟨_, ?_, convertsToFloat_toFloat _⟩
    simp [Timer.run, runWith_cons, runWith_nil, Timer.call, M.bind, M.pure, Timer_Start_host_eq,
      Timer_Stop_host_eq, Timer_MicroSeconds_host_eq, hostAt, h, lastValue]
  · refine ⟨_, ?_, convertsToFloat_toFloat _⟩
    simp [CPUTimer.run, runWith_cons, runWith_nil, CPUTimer.call, M.bind, M.pure,
      CPUTimer_Start_eq, CPUTimer_Stop_eq, CPUTimer_MicroSeconds_eq, hostAt, h, lastValue]

theorem C3_start_while_running_is_noop_witness :
    (Timer.Start sampleEnv (deviceAt 20) sampleRunning sampleWorld
        = Outcome.ok () sampleRunning sampleWorld ∧
      CPUTimer.Start (hostAt 20) sampleRunning sampleWorld
        = Outcome.ok () sampleRunning sampleWorld) ∧
    lastValue (Timer.run sampleEnv [⟨Op.Start, hostAt 1000⟩, ⟨Op.Start, hostAt 5000⟩,
        ⟨Op.Stop, hostAt 9000⟩, ⟨Op.MicroSeconds, hostAt 9500⟩] sampleTimer sampleWorld)
      = some 8 :=
  ⟨(C3_start_while_running_is_noop sampleEnv (deviceAt 20) sampleRunning sampleWorld).1 rfl,
   by
    obtain ⟨v, e, _, x, _⟩ := ((C3_start_while_running_is_noop sampleEnv (hostAt 0) sampleTimer
      sampleWorld).2 rfl 1000 5000 9000 9500).1
    rw [e, x (by decide)]
    decide⟩

/-- C4: Stop() is idempotent in every timer state, for Timer in either mode
and for CPUTimer: Stop(); Stop() has exactly the outcome of a single Stop()
(same object, same world, same effect log), so MicroSeconds() and
MilliSeconds() after two Stops behave exactly as after one; and Stop() on a
timer that is not Running returns the object and the world unchanged (no mode
query, no clock reading, no device-runtime call). -/
theorem C4_stop_idempotent (env : Env) (c1 c2 c3 : Ctx) (t : Timer) (w : World) :
    (Timer.Stop env c1 >>= fun _ => Timer.Stop env c2) t w = Timer.Stop env c1 t w ∧
    (CPUTimer.Stop c1 >>= fun _ => CPUTimer.Stop c2) t w = CPUTimer.Stop c1 t w ∧
    (Timer.Stop env c1 >>= fun _ => Timer.Stop env c2 >>= fun _ => Timer.MicroSeconds env c3) t w
      = (Timer.Stop env c1 >>= fun _ => Timer.MicroSeconds env c3) t w ∧
    (Timer.Stop env c1 >>= fun _ => Timer.Stop env c2 >>= fun _ => Timer.MilliSeconds env c3) t w
      = (Timer.Stop env c1 >>= fun _ => Timer.MilliSeconds env c3) t w ∧
    (CPUTimer.Stop c1 >>= fun _ => CPUTimer.Stop c2 >>= fun _ => CPUTimer.MicroSeconds env c3) t w
      = (CPUTimer.Stop c1 >>= fun _ => CPUTimer.MicroSeconds env c3) t w ∧
    (CPUTimer.Stop c1 >>= fun _ => CPUTimer.Stop c2 >>= fun _ => CPUTimer.MilliSeconds env c3) t w
      = (CPUTimer.Stop c1 >>= fun _ => CPUTimer.MilliSeconds env c3) t w ∧
    (t.running_ = false →
      Timer.Stop env c1 t w = Outcome.ok () t w ∧ CPUTimer.Stop c1 t w = Outcome.ok () t w) := by
  refine ⟨?_, ?_, Timer_Stop_then env c1 c2 _ t w, Timer_Stop_then env c1 c2 _ t w,
    CPUTimer_Stop_then c1 c2 _ t w, CPUTimer_Stop_then c1 c2 _ t w,
    fun h => ⟨Timer_Stop_idle env c1 t w h, CPUTimer_Stop_idle c1 t w h⟩⟩
  · simp only [bind_def, M.bind]
    cases hS : Timer.Stop env c1 t w with
    | fatal w1 => rfl
    | ok v t1 w1 =>
      simp only []
      rw [Timer_Stop_idle env c2 t1 w1 (Timer_Stop_frame env c1 t w t1 w1 hS).1]
  · simp only [bind_def, M.bind, CPUTimer_Stop_eq]
    by_cases h : t.running_ = true <;> simp [h]

theorem C4_stop_idempotent_witness :
    (Timer.Stop sampleEnv (hostAt 30) >>= fun _ => Timer.Stop sampleEnv (hostAt 40))
        sampleRunning sampleWorld
      = Outcome.ok () { sampleRunning with running_ := false, stop_cpu_ := 30 }
          { sampleWorld with log := [Event.modeQuery Mode.CPU, Event.clockNow 30] } ∧
    Timer.Stop sampleEnv (deviceAt 30) sampleTimer sampleWorld
      = Outcome.ok () sampleTimer sampleWorld := by
  have h := C4_stop_idempotent sampleEnv (hostAt 30) (hostAt 40) (hostAt 50) sampleRunning
    sampleWorld
  have h2 := C4_stop_idempotent sampleEnv (deviceAt 30) (hostAt 40) (hostAt 50) sampleTimer
    sampleWorld
  refine ⟨?_, (h2.2.2.2.2.2.2 rfl).1⟩
  rw [h.1, Timer_Stop_host sampleEnv (hostAt 30) sampleRunning sampleWorld rfl rfl]
  rfl

theorem Timer_MicroSeconds_running (env : Env) (c c2 : Ctx) (t : Timer) (w : World)
    (hrun : t.running_ = true) (hhas : t.has_run_at_least_once_ = true)
    (hm : c2.mode = c.mode) :
    Timer.MicroSeconds env c t w
      = (Timer.Stop env c >>= fun _ => Timer.MicroSeconds env c2) t w := by
  simp only [Timer.MicroSeconds, bind_def, pure_def, M.bind, M.pure, has_run_at_least_once,
    running, getT, hhas, hrun, Bool.not_true, Bool.false_eq_true, if_false, if_true]
  cases hS : Timer.Stop env c t w with
  | fatal w1 => rfl
  | ok v t1 w1 =>
    obtain ⟨h1, h2⟩ := Timer_Stop_frame env c t w t1 w1 hS
    simp [h1, h2, hhas, Caffe.mode, hm, M.bind, M.pure, getT, emit]

theorem Timer_MilliSeconds_running (env : Env) (c c2 : Ctx) (t : Timer) (w : World)
    (hrun : t.running_ = true) (hhas : t.has_run_at_least_once_ = true)
    (hm : c2.mode = c.mode) :
    Timer.MilliSeconds env c t w
      = (Timer.Stop env c >>= fun _ => Timer.MilliSeconds env c2) t w := by
  simp only [Timer.MilliSeconds, bind_def, pure_def, M.bind, M.pure, has_run_at_least_once,
    running, getT, hhas, hrun, Bool.not_true, Bool.false_eq_true, if_false, if_true]
  cases hS : Timer.Stop env c t w with
  | fatal w1 => rfl
  | ok v t1 w1 =>
    obtain ⟨h1, h2⟩ := Timer_Stop_frame env c t w t1 w1 hS
    simp [h1, h2, hhas, Caffe.mode, hm, M.bind, M.pure, getT, emit]

theorem Timer_MicroSeconds_stopped (env : Env) (c : Ctx) (t : Timer) (w : World) (v : ℚ)
    (t1 : Timer) (w1 : World) (hhas : t.has_run_at_least_once_ = true)
    (h : Timer.MicroSeconds env c t w = Outcome.ok v t1 w1) : t1.running_ = false := by
  have key : ∀ (s : Timer) (u : World), s.running_ = false →
      s.has_run_at_least_once_ = true →
      Timer.MicroSeconds env c s u = Outcome.ok v t1 w1 → t1.running_ = false := by
    intro s u hs hh hq
    by_cases hm : c.mode = Mode.GPU
    · by_cases hc : env.CPU_ONLY = true
      · simp [Timer.MicroSeconds, M.bind, M.pure, has_run_at_least_once, running, getT, hh, hs,
          Caffe.mode, emit, hm, hc, NO_GPU, LOG_FATAL] at hq
      · by_cases h1 : env.cudaSuccess u.cudaCalls = true
        · simp [Timer.MicroSeconds, M.bind, M.pure, has_run_at_least_once, running, getT, hh,
            hs, Caffe.mode, emit, hm, hc, CUDA_CHECK, cudaEventElapsedTime, h1, modifyT] at hq
          rw [← hq.2.1]
        · simp [Timer.MicroSeconds, M.bind, M.pure, has_run_at_least_once, running, getT, hh,
            hs, Caffe.mode, emit, hm, hc, CUDA_CHECK, cudaEventElapsedTime, h1, modifyT,
            LOG_FATAL] at hq
    · have hm2 : c.mode = Mode.CPU := by
        cases hmode : c.mode
        · rfl
        · exact absurd hmode hm
      rw [Timer_MicroSeconds_host_eq env c s u hm2 hh] at hq
      simp only [hs, Bool.false_eq_true, if_false, Outcome.ok.injEq] at hq
      rw [← hq.2.1]
  by_cases hr : t.running_ = true
  · rw [Timer_MicroSeconds_running env c c t w hr hhas rfl] at h
    simp only [bind_def, M.bind] at h
    cases hS : Timer.Stop env c t w with
    | fatal w2 => simp [hS] at h
    | ok u t2 w2 =>
      simp only [hS] at h
      obtain ⟨h1, h2⟩ := Timer_Stop_frame env c t w t2 w2 hS
      exact key t2 w2 h1 (h2.trans hhas) h
  · simp only [Bool.not_eq_true] at hr
    exact key t w hr hhas h

theorem Timer_MilliSeconds_stopped (env : Env) (c : Ctx) (t : Timer) (w : World) (v : ℚ)
    (t1 : Timer) (w1 : World) (hhas : t.has_run_at_least_once_ = true)
    (h : Timer.MilliSeconds env c t w = Outcome.ok v t1 w1) : t1.running_ = false := by
  have key : ∀ (s : Timer) (u : World), s.running_ = false →
      s.has_run_at_least_once_ = true →
      Timer.MilliSeconds env c s u = Outcome.ok v t1 w1 → t1.running_ = false := by
    intro s u hs hh hq
    by_cases hm : c.mode = Mode.GPU
    · by_cases hc : env.CPU_ONLY = true
      · simp [Timer.MilliSeconds, M.bind, M.pure, has_run_at_least_once, running, getT, hh, hs,
          Caffe.mode, emit, hm, hc, NO_GPU, LOG_FATAL] at hq
      · by_cases h1 : env.cudaSuccess u.cudaCalls = true
        · simp [Timer.MilliSeconds, M.bind, M.pure, has_run_at_least_once, running, getT, hh,
            hs, Caffe.mode, emit, hm, hc, CUDA_CHECK, cudaEventElapsedTime, h1] at hq
          rw [← hq.2.1]
        · simp [Timer.MilliSeconds, M.bind, M.pure, has_run_at_least_once, running, getT, hh,
            hs, Caffe.mode, emit, hm, hc, CUDA_CHECK, cudaEventElapsedTime, h1,
            LOG_FATAL] at hq
    · have hm2 : c.mode = Mode.CPU := by
        cases hmode : c.mode
        · rfl
        · exact absurd hmode hm
      rw [Timer_MilliSeconds_host_eq env c s u hm2 hh] at hq
      simp only [hs, Bool.false_eq_true, if_false, Outcome.ok.injEq] at hq
      rw [← hq.2.1]
  by_cases hr : t.running_ = true
  · rw [Timer_MilliSeconds_running env c c t w hr hhas rfl] at h
    simp only [bind_def, M.bind] at h
    cases hS : Timer.Stop env c t w with
    | fatal w2 => simp [hS] at h
    | ok u t2 w2 =>
      simp only [hS] at h
      obtain ⟨h1, h2⟩ := Timer_Stop_frame env c t w t2 w2 hS
      exact key t2 w2 h1 (h2.trans hhas) h
  · simp only [Bool.not_eq_true] at hr
    exact key t w hr hhas h

/-- C5: on a Running timer (has-run-once holds, as in every Running state
reached through the API), MicroSeconds() has exactly the outcome of Stop()
followed by MicroSeconds(), and likewise MilliSeconds(): same return value,
same object, same world; the second query may be made at any later instant.
Whenever the query returns, the timer is not Running; in host mode and for
CPUTimer it always returns. -/
theorem C5_query_while_running_stops_first (env : Env) (c c2 : Ctx) (t : Timer) (w : World)
    (hrun : t.running_ = true) (hhas : t.has_run_at_least_once_ = true)
    (hm : c2.mode = c.mode) :
    Timer.MicroSeconds env c t w
      = (Timer.Stop env c >>= fun _ => Timer.MicroSeconds env c2) t w ∧
    Timer.MilliSeconds env c t w
      = (Timer.Stop env c >>= fun _ => Timer.MilliSeconds env c2) t w ∧
    CPUTimer.MicroSeconds env c t w
      = (CPUTimer.Stop c >>= fun _ => CPUTimer.MicroSeconds env c2) t w ∧
    CPUTimer.MilliSeconds env c t w
      = (CPUTimer.Stop c >>= fun _ => CPUTimer.MilliSeconds env c2) t w ∧
    (∀ v t1 w1, Timer.MicroSeconds env c t w = Outcome.ok v t1 w1 → t1.running_ = false) ∧
    (∀ v t1 w1, Timer.MilliSeconds env c t w = Outcome.ok v t1 w1 → t1.running_ = false) ∧
    (CPUTimer.MicroSeconds env c t w).stopped ∧ (CPUTimer.MilliSeconds env c t w).stopped ∧
    (c.mode = Mode.CPU →
      (Timer.MicroSeconds env c t w).stopped ∧ (Timer.MilliSeconds env c t w).stopped) := by
  refine ⟨Timer_MicroSeconds_running env c c2 t w hrun hhas hm,
    Timer_MilliSeconds_running env c c2 t w hrun hhas hm, ?_, ?_,
    fun v t1 w1 h => Timer_MicroSeconds_stopped env c t w v t1 w1 hhas h,
    fun v t1 w1 h => Timer_MilliSeconds_stopped env c t w v t1 w1 hhas h, ?_, ?_, ?_⟩
  · simp [bind_def, M.bind, CPUTimer_Stop_eq, CPUTimer_MicroSeconds_eq, hrun, hhas]
  · simp [bind_def, M.bind, CPUTimer_Stop_eq, CPUTimer_MilliSeconds_eq, hrun, hhas]
  · simp [CPUTimer_MicroSeconds_eq, hrun, hhas, Outcome.stopped]
  · simp [CPUTimer_MilliSeconds_eq, hrun, hhas, Outcome.stopped]
  · intro hc
    simp [Timer_MicroSeconds_host_eq, Timer_MilliSeconds_host_eq, hc, hrun, hhas,
      Outcome.stopped]

theorem C5_query_while_running_stops_first_witness :
    sampleRunning.running_ = true ∧ sampleRunning.has_run_at_least_once_ = true ∧
    Timer.MicroSeconds sampleEnv (hostAt 7010) sampleRunning sampleWorld
      = (Timer.Stop sampleEnv (hostAt 7010) >>= fun _ =>
          Timer.MicroSeconds sampleEnv (hostAt 9999)) sampleRunning sampleWorld ∧
    (CPUTimer.MilliSeconds sampleEnv (hostAt 7010) sampleRunning sampleWorld).stopped :=
  ⟨rfl, rfl,
   (C5_query_while_running_stops_first sampleEnv (hostAt 7010) (hostAt 9999) sampleRunning
      sampleWorld rfl rfl rfl).1,
   (C5_query_while_running_stops_first sampleEnv (hostAt 7010) (hostAt 7010) sampleRunning
      sampleWorld rfl rfl rfl).2.2.2.2.2.2.2.1⟩

theorem Timer_Stop_device (env : Env) (c : Ctx) (t : Timer) (w : World)
    (hdev : env.CPU_ONLY = false) (hm : c.mode = Mode.GPU) (ht : t.running_ = true) :
    Timer.Stop env c t w =
      if env.cudaSuccess w.cudaCalls = true then
        if env.cudaSuccess (w.cudaCalls + 1) = true then
          Outcome.ok () { t with running_ := false }
            { cudaCalls := w.cudaCalls + 2, start_stamp := w.start_stamp,
              stop_stamp := some w.cudaCalls,
              log := w.log ++ [Event.modeQuery Mode.GPU,
                               Event.cudaEventRecord Marker.stop t.stop_gpu_,
                               Event.cudaEventSynchronize Marker.stop t.stop_gpu_] }
        else
          Outcome.fatal
            { cudaCalls := w.cudaCalls + 2, start_stamp := w.start_stamp,
              stop_stamp := some w.cudaCalls,
              log := w.log ++ [Event.modeQuery Mode.GPU,
                               Event.cudaEventRecord Marker.stop t.stop_gpu_,
                               Event.cudaEventSynchronize Marker.stop t.stop_gpu_] }
      else
        Outcome.fatal
          { cudaCalls := w.cudaCalls + 1, start_stamp := w.start_stamp,
            stop_stamp := w.stop_stamp,
            log := w.log ++ [Event.modeQuery Mode.GPU,
                             Event.cudaEventRecord Marker.stop t.stop_gpu_] } := by
  by_cases h1 : env.cudaSuccess w.cudaCalls = true
  · by_cases h2 : env.cudaSuccess (w.cudaCalls + 1) = true
    · simp [Timer.Stop, M.bind, M.pure, running, getT, ht, hm, hdev, Caffe.mode, emit,
        CUDA_CHECK, cudaEventRecord, cudaEventSynchronize, h1, h2, modifyT, Timer.handle]
    · simp [Timer.Stop, M.bind, M.pure, running, getT, ht, hm, hdev, Caffe.mode, emit,
        CUDA_CHECK, cudaEventRecord, cudaEventSynchronize, h1, h2, modifyT, Timer.handle,
        LOG_FATAL]
  · simp [Timer.Stop, M.bind, M.pure, running, getT, ht, hm, hdev, Caffe.mode, emit,
      CUDA_CHECK, cudaEventRecord, cudaEventSynchronize, h1, modifyT, Timer.handle, LOG_FATAL]

theorem Timer_Start_device (env : Env) (c : Ctx) (s : Timer) (w : World)
    (hdev : env.CPU_ONLY = false) (hm : c.mode = Mode.GPU) (hs : s.running_ = false) :
    Timer.Start env c s w =
      if env.cudaSuccess w.cudaCalls = true then
        Outcome.ok () { s with running_ := true, has_run_at_least_once_ := true }
          { cudaCalls := w.cudaCalls + 1, start_stamp := some w.cudaCalls,
            stop_stamp := w.stop_stamp,
            log := w.log ++ [Event.modeQuery Mode.GPU,
                             Event.cudaEventRecord Marker.start s.start_gpu_] }
      else
        Outcome.fatal
          { cudaCalls := w.cudaCalls + 1, start_stamp := w.start_stamp,
            stop_stamp := w.stop_stamp,
            log := w.log ++ [Event.modeQuery Mode.GPU,
                             Event.cudaEventRecord Marker.start s.start_gpu_] } := by
  by_cases h1 : env.cudaSuccess w.cudaCalls = true
  · simp [Timer.Start, M.bind, M.pure, running, getT, hs, hm, hdev, Caffe.mode, emit,
      CUDA_CHECK, cudaEventRecord, h1, modifyT, Timer.handle]
  · simp [Timer.Start, M.bind, M.pure, running, getT, hs, hm, hdev, Caffe.mode, emit,
      CUDA_CHECK, cudaEventRecord, h1, modifyT, Timer.handle, LOG_FATAL]

theorem Timer_MilliSeconds_device_idle (env : Env) (c : Ctx) (t : Timer) (w : World)
    (hdev : env.CPU_ONLY = false) (hm : c.mode = Mode.GPU)
    (hhas : t.has_run_at_least_once_ = true) (hidle : t.running_ = false) :
    Timer.MilliSeconds env c t w =
      if env.cudaSuccess w.cudaCalls = true then
        Outcome.ok (env.cudaElapsedTime w.start_stamp w.stop_stamp)
          { t with elapsed_milliseconds_ := env.cudaElapsedTime w.start_stamp w.stop_stamp }
          (w.afterElapsedQuery t)
      else Outcome.fatal (w.afterElapsedQuery t) := by
  by_cases h1 : env.cudaSuccess w.cudaCalls = true
  · simp [Timer.MilliSeconds, M.bind, M.pure, has_run_at_least_once, running, getT, hhas,
      hidle, Caffe.mode, emit, hm, hdev, CUDA_CHECK, cudaEventElapsedTime, h1,
      World.afterElapsedQuery]
  · simp [Timer.MilliSeconds, M.bind, M.pure, has_run_at_least_once, running, getT, hhas,
      hidle, Caffe.mode, emit, hm, hdev, CUDA_CHECK, cudaEventElapsedTime, h1,
      World.afterElapsedQuery, LOG_FATAL]

theorem Timer_MicroSeconds_device_idle (env : Env) (c : Ctx) (t : Timer) (w : World)
    (hdev : env.CPU_ONLY = false) (hm : c.mode = Mode.GPU)
    (hhas : t.has_run_at_least_once_ = true) (hidle : t.running_ = false) :
    Timer.MicroSeconds env c t w =
      if env.cudaSuccess w.cudaCalls = true then
        Outcome.ok (toFloat (env.cudaElapsedTime w.start_stamp w.stop_stamp * 1000))
          { t with elapsed_milliseconds_ := env.cudaElapsedTime w.start_stamp w.stop_stamp,
                   elapsed_microseconds_ :=
                     toFloat (env.cudaElapsedTime w.start_stamp w.stop_stamp * 1000) }
          (w.afterElapsedQuery t)
      else Outcome.fatal (w.afterElapsedQuery t) := by
  by_cases h1 : env.cudaSuccess w.cudaCalls = true
  · simp [Timer.MicroSeconds, M.bind, M.pure, has_run_at_least_once, running, getT, hhas,
      hidle, Caffe.mode, emit, hm, hdev, CUDA_CHECK, cudaEventElapsedTime, h1, modifyT,
      World.afterElapsedQuery]
  · simp [Timer.MicroSeconds, M.bind, M.pure, has_run_at_least_once, running, getT, hhas,
      hidle, Caffe.mode, emit, hm, hdev, CUDA_CHECK, cudaEventElapsedTime, h1, modifyT,
      World.afterElapsedQuery, LOG_FATAL]

/-- C8: in device mode with device support compiled in, Stop() on a Running
Timer issues exactly two device-runtime calls, first the record of the stop
marker and then the synchronize on the stop marker, and returns with the
timer not Running only when both succeeded (a failed record aborts before the
synchronize, a failed synchronize aborts); Start() on a Timer that is not
Running issues exactly one device-runtime call, the record of the start
marker, and no synchronize.  Neither reads the host clock: the effect log
gains only the mode query and these runtime calls. -/
theorem C8_device_stop_records_then_synchronizes (env : Env) (c : Ctx) (t s : Timer)
    (w : World) (hdev : env.CPU_ONLY = false) (hm : c.mode = Mode.GPU)
    (ht : t.running_ = true) (hs : s.running_ = false) :
    Timer.Stop env c t w =
      (if env.cudaSuccess w.cudaCalls = true then
        if env.cudaSuccess (w.cudaCalls + 1) = true then
          Outcome.ok () { t with running_ := false }
            { cudaCalls := w.cudaCalls + 2, start_stamp := w.start_stamp,
              stop_stamp := some w.cudaCalls,
              log := w.log ++ [Event.modeQuery Mode.GPU,
                               Event.cudaEventRecord Marker.stop t.stop_gpu_,
                               Event.cudaEventSynchronize Marker.stop t.stop_gpu_] }
        else
          Outcome.fatal
            { cudaCalls := w.cudaCalls + 2, start_stamp := w.start_stamp,
              stop_stamp := some w.cudaCalls,
              log := w.log ++ [Event.modeQuery Mode.GPU,
                               Event.cudaEventRecord Marker.stop t.stop_gpu_,
                               Event.cudaEventSynchronize Marker.stop t.stop_gpu_] }
      else
        Outcome.fatal
          { cudaCalls := w.cudaCalls + 1, start_stamp := w.start_stamp,
            stop_stamp := w.stop_stamp,
            log := w.log ++ [Event.modeQuery Mode.GPU,
                             Event.cudaEventRecord Marker.stop t.stop_gpu_] }) ∧
    Timer.Start env c s w =
      (if env.cudaSuccess w.cudaCalls = true then
        Outcome.ok () { s with running_ := true, has_run_at_least_once_ := true }
          { cudaCalls := w.cudaCalls + 1, start_stamp := some w.cudaCalls,
            stop_stamp := w.stop_stamp,
            log := w.log ++ [Event.modeQuery Mode.GPU,
                             Event.cudaEventRecord Marker.start s.start_gpu_] }
      else
        Outcome.fatal
          { cudaCalls := w.cudaCalls + 1, start_stamp := w.start_stamp,
            stop_stamp := w.stop_stamp,
            log := w.log ++ [Event.modeQuery Mode.GPU,
                             Event.cudaEventRecord Marker.start s.start_gpu_] }) :=
  ⟨Timer_Stop_device env c t w hdev hm ht, Timer_Start_device env c s w hdev hm hs⟩

theorem C8_device_stop_records_then_synchronizes_witness :
    sampleEnv.CPU_ONLY = false ∧ (deviceAt 50).mode = Mode.GPU ∧
    sampleRunning.running_ = true ∧ sampleTimer.running_ = false ∧
    Timer.Stop sampleEnv (deviceAt 50) sampleRunning sampleWorld
      = Outcome.ok () { sampleRunning with running_ := false }
          { cudaCalls := 2, start_stamp := none, stop_stamp := some 0,
            log := [Event.modeQuery Mode.GPU, Event.cudaEventRecord Marker.stop none,
                    Event.cudaEventSynchronize Marker.stop none] } ∧
    Timer.Start sampleEnv (deviceAt 50) sampleTimer sampleWorld
      = Outcome.ok () { sampleTimer with running_ := true, has_run_at_least_once_ := true }
          { cudaCalls := 1, start_stamp := some 0, stop_stamp := none,
            log := [Event.modeQuery Mode.GPU, Event.cudaEventRecord Marker.start none] } := by
  have h := C8_device_stop_records_then_synchronizes sampleEnv (deviceAt 50) sampleRunning
    sampleTimer sampleWorld rfl rfl rfl rfl
  exact ⟨rfl, rfl, rfl, rfl, h.1, h.2⟩

theorem mode_eq_CPU_of_ne_GPU (m : Mode) (h : ¬ m = Mode.GPU) : m = Mode.CPU := by
  cases m
  · rfl
  · exact absurd rfl h

theorem isModeQuery_modeQuery (m : Mode) : (Event.modeQuery m).isModeQuery = true := rfl

theorem isModeQuery_clockNow (n : Int) : (Event.clockNow n).isModeQuery = false := rfl

theorem isModeQuery_warning : Event.warning.isModeQuery = false := rfl

theorem call_host_sim (env : Env) (x : Call) (t : Timer) (w u : World)
    (hm : x.ctx.mode = Mode.CPU) :
    ∃ v t1 w1 u1, Timer.call env x t w = Outcome.ok v t1 w1 ∧
      CPUTimer.call env x t u = Outcome.ok v t1 u1 ∧
      (w.hideModeQueries = u.hideModeQueries → w1.hideModeQueries = u1.hideModeQueries) := by
  obtain ⟨op, c⟩ := x
  simp only at hm
  cases hr : t.running_ <;> cases hh : t.has_run_at_least_once_ <;> cases op <;>
    simp only [Timer.call, CPUTimer.call, bind_def, pure_def, M.bind, M.pure,
      Timer_Seconds_eq, CPUTimer_Seconds_eq,
      Timer_Start_host_eq env c t w hm, Timer_Stop_host_eq env c t w hm,
      Timer_MicroSeconds_host_eq env c t w hm, Timer_MilliSeconds_host_eq env c t w hm,
      Timer_MicroSeconds_never env c t w, Timer_MilliSeconds_never env c t w,
      CPUTimer_MicroSeconds_eq env c t u, CPUTimer_MilliSeconds_eq env c t u,
      CPUTimer_MicroSeconds_never env c t u, CPUTimer_MilliSeconds_never env c t u,
      CPUTimer_Start_eq, CPUTimer_Stop_eq, hr, hh, if_true, if_false, Outcome.map,
      Bool.false_eq_true] <;>
    refine ⟨_, _, _, _, rfl, rfl, fun hwu => ?_⟩ <;>
    simp only [World.hideModeQueries, World.mk.injEq] at hwu ⊢ <;>
    simp [List.filter_append, isModeQuery_modeQuery, isModeQuery_clockNow, isModeQuery_warning, hwu]

theorem run_host_sim (env : Env) (calls : List Call) (hhost : hostCalls calls) :
    ∀ (t : Timer) (w u : World),
    ∃ r t1 w1 u1, Timer.run env calls t w = Outcome.ok r t1 w1 ∧
      CPUTimer.run env calls t u = Outcome.ok r t1 u1 ∧
      (w.hideModeQueries = u.hideModeQueries → w1.hideModeQueries = u1.hideModeQueries) := by
  induction calls with
  | nil =>
    intro t w u
    exact ⟨[], t, w, u, runWith_nil _ t w, runWith_nil _ t u, fun h => h⟩
  | cons x xs ih =>
    intro t w u
    obtain ⟨v, t1, w1, u1, h1, h2, h3⟩ :=
      call_host_sim env x t w u (hhost x (List.mem_cons_self _ _))
    obtain ⟨r, t2, w2, u2, k1, k2, k3⟩ :=
      ih (fun y hy => hhost y (List.mem_cons_of_mem _ hy)) t1 w1 u1
    refine ⟨(v, t1) :: r, t2, w2, u2, ?_, ?_, fun h => k3 (h3 h)⟩
    · simp only [Timer.run] at k1 ⊢
      rw [runWith_cons, h1]
      simp only [k1]
    · simp only [CPUTimer.run] at k2 ⊢
      rw [runWith_cons, h2]
      simp only [k2]

/-- C10: a CPUTimer behaves exactly like a Timer whose mode selector reports
Host at every call.  For every finite sequence of Start, Stop, MicroSeconds,
MilliSeconds and Seconds calls made at arbitrary clock instants, started from
the same object state, both return normally, with the same value from every
call and the same object state (flags, start and stop marks, cached
durations) after every call, and their effect logs are equal once the
consultations of the mode selector are left out: the same clock readings and
the same warnings in the same order. -/
theorem C10_cputimer_matches_timer_host_path (env : Env) (calls : List Call)
    (hhost : hostCalls calls) (t : Timer) (w : World) :
    (Timer.run env calls t w).hideModeQueries = (CPUTimer.run env calls t w).hideModeQueries ∧
    (Timer.run env calls t w).returns ∧ (CPUTimer.run env calls t w).returns := by
  obtain ⟨r, t1, w1, u1, h1, h2, h3⟩ := run_host_sim env calls hhost t w w
  rw [h1, h2]
  exact ⟨by simp only [Outcome.hideModeQueries, h3 rfl], trivial, trivial⟩

theorem C10_cputimer_matches_timer_host_path_witness :
    hostCalls [⟨Op.Seconds, hostAt 50⟩, ⟨Op.Start, hostAt 100⟩, ⟨Op.MicroSeconds, hostAt 2600⟩] ∧
    (Timer.run sampleEnv
        [⟨Op.Seconds, hostAt 50⟩, ⟨Op.Start, hostAt 100⟩, ⟨Op.MicroSeconds, hostAt 2600⟩]
        sampleTimer sampleWorld).hideModeQueries
      = (CPUTimer.run sampleEnv
        [⟨Op.Seconds, hostAt 50⟩, ⟨Op.Start, hostAt 100⟩, ⟨Op.MicroSeconds, hostAt 2600⟩]
        sampleTimer sampleWorld).hideModeQueries ∧
    lastValue (CPUTimer.run sampleEnv
        [⟨Op.Seconds, hostAt 50⟩, ⟨Op.Start, hostAt 100⟩, ⟨Op.MicroSeconds, hostAt 2600⟩]
        sampleTimer sampleWorld) = some 2 := by
  refine ⟨by simp [hostCalls, hostAt], (C10_cputimer_matches_timer_host_path sampleEnv _
    (by simp [hostCalls, hostAt]) sampleTimer sampleWorld).1, ?_⟩
  simp [CPUTimer.run, runWith_cons, runWith_nil, CPUTimer.call, M.bind, M.pure,
    CPUTimer_Start_eq, CPUTimer_MicroSeconds_eq, CPUTimer_Seconds_eq, CPUTimer_MilliSeconds_never,
    Outcome.map, hostAt, sampleTimer, lastValue, microseconds, sampleEnv]
  rw [toFloat_intCast_eq _ (by decide) (by decide)]
  decide

/-! ## Non-negative durations under a non-decreasing clock -/

theorem microseconds_nonneg (env : Env) (d : Int) (h : 0 ≤ d) :
    (0 : ℚ) ≤ toFloat ((microseconds env d : Int) : ℚ) := by
  have : 0 ≤ microseconds env d := Int.tdiv_nonneg h (Int.ofNat_nonneg _)
  exact toFloat_nonneg _ (by exact_mod_cast this)

theorem milliseconds_nonneg (env : Env) (d : Int) (h : 0 ≤ d) :
    (0 : ℚ) ≤ toFloat ((milliseconds env d : Int) : ℚ) := by
  have h1 : (0 : Int) ≤ 1000 * (env.ticksPerMicrosecond : Int) :=
    Int.mul_nonneg (by decide) (Int.ofNat_nonneg _)
  have : 0 ≤ milliseconds env d := Int.tdiv_nonneg h h1
  exact toFloat_nonneg _ (by exact_mod_cast this)

theorem marksOrdered_of_le (bound n : Int) (t : Timer) (h : marksOrdered bound t)
    (hb : bound ≤ n) : marksOrdered n t :=
  fun hh => ⟨le_trans (h hh).1 hb, (h hh).2⟩

theorem marksOrdered_started (n : Int) (t : Timer) :
    marksOrdered n { t with start_cpu_ := n, running_ := true, has_run_at_least_once_ := true } :=
  fun _ => ⟨le_refl n, fun h => Bool.noConfusion h⟩

theorem marksOrdered_stopped (n : Int) (t : Timer) (h : marksOrdered n t) :
    marksOrdered n { t with stop_cpu_ := n, running_ := false } :=
  fun hh => ⟨(h hh).1, fun _ => (h hh).1⟩

theorem marksOrdered_stopped_micro (n : Int) (t : Timer) (h : marksOrdered n t) (q : ℚ) :
    marksOrdered n { t with stop_cpu_ := n, running_ := false, elapsed_microseconds_ := q } :=
  fun hh => ⟨(h hh).1, fun _ => (h hh).1⟩

theorem marksOrdered_stopped_milli (n : Int) (t : Timer) (h : marksOrdered n t) (q : ℚ) :
    marksOrdered n { t with stop_cpu_ := n, running_ := false, elapsed_milliseconds_ := q } :=
  fun hh => ⟨(h hh).1, fun _ => (h hh).1⟩

theorem marksOrdered_congr (n : Int) (t s : Timer) (h : marksOrdered n t)
    (h1 : s.has_run_at_least_once_ = t.has_run_at_least_once_)
    (h2 : s.start_cpu_ = t.start_cpu_) (h3 : s.stop_cpu_ = t.stop_cpu_)
    (h4 : s.running_ = t.running_) : marksOrdered n s := by
  intro hh
  rw [h1] at hh
  rw [h2, h3, h4]
  exact h hh

theorem CPUTimer_call_ordered (env : Env) (x : Call) (t : Timer) (w : World) (bound : Int)
    (hinv : marksOrdered bound t) (hb : bound ≤ x.ctx.now) :
    ∃ v t1 w1, CPUTimer.call env x t w = Outcome.ok v t1 w1 ∧ marksOrdered x.ctx.now t1 ∧
      ∀ q, v = some q → 0 ≤ q := by
  obtain ⟨op, c⟩ := x
  simp only at hb
  have keep : marksOrdered c.now t := marksOrdered_of_le bound c.now t hinv hb
  have hnone : ∀ q : ℚ, (none : Option ℚ) = some q → 0 ≤ q := fun q hq => Option.noConfusion hq
  have hsome : ∀ r : ℚ, 0 ≤ r → ∀ q : ℚ, some r = some q → 0 ≤ q :=
    fun r hr q hq => (Option.some.inj hq) ▸ hr
  cases op
  · -- Start
    simp only [CPUTimer.call, bind_def, pure_def, M.bind, M.pure, CPUTimer_Start_eq]
    cases hr : t.running_
    · exact ⟨_, _, _, rfl, marksOrdered_started c.now t, hnone⟩
    · exact ⟨_, _, _, rfl, keep, hnone⟩
  · -- Stop
    simp only [CPUTimer.call, bind_def, pure_def, M.bind, M.pure, CPUTimer_Stop_eq]
    cases hr : t.running_
    · exact ⟨_, _, _, rfl, keep, hnone⟩
    · exact ⟨_, _, _, rfl, marksOrdered_stopped c.now t keep, hnone⟩
  · -- MicroSeconds
    cases hh : t.has_run_at_least_once_
    · simp only [CPUTimer.call, bind_def, pure_def, M.bind, M.pure,
        CPUTimer_MicroSeconds_never env c t w hh]
      exact ⟨_, _, _, rfl, keep, hsome 0 (le_refl _)⟩
    · simp only [CPUTimer.call, bind_def, pure_def, M.bind, M.pure,
        CPUTimer_MicroSeconds_eq env c t w hh]
      cases hr : t.running_
      · exact ⟨_, _, _, rfl, marksOrdered_congr c.now t _ keep rfl rfl rfl hr.symm,
          hsome _ (microseconds_nonneg env _ (sub_nonneg.mpr ((keep hh).2 hr)))⟩
      · exact ⟨_, _, _, rfl, marksOrdered_stopped_micro c.now t keep _,
          hsome _ (microseconds_nonneg env _ (sub_nonneg.mpr (keep hh).1))⟩
  · -- MilliSeconds
    cases hh : t.has_run_at_least_once_
    · simp only [CPUTimer.call, bind_def, pure_def, M.bind, M.pure,
        CPUTimer_MilliSeconds_never env c t w hh]
      exact ⟨_, _, _, rfl, keep, hsome 0 (le_refl _)⟩
    · simp only [CPUTimer.call, bind_def, pure_def, M.bind, M.pure,
        CPUTimer_MilliSeconds_eq env c t w hh]
      cases hr : t.running_
      · exact ⟨_, _, _, rfl, marksOrdered_congr c.now t _ keep rfl rfl rfl hr.symm,
          hsome _ (milliseconds_nonneg env _ (sub_nonneg.mpr ((keep hh).2 hr)))⟩
      · exact ⟨_, _, _, rfl, marksOrdered_stopped_milli c.now t keep _,
          hsome _ (milliseconds_nonneg env _ (sub_nonneg.mpr (keep hh).1))⟩
  · -- Seconds
    have hk : (0 : ℚ) ≤ 1000 := by norm_num
    cases hh : t.has_run_at_least_once_
    · simp only [CPUTimer.call, bind_def, pure_def, M.bind, M.pure, CPUTimer_Seconds_eq,
        CPUTimer_MilliSeconds_never env c t w hh, Outcome.map]
      exact ⟨_, _, _, rfl, keep,
        hsome _ (toFloat_nonneg _ (toDouble_nonneg _ (div_nonneg (le_refl _) hk)))⟩
    · simp only [CPUTimer.call, bind_def, pure_def, M.bind, M.pure, CPUTimer_Seconds_eq,
        CPUTimer_MilliSeconds_eq env c t w hh]
      cases hr : t.running_
      · exact ⟨_, _, _, rfl, marksOrdered_congr c.now t _ keep rfl rfl rfl hr.symm,
          hsome _ (toFloat_nonneg _ (toDouble_nonneg _ (div_nonneg (milliseconds_nonneg env _
            (sub_nonneg.mpr ((keep hh).2 hr))) hk)))⟩
      · exact ⟨_, _, _, rfl, marksOrdered_stopped_milli c.now t keep _,
          hsome _ (toFloat_nonneg _ (toDouble_nonneg _
            (div_nonneg (milliseconds_nonneg env _ (sub_nonneg.mpr (keep hh).1)) hk)))⟩

theorem CPUTimer_run_nonneg (env : Env) (calls : List Call) :
    ∀ (bound : Int) (t : Timer) (w : World), marksOrdered bound t →
      (∀ x ∈ calls, bound ≤ x.ctx.now) → nonDecreasingClock calls →
      nonnegValues (CPUTimer.run env calls t w) := by
  induction calls with
  | nil =>
    intro bound t w _ _ _
    simp [CPUTimer.run, runWith_nil, nonnegValues]
  | cons x xs ih =>
    intro bound t w hinv hb hclock
    obtain ⟨v, t1, w1, h1, h2, h3⟩ :=
      CPUTimer_call_ordered env x t w bound hinv (hb x (List.mem_cons_self _ _))
    have hp := List.pairwise_cons.mp hclock
    have hrest := ih x.ctx.now t1 w1 h2 hp.1 hp.2
    simp only [CPUTimer.run] at hrest ⊢
    rw [runWith_cons, h1]
    cases hxs : runWith (CPUTimer.call env) xs t1 w1 with
    | fatal w2 => simp [hxs, nonnegValues] at hrest
    | ok r t2 w2 =>
      simp only [hxs, nonnegValues] at hrest ⊢
      intro p hp q hq
      rcases List.mem_cons.mp hp with rfl | hmem
      · exact h3 q hq
      · exact hrest p hmem q hq

/-- C7: under a non-decreasing clock, every value returned by MicroSeconds(),
MilliSeconds() or Seconds() is >= 0, after any sequence of Start, Stop and
query calls on a timer that had never run before the sequence: for a CPUTimer,
and for a Timer whose mode selector reports Host at every call.  The sequence
always returns normally. -/
theorem C7_host_durations_nonnegative (env : Env) (calls : List Call)
    (hclock : nonDecreasingClock calls) (t : Timer) (w : World)
    (hnever : t.has_run_at_least_once_ = false) :
    nonnegValues (CPUTimer.run env calls t w) ∧
    (hostCalls calls → nonnegValues (Timer.run env calls t w)) := by
  have hinv : ∀ bound, marksOrdered bound t := by
    intro bound hh
    rw [hnever] at hh
    exact Bool.noConfusion hh
  have hcpu : nonnegValues (CPUTimer.run env calls t w) := by
    cases calls with
    | nil => simp [CPUTimer.run, runWith_nil, nonnegValues]
    | cons x xs =>
      have hp := List.pairwise_cons.mp hclock
      refine CPUTimer_run_nonneg env (x :: xs) x.ctx.now t w (hinv _) ?_ hclock
      intro y hy
      rcases List.mem_cons.mp hy with rfl | hmem
      · exact le_refl _
      · exact hp.1 y hmem
  refine ⟨hcpu, fun hhost => ?_⟩
  obtain ⟨r, t1, w1, u1, h1, h2, _⟩ := run_host_sim env calls hhost t w w
  rw [h2] at hcpu
  rw [h1]
  exact hcpu

theorem C7_host_durations_nonnegative_witness :
    nonDecreasingClock [⟨Op.Start, hostAt 1000⟩, ⟨Op.Stop, hostAt 3501000⟩,
      ⟨Op.Start, hostAt 3600000⟩, ⟨Op.MilliSeconds, hostAt 9600000⟩] ∧
    sampleTimer.has_run_at_least_once_ = false ∧
    nonnegValues (Timer.run sampleEnv [⟨Op.Start, hostAt 1000⟩, ⟨Op.Stop, hostAt 3501000⟩,
      ⟨Op.Start, hostAt 3600000⟩, ⟨Op.MilliSeconds, hostAt 9600000⟩] sampleTimer sampleWorld) := by
  have hc : nonDecreasingClock [⟨Op.Start, hostAt 1000⟩, ⟨Op.Stop, hostAt 3501000⟩,
      ⟨Op.Start, hostAt 3600000⟩, ⟨Op.MilliSeconds, hostAt 9600000⟩] := by
    simp [nonDecreasingClock, hostAt]
  exact ⟨hc, rfl, (C7_host_durations_nonnegative sampleEnv _ hc sampleTimer sampleWorld rfl).2
    (by simp [hostCalls, hostAt])⟩

/-! ## The interval measured by a host-mode query -/

theorem runWith_length (step : Call → M (Option ℚ)) (xs : List Call) :
    ∀ (t : Timer) (w : World) (r : List (Option ℚ × Timer)) (t1 : Timer) (w1 : World),
      runWith step xs t w = Outcome.ok r t1 w1 → r.length = xs.length := by
  induction xs with
  | nil =>
    intro t w r t1 w1 h
    rw [runWith_nil] at h
    simp only [Outcome.ok.injEq] at h
    rw [← h.1]
    rfl
  | cons x xs ih =>
    intro t w r t1 w1 h
    rw [runWith_cons] at h
    cases hx : step x t w with
    | fatal w2 => simp [hx] at h
    | ok v t2 w2 =>
      simp only [hx] at h
      cases hxs : runWith step xs t2 w2 with
      | fatal w3 => simp [hxs] at h
      | ok r3 t3 w3 =>
        simp only [hxs, Outcome.ok.injEq] at h
        rw [← h.1, List.length_cons, List.length_cons, ih t2 w2 r3 t3 w3 hxs]

theorem lastValue_cons (step : Call → M (Option ℚ)) (x : Call) (xs : List Call) (t : Timer)
    (w : World) (v : Option ℚ) (t1 : Timer) (w1 : World)
    (hx : step x t w = Outcome.ok v t1 w1) (hxs : xs ≠ []) :
    lastValue (runWith step (x :: xs) t w) = lastValue (runWith step xs t1 w1) := by
  rw [runWith_cons, hx]
  simp only []
  cases h : runWith step xs t1 w1 with
  | fatal w2 => rfl
  | ok r t2 w2 =>
    have hlen := runWith_length step xs t1 w1 r t2 w2 h
    cases r with
    | nil =>
      simp only [List.length_nil] at hlen
      exact absurd (List.length_eq_zero.mp hlen.symm) hxs
    | cons p ps => simp [lastValue, List.getLast?_cons_cons]

theorem lastValue_append (step : Call → M (Option ℚ)) (xs ys : List Call) (hys : ys ≠ []) :
    ∀ (t : Timer) (w : World) (r : List (Option ℚ × Timer)) (t1 : Timer) (w1 : World),
      runWith step xs t w = Outcome.ok r t1 w1 →
      lastValue (runWith step (xs ++ ys) t w) = lastValue (runWith step ys t1 w1) := by
  induction xs with
  | nil =>
    intro t w r t1 w1 h
    rw [runWith_nil] at h
    simp only [Outcome.ok.injEq] at h
    rw [List.nil_append, ← h.2.1, ← h.2.2]
  | cons x xs ih =>
    intro t w r t1 w1 h
    rw [runWith_cons] at h
    cases hx : step x t w with
    | fatal w2 => simp [hx] at h
    | ok v t2 w2 =>
      simp only [hx] at h
      cases hxs : runWith step xs t2 w2 with
      | fatal w3 => simp [hxs] at h
      | ok r3 t3 w3 =>
        simp only [hxs, Outcome.ok.injEq] at h
        rw [List.cons_append, lastValue_cons step x (xs ++ ys) t w v t2 w2 hx (by simp [hys]),
          ih t2 w2 r3 t3 w3 hxs, h.2.1, h.2.2]

theorem CPUTimer_call_consistent (env : Env) (x : Call) (t : Timer) (w : World)
    (hwf : t.consistent) :
    ∃ v t1 w1, CPUTimer.call env x t w = Outcome.ok v t1 w1 ∧ t1.consistent ∧
      (x.op ≠ Op.Start → t1.running_ = false) := by
  obtain ⟨op, c⟩ := x
  cases op
  · simp only [CPUTimer.call, bind_def, pure_def, M.bind, M.pure, CPUTimer_Start_eq]
    cases hr : t.running_
    · exact ⟨_, _, _, rfl, fun _ => rfl, fun h => absurd rfl h⟩
    · exact ⟨_, _, _, rfl, hwf, fun h => absurd rfl h⟩
  · simp only [CPUTimer.call, bind_def, pure_def, M.bind, M.pure, CPUTimer_Stop_eq]
    cases hr : t.running_
    · exact ⟨_, _, _, rfl, hwf, fun _ => hr⟩
    · exact ⟨_, _, _, rfl, fun h => Bool.noConfusion h, fun _ => rfl⟩
  · cases hh : t.has_run_at_least_once_
    · simp only [CPUTimer.call, bind_def, pure_def, M.bind, M.pure,
        CPUTimer_MicroSeconds_never env c t w hh]
      refine ⟨_, _, _, rfl, hwf, fun _ => ?_⟩
      cases hr : t.running_
      · rfl
      · rw [hwf hr] at hh
        exact Bool.noConfusion hh
    · simp only [CPUTimer.call, bind_def, pure_def, M.bind, M.pure,
        CPUTimer_MicroSeconds_eq env c t w hh]
      cases hr : t.running_
      · exact ⟨_, _, _, rfl, fun h => Bool.noConfusion h, fun _ => rfl⟩
      · exact ⟨_, _, _, rfl, fun h => Bool.noConfusion h, fun _ => rfl⟩
  · cases hh : t.has_run_at_least_once_
    · simp only [CPUTimer.call, bind_def, pure_def, M.bind, M.pure,
        CPUTimer_MilliSeconds_never env c t w hh]
      refine ⟨_, _, _, rfl, hwf, fun _ => ?_⟩
      cases hr : t.running_
      · rfl
      · rw [hwf hr] at hh
        exact Bool.noConfusion hh
    · simp only [CPUTimer.call, bind_def, pure_def, M.bind, M.pure,
        CPUTimer_MilliSeconds_eq env c t w hh]
      cases hr : t.running_
      · exact ⟨_, _, _, rfl, fun h => Bool.noConfusion h, fun _ => rfl⟩
      · exact ⟨_, _, _, rfl, fun h => Bool.noConfusion h, fun _ => rfl⟩
  · cases hh : t.has_run_at_least_once_
    · simp only [CPUTimer.call, bind_def, pure_def, M.bind, M.pure, CPUTimer_Seconds_eq,
        CPUTimer_MilliSeconds_never env c t w hh, Outcome.map]
      refine ⟨_, _, _, rfl, hwf, fun _ => ?_⟩
      cases hr : t.running_
      · rfl
      · rw [hwf hr] at hh
        exact Bool.noConfusion hh
    · simp only [CPUTimer.call, bind_def, pure_def, M.bind, M.pure, CPUTimer_Seconds_eq,
        CPUTimer_MilliSeconds_eq env c t w hh]
      cases hr : t.running_
      · exact ⟨_, _, _, rfl, fun h => Bool.noConfusion h, fun _ => rfl⟩
      · exact ⟨_, _, _, rfl, fun h => Bool.noConfusion h, fun _ => rfl⟩

theorem CPUTimer_run_prefix (env : Env) (pre : List Call) :
    ∀ (t : Timer) (w : World), t.consistent → (pre = [] → t.running_ = false) →
      (∀ y, pre.getLast? = some y → y.op ≠ Op.Start) →
      ∃ r t1 w1, CPUTimer.run env pre t w = Outcome.ok r t1 w1 ∧ t1.running_ = false := by
  induction pre with
  | nil =>
    intro t w _ hidle _
    exact ⟨[], t, w, runWith_nil _ t w, hidle rfl⟩
  | cons x xs ih =>
    intro t w hwf _ hlast
    obtain ⟨v, t1, w1, h1, h2, h3⟩ := CPUTimer_call_consistent env x t w hwf
    have hnil : xs = [] → t1.running_ = false := by
      intro hxs
      apply h3
      apply hlast x
      rw [hxs]
      rfl
    have hl : ∀ y, xs.getLast? = some y → y.op ≠ Op.Start := by
      intro y hy
      apply hlast y
      cases xs with
      | nil => simp at hy
      | cons z zs => rw [List.getLast?_cons_cons]; exact hy
    obtain ⟨r, t2, w2, k1, k2⟩ := ih t1 w1 h2 hnil hl
    refine ⟨(v, t1) :: r, t2, w2, ?_, k2⟩
    simp only [CPUTimer.run] at k1 ⊢
    rw [runWith_cons, h1]
    simp only [k1]

theorem CPUTimer_lastValue_starts (env : Env) (starts : List Call)
    (hstarts : ∀ x ∈ starts, x.op = Op.Start) (tail : List Call) (htail : tail ≠ [])
    (t : Timer) (w : World) (hr : t.running_ = true) :
    lastValue (runWith (CPUTimer.call env) (starts ++ tail) t w)
      = lastValue (runWith (CPUTimer.call env) tail t w) := by
  induction starts with
  | nil => rfl
  | cons x xs ih =>
    have hx : CPUTimer.call env x t w = Outcome.ok none t w := by
      obtain ⟨op, c⟩ := x
      have hop : op = Op.Start := hstarts ⟨op, c⟩ (List.mem_cons_self _ _)
      subst hop
      simp [CPUTimer.call, M.bind, M.pure, CPUTimer_Start_running c t w hr]
    rw [List.cons_append, lastValue_cons _ x (xs ++ tail) t w none t w hx (by simp [htail])]
    exact ih (fun y hy => hstarts y (List.mem_cons_of_mem _ hy))

theorem CPUTimer_run_tail (env : Env) (a b : Int) (xs : List Call) :
    ∀ (t : Timer) (w : World), noStart xs → t.start_cpu_ = a →
      t.has_run_at_least_once_ = true →
      (t.running_ = true → ∀ y, xs.head? = some y → y.ctx.now = b) →
      (t.running_ = false → t.stop_cpu_ = b) →
      ∃ r t1 w1, CPUTimer.run env xs t w = Outcome.ok r t1 w1 ∧
        r.map Prod.fst = xs.map (fun x => hostValue env a b x.op) := by
  induction xs with
  | nil =>
    intro t w _ _ _ _ _
    exact ⟨[], t, w, runWith_nil _ t w, rfl⟩
  | cons x xs ih =>
    intro t w hns ha hh hrun hidle
    have hxop : x.op ≠ Op.Start := hns x (List.mem_cons_self _ _)
    have hxs : noStart xs := fun y hy => hns y (List.mem_cons_of_mem _ hy)
    have step : ∃ t1 w1, CPUTimer.call env x t w = Outcome.ok (hostValue env a b x.op) t1 w1 ∧
        t1.start_cpu_ = a ∧ t1.has_run_at_least_once_ = true ∧ t1.running_ = false ∧
        t1.stop_cpu_ = b := by
      obtain ⟨op, c⟩ := x
      subst ha
      cases hr : t.running_
      · have hb := hidle hr
        subst hb
        cases op
        · exact absurd rfl hxop
        · simp only [CPUTimer.call, bind_def, pure_def, M.bind, M.pure, CPUTimer_Stop_eq, hr,
            Bool.false_eq_true, if_false, hostValue]
          exact ⟨_, _, rfl, rfl, hh, hr, rfl⟩
        · simp only [CPUTimer.call, bind_def, pure_def, M.bind, M.pure,
            CPUTimer_MicroSeconds_eq env c t w hh, hr, Bool.false_eq_true, if_false, hostValue]
          exact ⟨_, _, rfl, rfl, hh, rfl, rfl⟩
        · simp only [CPUTimer.call, bind_def, pure_def, M.bind, M.pure,
            CPUTimer_MilliSeconds_eq env c t w hh, hr, Bool.false_eq_true, if_false, hostValue]
          exact ⟨_, _, rfl, rfl, hh, rfl, rfl⟩
        · simp only [CPUTimer.call, bind_def, pure_def, M.bind, M.pure, CPUTimer_Seconds_eq,
            CPUTimer_MilliSeconds_eq env c t w hh, hr, Bool.false_eq_true, if_false, hostValue,
            Outcome.map]
          exact ⟨_, _, rfl, rfl, hh, rfl, rfl⟩
      · have hb : c.now = b := hrun hr ⟨op, c⟩ rfl
        subst hb
        cases op
        · exact absurd rfl hxop
        · simp only [CPUTimer.call, bind_def, pure_def, M.bind, M.pure, CPUTimer_Stop_eq, hr,
            if_true, hostValue]
          exact ⟨_, _, rfl, rfl, hh, rfl, rfl⟩
        · simp only [CPUTimer.call, bind_def, pure_def, M.bind, M.pure,
            CPUTimer_MicroSeconds_eq env c t w hh, hr, if_true, hostValue]
          exact ⟨_, _, rfl, rfl, hh, rfl, rfl⟩
        · simp only [CPUTimer.call, bind_def, pure_def, M.bind, M.pure,
            CPUTimer_MilliSeconds_eq env c t w hh, hr, if_true, hostValue]
          exact ⟨_, _, rfl, rfl, hh, rfl, rfl⟩
        · simp only [CPUTimer.call, bind_def, pure_def, M.bind, M.pure, CPUTimer_Seconds_eq,
            CPUTimer_MilliSeconds_eq env c t w hh, hr, if_true, hostValue, Outcome.map]
          exact ⟨_, _, rfl, rfl, hh, rfl, rfl⟩
    obtain ⟨t1, w1, h1, h2, h3, h4, h5⟩ := step
    obtain ⟨r, t2, w2, k1, k2⟩ :=
      ih t1 w1 hxs h2 h3 (fun h => by rw [h4] at h; exact Bool.noConfusion h) (fun _ => h5)
    refine ⟨(hostValue env a b x.op, t1) :: r, t2, w2, ?_, ?_⟩
    · simp only [CPUTimer.run] at k1 ⊢
      rw [runWith_cons, h1]
      simp only [k1]
    · simp only [List.map_cons, k2]

theorem CPUTimer_cycle_value (env : Env) (t : Timer) (w : World) (hidle : t.running_ = false)
    (pre starts mid : List Call) (c1 : Ctx) (q : Call) (hq : q.op ≠ Op.Start)
    (hpre : ∀ y, pre.getLast? = some y → y.op ≠ Op.Start)
    (hstarts : ∀ x ∈ starts, x.op = Op.Start) (hmid : noStart mid) :
    lastValue (CPUTimer.run env (pre ++ ⟨Op.Start, c1⟩ :: starts ++ mid ++ [q]) t w)
      = hostValue env c1.now (effectiveStopInstant mid q.ctx) q.op := by
  have hcons : t.consistent := fun h => by rw [hidle] at h; exact Bool.noConfusion h
  obtain ⟨r0, t0, w0, h0, hidle0⟩ := CPUTimer_run_prefix env pre t w hcons (fun _ => hidle) hpre
  have hshape : pre ++ ⟨Op.Start, c1⟩ :: starts ++ mid ++ [q]
      = pre ++ (⟨Op.Start, c1⟩ :: (starts ++ (mid ++ [q]))) := by simp
  have htail : mid ++ [q] ≠ [] := by simp
  have hstart := CPUTimer_Start_idle c1 t0 w0 hidle0
  have hcall : CPUTimer.call env ⟨Op.Start, c1⟩ t0 w0 = Outcome.ok none
      { t0 with start_cpu_ := c1.now, running_ := true, has_run_at_least_once_ := true }
      { w0 with log := w0.log ++ [Event.clockNow c1.now] } := by
    simp [CPUTimer.call, M.bind, M.pure, hstart]
  simp only [CPUTimer.run] at h0 ⊢
  rw [hshape, lastValue_append _ pre _ (by simp) t w r0 t0 w0 h0,
    lastValue_cons _ _ _ t0 w0 none _ _ hcall (by simp),
    CPUTimer_lastValue_starts env starts hstarts (mid ++ [q]) htail _ _ rfl]
  obtain ⟨r, t1, w1, k1, k2⟩ := CPUTimer_run_tail env c1.now (effectiveStopInstant mid q.ctx)
    (mid ++ [q])
    { t0 with start_cpu_ := c1.now, running_ := true, has_run_at_least_once_ := true }
    { w0 with log := w0.log ++ [Event.clockNow c1.now] }
    (by
      intro y hy
      rcases List.mem_append.mp hy with h | h
      · exact hmid y h
      · rw [List.mem_singleton.mp h]; exact hq)
    rfl rfl
    (by
      intro _ y hy
      cases mid with
      | nil =>
        simp only [List.nil_append, List.head?_cons, Option.some.injEq] at hy
        rw [← hy]
        rfl
      | cons z zs =>
        simp only [List.cons_append, List.head?_cons, Option.some.injEq] at hy
        rw [← hy]
        rfl)
    (fun h => Bool.noConfusion h)
  simp only [CPUTimer.run] at k1
  rw [k1]
  simp [lastValue, k2]

/-- C2 (amended): for a CPUTimer, and for a Timer whose mode selector reports
Host at every call, a query returns the `float` conversion of the difference
between the instant captured by the most recent effective Stop and the instant
captured by the most recent effective Start, whatever came before.  The timer
starts not Running (as after construction); `pre` is any earlier history that
does not leave a Start pending, the call `Start` at `c1` is the most recent
effective Start, `starts` are further Start calls (ineffective while Running),
and `mid` are the Stop and query calls made before the final query.  The
effective Stop is the first call after the last Start: the first call of
`mid`, or the final query itself when `mid` is empty.  MicroSeconds() then
returns the float nearest to that difference in whole microseconds and
MilliSeconds() the float nearest to it in whole milliseconds: the whole count
itself when it is below 2^24, and within a relative error of 2^-24 of it in
every case; neither `pre` nor the marks of the initial state occur in the
result. -/
theorem C2_host_query_measures_last_cycle (env : Env) (t : Timer) (w : World)
    (hidle : t.running_ = false) (pre starts mid : List Call) (c1 cq : Ctx)
    (hpre : ∀ y, pre.getLast? = some y → y.op ≠ Op.Start)
    (hstarts : ∀ x ∈ starts, x.op = Op.Start) (hmid : noStart mid) :
    (∃ v, lastValue (CPUTimer.run env
          (pre ++ ⟨Op.Start, c1⟩ :: starts ++ mid ++ [⟨Op.MicroSeconds, cq⟩]) t w) = some v ∧
      convertsToFloat (microseconds env (effectiveStopInstant mid cq - c1.now)) v) ∧
    (∃ v, lastValue (CPUTimer.run env
          (pre ++ ⟨Op.Start, c1⟩ :: starts ++ mid ++ [⟨Op.MilliSeconds, cq⟩]) t w) = some v ∧
      convertsToFloat (milliseconds env (effectiveStopInstant mid cq - c1.now)) v) ∧
    (hostCalls (pre ++ ⟨Op.Start, c1⟩ :: starts ++ mid) → cq.mode = Mode.CPU →
      (∃ v, lastValue (Timer.run env
            (pre ++ ⟨Op.Start, c1⟩ :: starts ++ mid ++ [⟨Op.MicroSeconds, cq⟩]) t w) = some v ∧
        convertsToFloat (microseconds env (effectiveStopInstant mid cq - c1.now)) v) ∧
      (∃ v, lastValue (Timer.run env
            (pre ++ ⟨Op.Start, c1⟩ :: starts ++ mid ++ [⟨Op.MilliSeconds, cq⟩]) t w) = some v ∧
        convertsToFloat (milliseconds env (effectiveStopInstant mid cq - c1.now)) v)) := by
  have hus := CPUTimer_cycle_value env t w hidle pre starts mid c1 ⟨Op.MicroSeconds, cq⟩
    (by simp) hpre hstarts hmid
  have hms := CPUTimer_cycle_value env t w hidle pre starts mid c1 ⟨Op.MilliSeconds, cq⟩
    (by simp) hpre hstarts hmid
  refine ⟨⟨_, hus, convertsToFloat_toFloat _⟩, ⟨_, hms, convertsToFloat_toFloat _⟩,
    fun hhost hcq => ?_⟩
  have hall : ∀ op, hostCalls (pre ++ ⟨Op.Start, c1⟩ :: starts ++ mid ++ [⟨op, cq⟩]) := by
    intro op y hy
    rcases List.mem_append.mp hy with h | h
    · exact hhost y h
    · rw [List.mem_singleton.mp h]; exact hcq
  constructor
  · obtain ⟨r, t1, w1, u1, h1, h2, _⟩ := run_host_sim env _ (hall Op.MicroSeconds) t w w
    rw [h1]
    rw [h2] at hus
    exact ⟨_, hus, convertsToFloat_toFloat _⟩
  · obtain ⟨r, t1, w1, u1, h1, h2, _⟩ := run_host_sim env _ (hall Op.MilliSeconds) t w w
    rw [h1]
    rw [h2] at hms
    exact ⟨_, hms, convertsToFloat_toFloat _⟩

theorem exists_last_cycle (calls : List Call) (h : ∃ x ∈ calls, x.op = Op.Start) :
    ∃ pre c1 starts mid, calls = pre ++ ⟨Op.Start, c1⟩ :: starts ++ mid ∧
      (∀ y, pre.getLast? = some y → y.op ≠ Op.Start) ∧
      (∀ x ∈ starts, x.op = Op.Start) ∧ noStart mid := by
  induction calls with
  | nil =>
    obtain ⟨x, hx, _⟩ := h
    simp at hx
  | cons x xs ih =>
    by_cases hxs : ∃ y ∈ xs, y.op = Op.Start
    · obtain ⟨pre, c1, starts, mid, e, h1, h2, h3⟩ := ih hxs
      cases pre with
      | nil =>
        by_cases hx : x.op = Op.Start
        · refine ⟨[], x.ctx, ⟨Op.Start, c1⟩ :: starts, mid, ?_, by simp, ?_, h3⟩
          · obtain ⟨op, c⟩ := x
            simp only at hx
            subst hx
            simp [e]
          · intro y hy
            rcases List.mem_cons.mp hy with rfl | hmem
            · rfl
            · exact h2 y hmem
        · refine ⟨[x], c1, starts, mid, by simp [e], ?_, h2, h3⟩
          intro y hy
          simp only [List.getLast?_singleton, Option.some.injEq] at hy
          rw [← hy]
          exact hx
      | cons p ps =>
        refine ⟨x :: p :: ps, c1, starts, mid, by simp [e], ?_, h2, h3⟩
        intro y hy
        rw [List.getLast?_cons_cons] at hy
        exact h1 y hy
    · have hx : x.op = Op.Start := by
        obtain ⟨y, hy, hyop⟩ := h
        rcases List.mem_cons.mp hy with rfl | hmem
        · exact hyop
        · exact absurd ⟨y, hmem, hyop⟩ hxs
      refine ⟨[], x.ctx, [], xs, ?_, by simp, by simp, ?_⟩
      · obtain ⟨op, c⟩ := x
        simp only at hx
        subst hx
        simp
      · intro y hy hyop
        exact hxs ⟨y, hy, hyop⟩

theorem C2_host_query_measures_last_cycle_witness :
    sampleTimer.running_ = false ∧
    lastValue (Timer.run sampleEnv
        ([⟨Op.Start, hostAt 1000⟩, ⟨Op.Stop, hostAt 2000⟩] ++ ⟨Op.Start, hostAt 5000⟩ ::
          [⟨Op.Start, hostAt 6000⟩] ++ [⟨Op.Stop, hostAt 2505999⟩, ⟨Op.Seconds, hostAt 2600000⟩]
          ++ [⟨Op.MicroSeconds, hostAt 2700000⟩]) sampleTimer sampleWorld) = some 2500 ∧
    lastValue (Timer.run sampleEnv
        ([⟨Op.Start, hostAt 1000⟩, ⟨Op.Stop, hostAt 2000⟩] ++ ⟨Op.Start, hostAt 5000⟩ ::
          [⟨Op.Start, hostAt 6000⟩] ++ [⟨Op.Stop, hostAt 2505999⟩, ⟨Op.Seconds, hostAt 2600000⟩]
          ++ [⟨Op.MilliSeconds, hostAt 2700000⟩]) sampleTimer sampleWorld) = some 2 := by
  have h := (C2_host_query_measures_last_cycle sampleEnv sampleTimer sampleWorld rfl
    [⟨Op.Start, hostAt 1000⟩, ⟨Op.Stop, hostAt 2000⟩] [⟨Op.Start, hostAt 6000⟩]
    [⟨Op.Stop, hostAt 2505999⟩, ⟨Op.Seconds, hostAt 2600000⟩] (hostAt 5000) (hostAt 2700000)
    (by simp) (by simp) (by simp [noStart])).2.2 (by simp [hostCalls, hostAt]) rfl
  obtain ⟨⟨v1, e1, _, x1, _⟩, ⟨v2, e2, _, x2, _⟩⟩ := h
  refine ⟨rfl, ?_, ?_⟩
  · rw [e1, x1 (by decide)]
    decide
  · rw [e2, x2 (by decide)]
    decide

/-- C2, counterexample: on a host-mode Timer with a nanosecond clock, Start at
instant 0 and MicroSeconds() at instant 16777217000 are 16777217 whole
microseconds apart, but the value returned is 16777216: the count does not
fit the 24 significand bits of a `float`. -/
theorem C2_counterexample_count_above_float_precision :
    microseconds sampleEnv (16777217000 - 0) = 16777217 ∧
    lastValue (Timer.run sampleEnv
        [⟨Op.Start, hostAt 0⟩, ⟨Op.MicroSeconds, hostAt 16777217000⟩] sampleTimer sampleWorld)
      = some 16777216 ∧
    lastValue (Timer.run sampleEnv
        [⟨Op.Start, hostAt 0⟩, ⟨Op.MicroSeconds, hostAt 16777217000⟩] sampleTimer sampleWorld)
      ≠ some ((microseconds sampleEnv (16777217000 - 0) : Int) : ℚ) := by
  have hm : microseconds sampleEnv (16777217000 - 0) = 16777217 := by decide
  have hf : toFloat 16777217 = 16777216 := by
    have h := roundToFormat_eval 24 (-126) 16777217 24 8388608 (by norm_num) (by norm_num)
      (by norm_num) (by norm_num)
      (by rw [roundNearestEven_of_tie _ 8388608 (by norm_num)]; norm_num)
    unfold toFloat
    rw [h]
    norm_num
  have hv : lastValue (Timer.run sampleEnv
        [⟨Op.Start, hostAt 0⟩, ⟨Op.MicroSeconds, hostAt 16777217000⟩] sampleTimer sampleWorld)
      = some 16777216 := by
    have hm2 : microseconds sampleEnv 16777217000 = 16777217 := by decide
    simp [Timer.run, runWith_cons, runWith_nil, Timer.call, M.bind, M.pure, Timer_Start_host_eq,
      Timer_MicroSeconds_host_eq, hostAt, sampleTimer, lastValue, hm2, hf]
  refine ⟨hm, hv, ?_⟩
  rw [hv, hm]
  norm_num

/-! ## Running implies has-run-once in every state reached through the API -/

theorem Timer_Start_consistent (env : Env) (c : Ctx) (t : Timer) (w : World) (t1 : Timer)
    (w1 : World) (hwf : t.consistent) (h : Timer.Start env c t w = Outcome.ok () t1 w1) :
    t1.consistent := by
  cases hr : t.running_
  · by_cases hm : c.mode = Mode.GPU
    · by_cases hc : env.CPU_ONLY = true
      · simp [Timer.Start, M.bind, M.pure, running, getT, hr, hm, hc, Caffe.mode, emit, NO_GPU,
          LOG_FATAL] at h
      · by_cases h1 : env.cudaSuccess w.cudaCalls = true
        · simp [Timer.Start, M.bind, M.pure, running, getT, hr, hm, hc, Caffe.mode, emit,
            CUDA_CHECK, cudaEventRecord, h1, modifyT] at h
          rw [← h.1]
          exact fun _ => rfl
        · simp [Timer.Start, M.bind, M.pure, running, getT, hr, hm, hc, Caffe.mode, emit,
            CUDA_CHECK, cudaEventRecord, h1, modifyT, LOG_FATAL] at h
    · rw [Timer_Start_host env c t w hr (mode_eq_CPU_of_ne_GPU _ hm)] at h
      simp only [Outcome.ok.injEq, true_and] at h
      rw [← h.1]
      exact fun _ => rfl
  · rw [Timer_Start_running env c t w hr] at h
    simp only [Outcome.ok.injEq, true_and] at h
    rw [← h.1]
    exact hwf

theorem Timer_call_consistent (env : Env) (x : Call) (t : Timer) (w : World) (v : Option ℚ)
    (t1 : Timer) (w1 : World) (hwf : t.consistent)
    (h : Timer.call env x t w = Outcome.ok v t1 w1) : t1.consistent := by
  have stopped : ∀ s : Timer, s.running_ = false → s.consistent :=
    fun s h0 h' => by rw [h0] at h'; exact Bool.noConfusion h'
  have never : t.has_run_at_least_once_ = false → t.running_ = false := by
    intro hh
    cases hr : t.running_
    · rfl
    · rw [hwf hr] at hh
      exact Bool.noConfusion hh
  obtain ⟨op, c⟩ := x
  cases op
  · simp only [Timer.call, bind_def, pure_def, M.bind, M.pure] at h
    cases hS : Timer.Start env c t w with
    | fatal w2 => simp [hS] at h
    | ok u t2 w2 =>
      simp only [hS, Outcome.ok.injEq] at h
      rw [← h.2.1]
      exact Timer_Start_consistent env c t w t2 w2 hwf hS
  · simp only [Timer.call, bind_def, pure_def, M.bind, M.pure] at h
    cases hS : Timer.Stop env c t w with
    | fatal w2 => simp [hS] at h
    | ok u t2 w2 =>
      simp only [hS, Outcome.ok.injEq] at h
      rw [← h.2.1]
      exact stopped _ (Timer_Stop_frame env c t w t2 w2 hS).1
  · simp only [Timer.call, bind_def, pure_def, M.bind, M.pure] at h
    cases hS : Timer.MicroSeconds env c t w with
    | fatal w2 => simp [hS] at h
    | ok u t2 w2 =>
      simp only [hS, Outcome.ok.injEq] at h
      rw [← h.2.1]
      cases hh : t.has_run_at_least_once_
      · rw [Timer_MicroSeconds_never env c t w hh] at hS
        simp only [Outcome.ok.injEq] at hS
        rw [← hS.2.1]
        exact hwf
      · exact stopped _ (Timer_MicroSeconds_stopped env c t w u t2 w2 hh hS)
  · simp only [Timer.call, bind_def, pure_def, M.bind, M.pure] at h
    cases hS : Timer.MilliSeconds env c t w with
    | fatal w2 => simp [hS] at h
    | ok u t2 w2 =>
      simp only [hS, Outcome.ok.injEq] at h
      rw [← h.2.1]
      cases hh : t.has_run_at_least_once_
      · rw [Timer_MilliSeconds_never env c t w hh] at hS
        simp only [Outcome.ok.injEq] at hS
        rw [← hS.2.1]
        exact hwf
      · exact stopped _ (Timer_MilliSeconds_stopped env c t w u t2 w2 hh hS)
  · simp only [Timer.call, bind_def, pure_def, M.bind, M.pure, Timer_Seconds_eq] at h
    cases hS : Timer.MilliSeconds env c t w with
    | fatal w2 => simp [hS, Outcome.map] at h
    | ok u t2 w2 =>
      simp only [hS, Outcome.map, Outcome.ok.injEq] at h
      rw [← h.2.1]
      cases hh : t.has_run_at_least_once_
      · rw [Timer_MilliSeconds_never env c t w hh] at hS
        simp only [Outcome.ok.injEq] at hS
        rw [← hS.2.1]
        exact hwf
      · exact stopped _ (Timer_MilliSeconds_stopped env c t w u t2 w2 hh hS)

theorem Timer_construct_flags (env : Env) (c : Ctx) (raw : Timer) (w : World) (t1 : Timer)
    (w1 : World) (h : Timer.construct env c raw w = Outcome.ok () t1 w1) :
    t1.running_ = false ∧ t1.has_run_at_least_once_ = false ∧ t1.initted_ = true := by
  by_cases hm : c.mode = Mode.GPU
  · by_cases hc : env.CPU_ONLY = true
    · simp [Timer.construct, Timer.Init, M.bind, M.pure, initted, getT, modifyT, hm, hc,
        Caffe.mode, emit, NO_GPU, LOG_FATAL] at h
    · by_cases h1 : env.cudaSuccess w.cudaCalls = true
      · by_cases h2 : env.cudaSuccess (w.cudaCalls + 1) = true
        · simp [Timer.construct, Timer.Init, M.bind, M.pure, initted, getT, modifyT, hm, hc,
            Caffe.mode, emit, CUDA_CHECK, cudaEventCreate, h1, h2] at h
          rw [← h.1]
          exact ⟨rfl, rfl, rfl⟩
        · simp [Timer.construct, Timer.Init, M.bind, M.pure, initted, getT, modifyT, hm, hc,
            Caffe.mode, emit, CUDA_CHECK, cudaEventCreate, h1, h2, LOG_FATAL] at h
      · simp [Timer.construct, Timer.Init, M.bind, M.pure, initted, getT, modifyT, hm, hc,
          Caffe.mode, emit, CUDA_CHECK, cudaEventCreate, h1, LOG_FATAL] at h
  · simp [Timer.construct, Timer.Init, M.bind, M.pure, initted, getT, modifyT, hm,
      Caffe.mode, emit] at h
    rw [← h.1]
    exact ⟨rfl, rfl, rfl⟩

theorem CPUTimer_construct_flags (raw : Timer) (w : World) :
    CPUTimer.construct raw w =
      Outcome.ok () { raw with initted_ := true, running_ := false,
                               has_run_at_least_once_ := false } w := by
  simp [CPUTimer.construct, M.bind, modifyT]

/-! ## The life cycle of a CPUTimer -/

theorem hostExtension_refl (w : World) : w.hostExtension w :=
  ⟨rfl, rfl, rfl, [], by simp, by simp⟩

theorem hostExtension_trans (w w1 w2 : World) (h1 : w.hostExtension w1)
    (h2 : w1.hostExtension w2) : w.hostExtension w2 := by
  obtain ⟨a1, a2, a3, es, a4, a5⟩ := h1
  obtain ⟨b1, b2, b3, fs, b4, b5⟩ := h2
  refine ⟨b1.trans a1, b2.trans a2, b3.trans a3, es ++ fs, ?_, ?_⟩
  · rw [b4, a4, List.append_assoc]
  · intro e he
    rcases List.mem_append.mp he with h | h
    · exact a5 e h
    · exact b5 e h

theorem hostExtension_clock (w : World) (n : Int) :
    w.hostExtension { w with log := w.log ++ [Event.clockNow n] } :=
  ⟨rfl, rfl, rfl, [Event.clockNow n], rfl, by simp [Event.isHostOnly]⟩

theorem hostExtension_warning (w : World) :
    w.hostExtension { w with log := w.log ++ [Event.warning] } :=
  ⟨rfl, rfl, rfl, [Event.warning], rfl, by simp [Event.isHostOnly]⟩

theorem CPUTimer_call_hostOnly (env : Env) (x : Call) (t : Timer) (w : World) :
    ∃ v t1 w1, CPUTimer.call env x t w = Outcome.ok v t1 w1 ∧ w.hostExtension w1 := by
  obtain ⟨op, c⟩ := x
  cases hh : t.has_run_at_least_once_ <;> cases hr : t.running_ <;> cases op <;>
    simp only [CPUTimer.call, bind_def, pure_def, M.bind, M.pure, CPUTimer_Seconds_eq,
      CPUTimer_MicroSeconds_eq env c t w, CPUTimer_MilliSeconds_eq env c t w,
      CPUTimer_MicroSeconds_never env c t w, CPUTimer_MilliSeconds_never env c t w,
      CPUTimer_Start_eq, CPUTimer_Stop_eq, hr, hh, if_true, if_false, Outcome.map,
      Bool.false_eq_true] <;>
    first
      | exact ⟨_, _, _, rfl, hostExtension_refl w⟩
      | exact ⟨_, _, _, rfl, hostExtension_clock w c.now⟩
      | exact ⟨_, _, _, rfl, hostExtension_warning w⟩

theorem CPUTimer_run_hostOnly (env : Env) (calls : List Call) :
    ∀ (t : Timer) (w : World),
      ∃ r t1 w1, CPUTimer.run env calls t w = Outcome.ok r t1 w1 ∧ w.hostExtension w1 := by
  induction calls with
  | nil =>
    intro t w
    exact ⟨[], t, w, runWith_nil _ t w, hostExtension_refl w⟩
  | cons x xs ih =>
    intro t w
    obtain ⟨v, t1, w1, h1, h2⟩ := CPUTimer_call_hostOnly env x t w
    obtain ⟨r, t2, w2, k1, k2⟩ := ih t1 w1
    refine ⟨(v, t1) :: r, t2, w2, ?_, hostExtension_trans w w1 w2 h2 k2⟩
    simp only [CPUTimer.run] at k1 ⊢
    rw [runWith_cons, h1]
    simp only [k1]

/-! ## What a call of `Timer` does to the flags and to the effect log, in every mode -/

theorem Timer_Start_ok (env : Env) (c : Ctx) (t : Timer) (w : World) (t1 : Timer)
    (w1 : World) (h : Timer.Start env c t w = Outcome.ok () t1 w1) :
    t1.running_ = true ∧
    (t1.has_run_at_least_once_ = true ↔ t.has_run_at_least_once_ = true ∨ t.running_ = false) ∧
    t1.initted_ = t.initted_ ∧ t1.start_gpu_ = t.start_gpu_ ∧ t1.stop_gpu_ = t.stop_gpu_ ∧
    w.sameMarkerCalls w1 ∧ w1.warnings = w.warnings := by
  cases hr : t.running_
  · by_cases hm : c.mode = Mode.GPU
    · by_cases hc : env.CPU_ONLY = true
      · simp [Timer.Start, M.bind, M.pure, running, getT, hr, hm, hc, Caffe.mode, emit, NO_GPU,
          LOG_FATAL] at h
      · by_cases h1 : env.cudaSuccess w.cudaCalls = true
        · simp [Timer.Start, M.bind, M.pure, running, getT, hr, hm, hc, Caffe.mode, emit,
            CUDA_CHECK, cudaEventRecord, h1, modifyT] at h
          obtain ⟨rfl, rfl⟩ := h
          simp [World.sameMarkerCalls, World.creations, World.releases, World.warnings,
            Event.isCreate, Event.isDestroy, Event.isWarning]
        · simp [Timer.Start, M.bind, M.pure, running, getT, hr, hm, hc, Caffe.mode, emit,
            CUDA_CHECK, cudaEventRecord, h1, modifyT, LOG_FATAL] at h
    · rw [Timer_Start_host env c t w hr (mode_eq_CPU_of_ne_GPU _ hm)] at h
      simp only [Outcome.ok.injEq, true_and] at h
      obtain ⟨rfl, rfl⟩ := h
      simp [World.sameMarkerCalls, World.creations, World.releases, World.warnings,
        Event.isCreate, Event.isDestroy, Event.isWarning]
  · rw [Timer_Start_running env c t w hr] at h
    simp only [Outcome.ok.injEq, true_and] at h
    obtain ⟨rfl, rfl⟩ := h
    simp [World.sameMarkerCalls, hr]

theorem sameMarkerCalls_refl (w : World) : w.sameMarkerCalls w := fun _ => ⟨rfl, rfl⟩

theorem sameMarkerCalls_trans (w w1 w2 : World) (h1 : w.sameMarkerCalls w1)
    (h2 : w1.sameMarkerCalls w2) : w.sameMarkerCalls w2 :=
  fun k => ⟨((h2 k).1).trans (h1 k).1, ((h2 k).2).trans (h1 k).2⟩

theorem keepsMarkers_pure {α : Type} (a : α) : keepsMarkers (pure a : M α) :=
  fun _ w => sameMarkerCalls_refl w

theorem keepsMarkers_bind {α β : Type} (x : M α) (f : α → M β) (hx : keepsMarkers x)
    (hf : ∀ a, keepsMarkers (f a)) : keepsMarkers (x >>= f) := by
  intro t w
  have h1 := hx t w
  simp only [bind_def, M.bind]
  cases h : x t w with
  | fatal u =>
    rw [h] at h1
    exact h1
  | ok a t1 w1 =>
    rw [h] at h1
    exact sameMarkerCalls_trans w w1 _ h1 (hf a t1 w1)

theorem keepsMarkers_ite {α : Type} (c : Prop) [Decidable c] (x y : M α) (hx : keepsMarkers x)
    (hy : keepsMarkers y) : keepsMarkers (if c then x else y) := by
  split
  · exact hx
  · exact hy

theorem keepsMarkers_getT : keepsMarkers getT := fun _ w => sameMarkerCalls_refl w

theorem keepsMarkers_modifyT (f : Timer → Timer) : keepsMarkers (modifyT f) :=
  fun _ w => sameMarkerCalls_refl w

theorem keepsMarkers_LOG_FATAL {α : Type} : keepsMarkers (LOG_FATAL : M α) :=
  fun _ w => sameMarkerCalls_refl w

theorem keepsMarkers_emit (e : Event) (h1 : ∀ k, e.isCreate k = false)
    (h2 : ∀ k, e.isDestroy k = false) : keepsMarkers (emit e) := by
  intro t w k
  simp [emit, Outcome.world, World.creations, World.releases, List.countP_append, h1, h2]

theorem keepsMarkers_running : keepsMarkers running := fun _ w => sameMarkerCalls_refl w

theorem keepsMarkers_has_run : keepsMarkers has_run_at_least_once :=
  fun _ w => sameMarkerCalls_refl w

theorem keepsMarkers_mode (c : Ctx) : keepsMarkers (Caffe.mode c) := by
  intro t w k
  simp [Caffe.mode, M.bind, M.pure, emit, Outcome.world, World.creations, World.releases,
    List.countP_append, Event.isCreate, Event.isDestroy]

theorem keepsMarkers_clock (c : Ctx) : keepsMarkers (clock.now c) := by
  intro t w k
  simp [clock.now, M.bind, M.pure, emit, Outcome.world, World.creations, World.releases,
    List.countP_append, Event.isCreate, Event.isDestroy]

theorem keepsMarkers_warning : keepsMarkers LOG_WARNING := by
  intro t w k
  simp [LOG_WARNING, emit, Outcome.world, World.creations, World.releases,
    List.countP_append, Event.isCreate, Event.isDestroy]

theorem keepsMarkers_CUDA_CHECK (call : M Bool) (h : keepsMarkers call) :
    keepsMarkers (CUDA_CHECK call) := by
  unfold CUDA_CHECK
  apply keepsMarkers_bind _ _ h
  intro a
  apply keepsMarkers_ite
  · exact keepsMarkers_pure _
  · exact keepsMarkers_LOG_FATAL

theorem keepsMarkers_record (env : Env) (k : Marker) : keepsMarkers (cudaEventRecord env k) := by
  intro t w j
  cases k <;> by_cases h : env.cudaSuccess w.cudaCalls = true <;>
    simp [cudaEventRecord, h, Outcome.world, World.creations, World.releases,
      List.countP_append, Event.isCreate, Event.isDestroy]

theorem keepsMarkers_synchronize (env : Env) (k : Marker) :
    keepsMarkers (cudaEventSynchronize env k) := by
  intro t w j
  simp [cudaEventSynchronize, Outcome.world, World.creations, World.releases,
    List.countP_append, Event.isCreate, Event.isDestroy]

theorem keepsMarkers_elapsed (env : Env) : keepsMarkers (cudaEventElapsedTime env) := by
  intro t w j
  by_cases h : env.cudaSuccess w.cudaCalls = true <;>
    simp [cudaEventElapsedTime, h, Outcome.world, World.creations, World.releases,
      List.countP_append, Event.isCreate, Event.isDestroy]

theorem keepsMarkers_Start (env : Env) (c : Ctx) : keepsMarkers (Timer.Start env c) := by
  unfold Timer.Start
  repeat first
    | exact keepsMarkers_pure _
    | exact keepsMarkers_running
    | exact keepsMarkers_mode _
    | exact keepsMarkers_clock _
    | exact keepsMarkers_modifyT _
    | exact keepsMarkers_LOG_FATAL
    | exact keepsMarkers_CUDA_CHECK _ (keepsMarkers_record _ _)
    | apply keepsMarkers_bind
    | apply keepsMarkers_ite
    | intro _

theorem keepsMarkers_Stop (env : Env) (c : Ctx) : keepsMarkers (Timer.Stop env c) := by
  unfold Timer.Stop
  repeat first
    | exact keepsMarkers_pure _
    | exact keepsMarkers_running
    | exact keepsMarkers_mode _
    | exact keepsMarkers_clock _
    | exact keepsMarkers_modifyT _
    | exact keepsMarkers_LOG_FATAL
    | exact keepsMarkers_CUDA_CHECK _ (keepsMarkers_record _ _)
    | exact keepsMarkers_CUDA_CHECK _ (keepsMarkers_synchronize _ _)
    | apply keepsMarkers_bind
    | apply keepsMarkers_ite
    | intro _

theorem keepsMarkers_MicroSeconds (env : Env) (c : Ctx) :
    keepsMarkers (Timer.MicroSeconds env c) := by
  unfold Timer.MicroSeconds
  repeat first
    | exact keepsMarkers_pure _
    | exact keepsMarkers_running
    | exact keepsMarkers_has_run
    | exact keepsMarkers_getT
    | exact keepsMarkers_warning
    | exact keepsMarkers_mode _
    | exact keepsMarkers_modifyT _
    | exact keepsMarkers_LOG_FATAL
    | exact keepsMarkers_Stop _ _
    | exact keepsMarkers_CUDA_CHECK _ (keepsMarkers_elapsed _)
    | apply keepsMarkers_bind
    | apply keepsMarkers_ite
    | intro _

theorem keepsMarkers_MilliSeconds (env : Env) (c : Ctx) :
    keepsMarkers (Timer.MilliSeconds env c) := by
  unfold Timer.MilliSeconds
  repeat first
    | exact keepsMarkers_pure _
    | exact keepsMarkers_running
    | exact keepsMarkers_has_run
    | exact keepsMarkers_getT
    | exact keepsMarkers_warning
    | exact keepsMarkers_mode _
    | exact keepsMarkers_modifyT _
    | exact keepsMarkers_LOG_FATAL
    | exact keepsMarkers_Stop _ _
    | exact keepsMarkers_CUDA_CHECK _ (keepsMarkers_elapsed _)
    | apply keepsMarkers_bind
    | apply keepsMarkers_ite
    | intro _

theorem keepsMarkers_Seconds (env : Env) (c : Ctx) : keepsMarkers (Timer.Seconds env c) := by
  unfold Timer.Seconds
  exact keepsMarkers_bind _ _ (keepsMarkers_MilliSeconds env c) (fun _ => keepsMarkers_pure _)

theorem keepsMarkers_call (env : Env) (x : Call) : keepsMarkers (Timer.call env x) := by
  obtain ⟨op, c⟩ := x
  cases op
  · exact keepsMarkers_bind _ _ (keepsMarkers_Start env c) (fun _ => keepsMarkers_pure _)
  · exact keepsMarkers_bind _ _ (keepsMarkers_Stop env c) (fun _ => keepsMarkers_pure _)
  · exact keepsMarkers_bind _ _ (keepsMarkers_MicroSeconds env c) (fun _ => keepsMarkers_pure _)
  · exact keepsMarkers_bind _ _ (keepsMarkers_MilliSeconds env c) (fun _ => keepsMarkers_pure _)
  · exact keepsMarkers_bind _ _ (keepsMarkers_Seconds env c) (fun _ => keepsMarkers_pure _)

theorem keepsMarkers_run (env : Env) (calls : List Call) : keepsMarkers (Timer.run env calls) := by
  induction calls with
  | nil => exact keepsMarkers_pure _
  | cons x xs ih =>
    unfold Timer.run runWith
    apply keepsMarkers_bind _ _ (keepsMarkers_call env x)
    intro v
    apply keepsMarkers_bind _ _ keepsMarkers_getT
    intro t
    apply keepsMarkers_bind _ _ ih
    intro r
    exact keepsMarkers_pure _

theorem Timer_Stop_ok (env : Env) (c : Ctx) (t : Timer) (w : World) (t1 : Timer)
    (w1 : World) (h : Timer.Stop env c t w = Outcome.ok () t1 w1) :
    t1.running_ = false ∧ t1.has_run_at_least_once_ = t.has_run_at_least_once_ ∧
    t1.initted_ = t.initted_ ∧ t1.start_gpu_ = t.start_gpu_ ∧ t1.stop_gpu_ = t.stop_gpu_ ∧
    w.sameMarkerCalls w1 ∧ w1.warnings = w.warnings := by
  cases hr : t.running_
  · rw [Timer_Stop_idle env c t w hr] at h
    simp only [Outcome.ok.injEq, true_and] at h
    obtain ⟨rfl, rfl⟩ := h
    simp [World.sameMarkerCalls, hr]
  · by_cases hm : c.mode = Mode.GPU
    · by_cases hc : env.CPU_ONLY = true
      · simp [Timer.Stop, M.bind, M.pure, running, getT, hr, hm, hc, Caffe.mode, emit, NO_GPU,
          LOG_FATAL] at h
      · simp only [Bool.not_eq_true] at hc
        rw [Timer_Stop_device env c t w hc hm hr] at h
        by_cases h1 : env.cudaSuccess w.cudaCalls = true
        · by_cases h2 : env.cudaSuccess (w.cudaCalls + 1) = true
          · simp only [h1, h2, if_true, Outcome.ok.injEq, true_and] at h
            obtain ⟨rfl, rfl⟩ := h
            simp [World.sameMarkerCalls, World.creations, World.releases, World.warnings,
              Event.isCreate, Event.isDestroy, Event.isWarning]
          · simp [h1, h2] at h
        · simp [h1] at h
    · rw [Timer_Stop_host env c t w hr (mode_eq_CPU_of_ne_GPU _ hm)] at h
      simp only [Outcome.ok.injEq, true_and] at h
      obtain ⟨rfl, rfl⟩ := h
      simp [World.sameMarkerCalls, World.creations, World.releases, World.warnings,
        Event.isCreate, Event.isDestroy, Event.isWarning]

theorem Timer_MicroSeconds_idle_ok (env : Env) (c : Ctx) (t : Timer) (w : World) (v : ℚ)
    (t1 : Timer) (w1 : World) (hh : t.has_run_at_least_once_ = true)
    (hr : t.running_ = false) (h : Timer.MicroSeconds env c t w = Outcome.ok v t1 w1) :
    t1.running_ = false ∧ t1.has_run_at_least_once_ = true ∧
    t1.initted_ = t.initted_ ∧ t1.start_gpu_ = t.start_gpu_ ∧ t1.stop_gpu_ = t.stop_gpu_ ∧
    w.sameMarkerCalls w1 ∧ w1.warnings = w.warnings := by
  by_cases hm : c.mode = Mode.GPU
  · by_cases hc : env.CPU_ONLY = true
    · simp [Timer.MicroSeconds, M.bind, M.pure, has_run_at_least_once, running, getT, hh, hr,
        Caffe.mode, emit, hm, hc, NO_GPU, LOG_FATAL] at h
    · simp only [Bool.not_eq_true] at hc
      rw [Timer_MicroSeconds_device_idle env c t w hc hm hh hr] at h
      by_cases h1 : env.cudaSuccess w.cudaCalls = true
      · simp only [h1, if_true, Outcome.ok.injEq] at h
        obtain ⟨-, rfl, rfl⟩ := h
        simp [World.sameMarkerCalls, World.creations, World.releases, World.warnings,
          Event.isCreate, Event.isDestroy, Event.isWarning, World.afterElapsedQuery, hh, hr]
      · simp [h1] at h
  · rw [Timer_MicroSeconds_host_eq env c t w (mode_eq_CPU_of_ne_GPU _ hm) hh] at h
    simp only [hr, Bool.false_eq_true, if_false, Outcome.ok.injEq] at h
    obtain ⟨-, rfl, rfl⟩ := h
    simp [World.sameMarkerCalls, World.creations, World.releases, World.warnings,
      Event.isCreate, Event.isDestroy, Event.isWarning, hh]

theorem Timer_MilliSeconds_idle_ok (env : Env) (c : Ctx) (t : Timer) (w : World) (v : ℚ)
    (t1 : Timer) (w1 : World) (hh : t.has_run_at_least_once_ = true)
    (hr : t.running_ = false) (h : Timer.MilliSeconds env c t w = Outcome.ok v t1 w1) :
    t1.running_ = false ∧ t1.has_run_at_least_once_ = true ∧
    t1.initted_ = t.initted_ ∧ t1.start_gpu_ = t.start_gpu_ ∧ t1.stop_gpu_ = t.stop_gpu_ ∧
    w.sameMarkerCalls w1 ∧ w1.warnings = w.warnings := by
  by_cases hm : c.mode = Mode.GPU
  · by_cases hc : env.CPU_ONLY = true
    · simp [Timer.MilliSeconds, M.bind, M.pure, has_run_at_least_once, running, getT, hh, hr,
        Caffe.mode, emit, hm, hc, NO_GPU, LOG_FATAL] at h
    · simp only [Bool.not_eq_true] at hc
      rw [Timer_MilliSeconds_device_idle env c t w hc hm hh hr] at h
      by_cases h1 : env.cudaSuccess w.cudaCalls = true
      · simp only [h1, if_true, Outcome.ok.injEq] at h
        obtain ⟨-, rfl, rfl⟩ := h
        simp [World.sameMarkerCalls, World.creations, World.releases, World.warnings,
          Event.isCreate, Event.isDestroy, Event.isWarning, World.afterElapsedQuery, hh, hr]
      · simp [h1] at h
  · rw [Timer_MilliSeconds_host_eq env c t w (mode_eq_CPU_of_ne_GPU _ hm) hh] at h
    simp only [hr, Bool.false_eq_true, if_false, Outcome.ok.injEq] at h
    obtain ⟨-, rfl, rfl⟩ := h
    simp [World.sameMarkerCalls, World.creations, World.releases, World.warnings,
      Event.isCreate, Event.isDestroy, Event.isWarning, hh]

theorem Timer_MicroSeconds_ok (env : Env) (c : Ctx) (t : Timer) (w : World) (v : ℚ)
    (t1 : Timer) (w1 : World) (hh : t.has_run_at_least_once_ = true)
    (h : Timer.MicroSeconds env c t w = Outcome.ok v t1 w1) :
    t1.running_ = false ∧ t1.has_run_at_least_once_ = true ∧
    t1.initted_ = t.initted_ ∧ t1.start_gpu_ = t.start_gpu_ ∧ t1.stop_gpu_ = t.stop_gpu_ ∧
    w.sameMarkerCalls w1 ∧ w1.warnings = w.warnings := by
  cases hr : t.running_
  · exact Timer_MicroSeconds_idle_ok env c t w v t1 w1 hh hr h
  · rw [Timer_MicroSeconds_running env c c t w hr hh rfl] at h
    simp only [bind_def, M.bind] at h
    cases hS : Timer.Stop env c t w with
    | fatal w2 => simp [hS] at h
    | ok u t2 w2 =>
      simp only [hS] at h
      obtain ⟨a1, a2, a3, a4, a5, a6, a7⟩ := Timer_Stop_ok env c t w t2 w2 hS
      obtain ⟨b1, b2, b3, b4, b5, b6, b7⟩ :=
        Timer_MicroSeconds_idle_ok env c t2 w2 v t1 w1 (a2.trans hh) a1 h
      exact ⟨b1, b2, b3.trans a3, b4.trans a4, b5.trans a5, sameMarkerCalls_trans w w2 w1 a6 b6,
        b7.trans a7⟩

theorem Timer_MilliSeconds_ok (env : Env) (c : Ctx) (t : Timer) (w : World) (v : ℚ)
    (t1 : Timer) (w1 : World) (hh : t.has_run_at_least_once_ = true)
    (h : Timer.MilliSeconds env c t w = Outcome.ok v t1 w1) :
    t1.running_ = false ∧ t1.has_run_at_least_once_ = true ∧
    t1.initted_ = t.initted_ ∧ t1.start_gpu_ = t.start_gpu_ ∧ t1.stop_gpu_ = t.stop_gpu_ ∧
    w.sameMarkerCalls w1 ∧ w1.warnings = w.warnings := by
  cases hr : t.running_
  · exact Timer_MilliSeconds_idle_ok env c t w v t1 w1 hh hr h
  · rw [Timer_MilliSeconds_running env c c t w hr hh rfl] at h
    simp only [bind_def, M.bind] at h
    cases hS : Timer.Stop env c t w with
    | fatal w2 => simp [hS] at h
    | ok u t2 w2 =>
      simp only [hS] at h
      obtain ⟨a1, a2, a3, a4, a5, a6, a7⟩ := Timer_Stop_ok env c t w t2 w2 hS
      obtain ⟨b1, b2, b3, b4, b5, b6, b7⟩ :=
        Timer_MilliSeconds_idle_ok env c t2 w2 v t1 w1 (a2.trans hh) a1 h
      exact ⟨b1, b2, b3.trans a3, b4.trans a4, b5.trans a5, sameMarkerCalls_trans w w2 w1 a6 b6,
        b7.trans a7⟩

theorem callFacts_never (x : Call) (t : Timer) (w : World) (hwf : t.consistent)
    (hh : t.has_run_at_least_once_ = false) (hx : x.op ≠ Op.Start) :
    callFacts x t w t { w with log := w.log ++ [Event.warning] } := by
  have hr : t.running_ = false := by
    cases hr : t.running_
    · rfl
    · rw [hwf hr] at hh
      exact Bool.noConfusion hh
  refine ⟨hwf, ?_, ?_, rfl, rfl, rfl, ?_, ?_⟩
  · simp [hr, hx]
  · simp [hh, hx]
  · intro k
    simp [World.creations, World.releases, Event.isCreate, Event.isDestroy]
  · intro h
    rw [hh] at h
    exact Bool.noConfusion h

theorem callFacts_query (x : Call) (t : Timer) (w : World) (t1 : Timer) (w1 : World)
    (hx : x.op ≠ Op.Start) (hh : t.has_run_at_least_once_ = true)
    (h : t1.running_ = false ∧ t1.has_run_at_least_once_ = true ∧
      t1.initted_ = t.initted_ ∧ t1.start_gpu_ = t.start_gpu_ ∧ t1.stop_gpu_ = t.stop_gpu_ ∧
      w.sameMarkerCalls w1 ∧ w1.warnings = w.warnings) : callFacts x t w t1 w1 := by
  obtain ⟨a1, a2, a3, a4, a5, a6, a7⟩ := h
  refine ⟨fun _ => a2, ?_, ?_, a3, a4, a5, a6, fun _ => a7⟩
  · simp [a1, hx]
  · simp [a2, hh]

theorem Timer_call_facts (env : Env) (x : Call) (t : Timer) (w : World) (v : Option ℚ)
    (t1 : Timer) (w1 : World) (hwf : t.consistent)
    (h : Timer.call env x t w = Outcome.ok v t1 w1) : callFacts x t w t1 w1 := by
  obtain ⟨op, c⟩ := x
  cases op
  · simp only [Timer.call, bind_def, pure_def, M.bind, M.pure] at h
    cases hS : Timer.Start env c t w with
    | fatal w2 => simp [hS] at h
    | ok u t2 w2 =>
      simp only [hS, Outcome.ok.injEq] at h
      obtain ⟨-, rfl, rfl⟩ := h
      obtain ⟨a1, a2, a3, a4, a5, a6, a7⟩ := Timer_Start_ok env c t w t2 w2 hS
      have hhas : t2.has_run_at_least_once_ = true := by
        apply a2.mpr
        cases hr : t.running_
        · exact Or.inr rfl
        · exact Or.inl (hwf hr)
      refine ⟨fun _ => hhas, ?_, ?_, a3, a4, a5, a6, fun _ => a7⟩
      · simp [a1]
      · simp [hhas]
  · simp only [Timer.call, bind_def, pure_def, M.bind, M.pure] at h
    cases hS : Timer.Stop env c t w with
    | fatal w2 => simp [hS] at h
    | ok u t2 w2 =>
      simp only [hS, Outcome.ok.injEq] at h
      obtain ⟨-, rfl, rfl⟩ := h
      obtain ⟨a1, a2, a3, a4, a5, a6, a7⟩ := Timer_Stop_ok env c t w t2 w2 hS
      refine ⟨fun hr => by rw [a1] at hr; exact Bool.noConfusion hr, ?_, ?_, a3, a4, a5, a6,
        fun _ => a7⟩
      · simp [a1]
      · simp [a2]
  · simp only [Timer.call, bind_def, pure_def, M.bind, M.pure] at h
    cases hS : Timer.MicroSeconds env c t w with
    | fatal w2 => simp [hS] at h
    | ok u t2 w2 =>
      simp only [hS, Outcome.ok.injEq] at h
      obtain ⟨-, rfl, rfl⟩ := h
      cases hh : t.has_run_at_least_once_
      · rw [Timer_MicroSeconds_never env c t w hh] at hS
        simp only [Outcome.ok.injEq] at hS
        obtain ⟨-, rfl, rfl⟩ := hS
        exact callFacts_never _ t w hwf hh (by simp)
      · exact callFacts_query _ t w t2 w2 (by simp) hh
          (Timer_MicroSeconds_ok env c t w u t2 w2 hh hS)
  · simp only [Timer.call, bind_def, pure_def, M.bind, M.pure] at h
    cases hS : Timer.MilliSeconds env c t w with
    | fatal w2 => simp [hS] at h
    | ok u t2 w2 =>
      simp only [hS, Outcome.ok.injEq] at h
      obtain ⟨-, rfl, rfl⟩ := h
      cases hh : t.has_run_at_least_once_
      · rw [Timer_MilliSeconds_never env c t w hh] at hS
        simp only [Outcome.ok.injEq] at hS
        obtain ⟨-, rfl, rfl⟩ := hS
        exact callFacts_never _ t w hwf hh (by simp)
      · exact callFacts_query _ t w t2 w2 (by simp) hh
          (Timer_MilliSeconds_ok env c t w u t2 w2 hh hS)
  · simp only [Timer.call, bind_def, pure_def, M.bind, M.pure, Timer_Seconds_eq] at h
    cases hS : Timer.MilliSeconds env c t w with
    | fatal w2 => simp [hS, Outcome.map] at h
    | ok u t2 w2 =>
      simp only [hS, Outcome.map, Outcome.ok.injEq] at h
      obtain ⟨-, rfl, rfl⟩ := h
      cases hh : t.has_run_at_least_once_
      · rw [Timer_MilliSeconds_never env c t w hh] at hS
        simp only [Outcome.ok.injEq] at hS
        obtain ⟨-, rfl, rfl⟩ := hS
        exact callFacts_never _ t w hwf hh (by simp)
      · exact callFacts_query _ t w t2 w2 (by simp) hh
          (Timer_MilliSeconds_ok env c t w u t2 w2 hh hS)

theorem hostExtension_sameMarkerCalls (w w1 : World) (h : w.hostExtension w1) :
    w.sameMarkerCalls w1 := by
  obtain ⟨-, -, -, es, h1, h2⟩ := h
  have hc : ∀ k, es.countP (Event.isCreate k) = 0 := by
    intro k
    rw [List.countP_eq_zero]
    intro e he
    have := h2 e he
    cases e <;> simp_all [Event.isHostOnly, Event.isCreate]
  have hd : ∀ k, es.countP (Event.isDestroy k) = 0 := by
    intro k
    rw [List.countP_eq_zero]
    intro e he
    have := h2 e he
    cases e <;> simp_all [Event.isHostOnly, Event.isDestroy]
  intro k
  simp [World.creations, World.releases, h1, List.countP_append, hc k, hd k]

theorem CPUTimer_call_warnings (env : Env) (x : Call) (t : Timer) (w : World) :
    ∃ v t1 w1, CPUTimer.call env x t w = Outcome.ok v t1 w1 ∧
      (t.has_run_at_least_once_ = true → w1.warnings = w.warnings) := by
  obtain ⟨op, c⟩ := x
  cases hh : t.has_run_at_least_once_ <;> cases hr : t.running_ <;> cases op <;>
    simp only [CPUTimer.call, bind_def, pure_def, M.bind, M.pure, CPUTimer_Seconds_eq,
      CPUTimer_MicroSeconds_eq env c t w, CPUTimer_MilliSeconds_eq env c t w,
      CPUTimer_MicroSeconds_never env c t w, CPUTimer_MilliSeconds_never env c t w,
      CPUTimer_Start_eq, CPUTimer_Stop_eq, hr, hh, if_true, if_false, Outcome.map,
      Bool.false_eq_true] <;>
    refine ⟨_, _, _, rfl, ?_⟩ <;> intro h <;>
    first
      | exact False.elim h
      | rfl
      | simp [World.warnings, Event.isWarning]

theorem CPUTimer_call_facts (env : Env) (x : Call) (t : Timer) (w : World) (v : Option ℚ)
    (t1 : Timer) (w1 : World) (hwf : t.consistent)
    (h : CPUTimer.call env x t w = Outcome.ok v t1 w1) : callFacts x t w t1 w1 := by
  have hmode : (hostAt x.ctx.now).mode = Mode.CPU := rfl
  obtain ⟨v2, t2, w2, u2, k1, k2, -⟩ :=
    call_host_sim env ⟨x.op, hostAt x.ctx.now⟩ t w w hmode
  have hsame : CPUTimer.call env x t w = CPUTimer.call env ⟨x.op, hostAt x.ctx.now⟩ t w := by
    obtain ⟨op, c⟩ := x
    cases op <;> rfl
  obtain ⟨a1, a2, a3, a4, a5, a6, -, -⟩ := Timer_call_facts env _ t w v2 t2 w2 hwf k1
  obtain ⟨v3, t3, w3, h3, h4⟩ := CPUTimer_call_hostOnly env x t w
  obtain ⟨v4, t4, w4, h5, h6⟩ := CPUTimer_call_warnings env x t w
  rw [h] at h3 h5
  rw [hsame, k2] at h
  simp only [Outcome.ok.injEq] at h h3 h5
  obtain ⟨-, rfl, -⟩ := h
  obtain ⟨-, -, rfl⟩ := h3
  obtain ⟨-, -, rfl⟩ := h5
  exact ⟨a1, a2, a3, a4, a5, a6, hostExtension_sameMarkerCalls w w1 h4, h6⟩

theorem startPending_iff (calls : List Call) :
    startPending calls ↔ ∃ y, calls.getLast? = some y ∧ y.op = Op.Start := by
  constructor
  · rintro ⟨pre, c, starts, rfl, hs⟩
    cases hl : starts.getLast? with
    | none =>
      rw [List.getLast?_eq_none_iff] at hl
      subst hl
      exact ⟨⟨Op.Start, c⟩, by simp, rfl⟩
    | some y =>
      refine ⟨y, ?_, hs y (List.mem_of_getLast?_eq_some hl)⟩
      have hne : starts ≠ [] := by
        intro h
        rw [h] at hl
        simp at hl
      cases starts with
      | nil => exact absurd rfl hne
      | cons z zs =>
        rw [List.getLast?_append_of_ne_nil _ (by simp), List.getLast?_cons_cons]
        exact hl
  · rintro ⟨y, hy, hop⟩
    rcases List.eq_nil_or_concat calls with h | ⟨L, b, h⟩
    · rw [h] at hy
      simp at hy
    · rw [List.concat_eq_append] at h
      subst h
      rw [List.getLast?_concat] at hy
      simp only [Option.some.injEq] at hy
      subst hy
      obtain ⟨op, c⟩ := b
      simp only at hop
      subst hop
      exact ⟨L, c, [], rfl, by simp⟩

theorem runWith_facts (step : Call → M (Option ℚ))
    (hstep : ∀ x t w v t1 w1, t.consistent → step x t w = Outcome.ok v t1 w1 →
      callFacts x t w t1 w1) (calls : List Call) :
    ∀ (t : Timer) (w : World) (r : List (Option ℚ × Timer)) (t1 : Timer) (w1 : World),
      t.consistent → runWith step calls t w = Outcome.ok r t1 w1 →
      runFacts calls t w r t1 w1 := by
  induction calls with
  | nil =>
    intro t w r t1 w1 hwf h
    rw [runWith_nil] at h
    simp only [Outcome.ok.injEq] at h
    obtain ⟨rfl, rfl, rfl⟩ := h
    refine ⟨hwf, by simp, by simp, by simp, rfl, rfl, rfl, sameMarkerCalls_refl _, fun _ => rfl⟩
  | cons x xs ih =>
    intro t w r t1 w1 hwf h
    rw [runWith_cons] at h
    cases hx : step x t w with
    | fatal w2 => simp [hx] at h
    | ok v t2 w2 =>
      simp only [hx] at h
      cases hxs : runWith step xs t2 w2 with
      | fatal w3 => simp [hxs] at h
      | ok r3 t3 w3 =>
        simp only [hxs, Outcome.ok.injEq] at h
        obtain ⟨rfl, rfl, rfl⟩ := h
        obtain ⟨a1, a2, a3, a4, a5, a6, a7, a8⟩ := hstep x t w v t2 w2 hwf hx
        obtain ⟨b1, b2, b3, b4, b5, b6, b7, b8, b9⟩ := ih t2 w2 r3 t3 w3 a1 hxs
        refine ⟨b1, ?_, ?_, ?_, b5.trans a4, b6.trans a5, b7.trans a6,
          sameMarkerCalls_trans w w2 w3 a7 b8, ?_⟩
        · intro p hp
          rcases List.mem_cons.mp hp with rfl | hmem
          · exact a1
          · exact b2 p hmem
        · rw [b3]
          cases xs with
          | nil => simp [a2]
          | cons z zs => simp [List.getLast?_cons_cons]
        · rw [b4, a3]
          constructor
          · rintro ((h1 | h1) | ⟨y, hy, hop⟩)
            · exact Or.inl h1
            · exact Or.inr ⟨x, List.mem_cons_self _ _, h1⟩
            · exact Or.inr ⟨y, List.mem_cons_of_mem _ hy, hop⟩
          · rintro (h1 | ⟨y, hy, hop⟩)
            · exact Or.inl (Or.inl h1)
            · rcases List.mem_cons.mp hy with rfl | hmem
              · exact Or.inl (Or.inr hop)
              · exact Or.inr ⟨y, hmem, hop⟩
        · intro hh
          rw [b9 (a3.mpr (Or.inl hh)), a8 hh]

/-! ## Initialisation, construction and destruction of `Timer` -/

theorem Timer_Init_initted (env : Env) (c : Ctx) (t : Timer) (w : World)
    (h : t.initted_ = true) : Timer.Init env c t w = Outcome.ok () t w := by
  simp [Timer.Init, M.bind, M.pure, initted, getT, h]

theorem Timer_Init_host (env : Env) (c : Ctx) (t : Timer) (w : World)
    (h : t.initted_ = false) (hm : c.mode = Mode.CPU) :
    Timer.Init env c t w =
      Outcome.ok () { t with initted_ := true }
        { w with log := w.log ++ [Event.modeQuery Mode.CPU] } := by
  simp [Timer.Init, M.bind, M.pure, initted, getT, h, hm, Caffe.mode, emit, modifyT]

theorem Timer_Init_nogpu (env : Env) (c : Ctx) (t : Timer) (w : World)
    (h : t.initted_ = false) (hm : c.mode = Mode.GPU) (hc : env.CPU_ONLY = true) :
    Timer.Init env c t w =
      Outcome.fatal { w with log := w.log ++ [Event.modeQuery Mode.GPU] } := by
  simp [Timer.Init, M.bind, M.pure, initted, getT, h, hm, hc, Caffe.mode, emit, NO_GPU,
    LOG_FATAL]

theorem Timer_Init_device (env : Env) (c : Ctx) (t : Timer) (w : World)
    (h : t.initted_ = false) (hm : c.mode = Mode.GPU) (hc : env.CPU_ONLY = false) :
    Timer.Init env c t w =
      if env.cudaSuccess w.cudaCalls = true then
        if env.cudaSuccess (w.cudaCalls + 1) = true then
          Outcome.ok ()
            { t with initted_ := true, start_gpu_ := some w.cudaCalls,
                     stop_gpu_ := some (w.cudaCalls + 1) }
            { w with cudaCalls := w.cudaCalls + 2,
                     log := w.log ++ [Event.modeQuery Mode.GPU,
                                      Event.cudaEventCreate Marker.start,
                                      Event.cudaEventCreate Marker.stop] }
        else
          Outcome.fatal
            { w with cudaCalls := w.cudaCalls + 2,
                     log := w.log ++ [Event.modeQuery Mode.GPU,
                                      Event.cudaEventCreate Marker.start,
                                      Event.cudaEventCreate Marker.stop] }
      else
        Outcome.fatal
          { w with cudaCalls := w.cudaCalls + 1,
                   log := w.log ++ [Event.modeQuery Mode.GPU,
                                    Event.cudaEventCreate Marker.start] } := by
  by_cases h1 : env.cudaSuccess w.cudaCalls = true
  · by_cases h2 : env.cudaSuccess (w.cudaCalls + 1) = true
    · simp [Timer.Init, M.bind, M.pure, initted, getT, h, hm, hc, Caffe.mode, emit, modifyT,
        CUDA_CHECK, cudaEventCreate, h1, h2]
    · simp [Timer.Init, M.bind, M.pure, initted, getT, h, hm, hc, Caffe.mode, emit, modifyT,
        CUDA_CHECK, cudaEventCreate, h1, h2, LOG_FATAL]
  · simp [Timer.Init, M.bind, M.pure, initted, getT, h, hm, hc, Caffe.mode, emit, modifyT,
      CUDA_CHECK, cudaEventCreate, h1, LOG_FATAL]

theorem Timer_construct_eq (env : Env) (c : Ctx) (raw : Timer) (w : World) :
    Timer.construct env c raw w =
      Timer.Init env c
        { raw with initted_ := false, running_ := false, has_run_at_least_once_ := false } w := by
  simp [Timer.construct, M.bind, modifyT]

theorem Timer_destruct_host (env : Env) (c : Ctx) (t : Timer) (w : World)
    (hm : c.mode = Mode.CPU) :
    Timer.destruct env c t w =
      Outcome.ok () t { w with log := w.log ++ [Event.modeQuery Mode.CPU] } := by
  simp [Timer.destruct, M.bind, M.pure, hm, Caffe.mode, emit]

theorem Timer_destruct_nogpu (env : Env) (c : Ctx) (t : Timer) (w : World)
    (hm : c.mode = Mode.GPU) (hc : env.CPU_ONLY = true) :
    Timer.destruct env c t w =
      Outcome.fatal { w with log := w.log ++ [Event.modeQuery Mode.GPU] } := by
  simp [Timer.destruct, M.bind, M.pure, hm, hc, Caffe.mode, emit, NO_GPU, LOG_FATAL]

theorem Timer_destruct_device (env : Env) (c : Ctx) (t : Timer) (w : World)
    (hm : c.mode = Mode.GPU) (hc : env.CPU_ONLY = false) :
    Timer.destruct env c t w =
      if env.cudaSuccess w.cudaCalls = true then
        if env.cudaSuccess (w.cudaCalls + 1) = true then
          Outcome.ok () t
            { w with cudaCalls := w.cudaCalls + 2,
                     log := w.log ++ [Event.modeQuery Mode.GPU,
                                      Event.cudaEventDestroy Marker.start t.start_gpu_,
                                      Event.cudaEventDestroy Marker.stop t.stop_gpu_] }
        else
          Outcome.fatal
            { w with cudaCalls := w.cudaCalls + 2,
                     log := w.log ++ [Event.modeQuery Mode.GPU,
                                      Event.cudaEventDestroy Marker.start t.start_gpu_,
                                      Event.cudaEventDestroy Marker.stop t.stop_gpu_] }
      else
        Outcome.fatal
          { w with cudaCalls := w.cudaCalls + 1,
                   log := w.log ++ [Event.modeQuery Mode.GPU,
                                    Event.cudaEventDestroy Marker.start t.start_gpu_] } := by
  by_cases h1 : env.cudaSuccess w.cudaCalls = true
  · by_cases h2 : env.cudaSuccess (w.cudaCalls + 1) = true
    · simp [Timer.destruct, M.bind, M.pure, hm, hc, Caffe.mode, emit, CUDA_CHECK,
        cudaEventDestroy, h1, h2, Timer.handle]
    · simp [Timer.destruct, M.bind, M.pure, hm, hc, Caffe.mode, emit, CUDA_CHECK,
        cudaEventDestroy, h1, h2, Timer.handle, LOG_FATAL]
  · simp [Timer.destruct, M.bind, M.pure, hm, hc, Caffe.mode, emit, CUDA_CHECK,
      cudaEventDestroy, h1, Timer.handle, LOG_FATAL]

theorem Timer_construct_counts (env : Env) (c : Ctx) (raw : Timer) (w : World) (t1 : Timer)
    (w1 : World) (h : Timer.construct env c raw w = Outcome.ok () t1 w1) :
    ∀ k, w1.creations k = w.creations k + c.mode.deviceCount ∧ w1.releases k = w.releases k := by
  rw [Timer_construct_eq] at h
  cases hm : c.mode
  · rw [Timer_Init_host env c _ w rfl hm] at h
    simp only [Outcome.ok.injEq, true_and] at h
    obtain ⟨-, rfl⟩ := h
    intro k
    simp [World.creations, World.releases, Event.isCreate, Event.isDestroy, Mode.deviceCount]
  · cases hc : env.CPU_ONLY
    · rw [Timer_Init_device env c _ w rfl hm hc] at h
      by_cases h1 : env.cudaSuccess w.cudaCalls = true
      · by_cases h2 : env.cudaSuccess (w.cudaCalls + 1) = true
        · simp only [h1, h2, if_true, Outcome.ok.injEq, true_and] at h
          obtain ⟨-, rfl⟩ := h
          intro k
          cases k <;>
            simp [World.creations, World.releases, Event.isCreate, Event.isDestroy,
              Mode.deviceCount, List.countP_cons]
        · simp [h1, h2] at h
      · simp [h1] at h
    · rw [Timer_Init_nogpu env c _ w rfl hm hc] at h
      simp at h

theorem Timer_destruct_counts (env : Env) (c : Ctx) (t : Timer) (w : World) (t1 : Timer)
    (w1 : World) (h : Timer.destruct env c t w = Outcome.ok () t1 w1) :
    ∀ k, w1.creations k = w.creations k ∧ w1.releases k = w.releases k + c.mode.deviceCount := by
  cases hm : c.mode
  · rw [Timer_destruct_host env c t w hm] at h
    simp only [Outcome.ok.injEq, true_and] at h
    obtain ⟨-, rfl⟩ := h
    intro k
    simp [World.creations, World.releases, Event.isCreate, Event.isDestroy, Mode.deviceCount]
  · cases hc : env.CPU_ONLY
    · rw [Timer_destruct_device env c t w hm hc] at h
      by_cases h1 : env.cudaSuccess w.cudaCalls = true
      · by_cases h2 : env.cudaSuccess (w.cudaCalls + 1) = true
        · simp only [h1, h2, if_true, Outcome.ok.injEq, true_and] at h
          obtain ⟨-, rfl⟩ := h
          intro k
          cases k <;>
            simp [World.creations, World.releases, Event.isCreate, Event.isDestroy,
              Mode.deviceCount, List.countP_cons]
        · simp [h1, h2] at h
      · simp [h1] at h
    · rw [Timer_destruct_nogpu env c t w hm hc] at h
      simp at h

theorem Timer_life_ok (env : Env) (c0 : Ctx) (calls : List Call) (cend : Ctx) (raw : Timer)
    (w : World) (r : List (Option ℚ × Timer)) (t3 : Timer) (w3 : World)
    (h : Timer.life env c0 calls cend raw w = Outcome.ok r t3 w3) :
    ∃ t1 w1 w2, Timer.construct env c0 raw w = Outcome.ok () t1 w1 ∧
      Timer.run env calls t1 w1 = Outcome.ok r t3 w2 ∧
      Timer.destruct env cend t3 w2 = Outcome.ok () t3 w3 := by
  simp only [Timer.life, bind_def, pure_def, M.bind, M.pure] at h
  cases h1 : Timer.construct env c0 raw w with
  | fatal u => simp [h1] at h
  | ok v1 t1 w1 =>
    simp only [h1] at h
    cases h2 : Timer.run env calls t1 w1 with
    | fatal u => simp [h2] at h
    | ok r2 t2 w2 =>
      simp only [h2] at h
      cases h3 : Timer.destruct env cend t2 w2 with
      | fatal u => simp [h3] at h
      | ok v3 t4 w4 =>
        simp only [h3, Outcome.ok.injEq] at h
        obtain ⟨rfl, rfl, rfl⟩ := h
        have ht : t4 = t2 := by
          cases hm : cend.mode
          · rw [Timer_destruct_host env cend t2 w2 hm] at h3
            simp only [Outcome.ok.injEq, true_and] at h3
            exact h3.1.symm
          · cases hc : env.CPU_ONLY
            · rw [Timer_destruct_device env cend t2 w2 hm hc] at h3
              by_cases k1 : env.cudaSuccess w2.cudaCalls = true
              · by_cases k2 : env.cudaSuccess (w2.cudaCalls + 1) = true
                · simp only [k1, k2, if_true, Outcome.ok.injEq, true_and] at h3
                  exact h3.1.symm
                · simp [k1, k2] at h3
              · simp [k1] at h3
            · rw [Timer_destruct_nogpu env cend t2 w2 hm hc] at h3
              simp at h3
        subst ht
        refine ⟨t1, w1, w2, ?_, ?_, ?_⟩ <;> first | rfl | exact h1 | exact h2 | exact h3

theorem Timer_life_counts (env : Env) (c0 : Ctx) (calls : List Call) (cend : Ctx) (raw : Timer)
    (w : World) (hret : (Timer.life env c0 calls cend raw w).returns) :
    ∀ k, (Timer.life env c0 calls cend raw w).world.creations k
          = w.creations k + c0.mode.deviceCount ∧
        (Timer.life env c0 calls cend raw w).world.releases k
          = w.releases k + cend.mode.deviceCount := by
  cases h : Timer.life env c0 calls cend raw w with
  | fatal u =>
    rw [h] at hret
    exact False.elim hret
  | ok r t3 w3 =>
    obtain ⟨t1, w1, w2, h1, h2, h3⟩ := Timer_life_ok env c0 calls cend raw w r t3 w3 h
    have hidle := (Timer_construct_flags env c0 raw w t1 w1 h1).1
    have hwf : t1.consistent := fun hr => by rw [hidle] at hr; exact Bool.noConfusion hr
    obtain ⟨-, -, -, -, -, -, -, hsame, -⟩ :=
      runWith_facts (Timer.call env) (Timer_call_facts env) calls t1 w1 r t3 w2 hwf h2
    intro k
    have a := Timer_construct_counts env c0 raw w t1 w1 h1 k
    have b := hsame k
    have c := Timer_destruct_counts env cend t3 w2 t3 w3 h3 k
    simp only [Outcome.world]
    constructor
    · rw [c.1, b.1, a.1]
    · rw [c.2, b.2, a.2]

theorem Timer_construct_bounds (env : Env) (c : Ctx) (raw : Timer) (w : World) :
    ∀ k, w.creations k ≤ (Timer.construct env c raw w).world.creations k ∧
      (Timer.construct env c raw w).world.creations k ≤ w.creations k + c.mode.deviceCount ∧
      (Timer.construct env c raw w).world.releases k = w.releases k := by
  rw [Timer_construct_eq]
  cases hm : c.mode
  · rw [Timer_Init_host env c _ w rfl hm]
    intro k
    simp [Outcome.world, World.creations, World.releases, Event.isCreate, Event.isDestroy,
      Mode.deviceCount]
  · cases hc : env.CPU_ONLY
    · rw [Timer_Init_device env c _ w rfl hm hc]
      intro k
      by_cases h1 : env.cudaSuccess w.cudaCalls = true <;>
        by_cases h2 : env.cudaSuccess (w.cudaCalls + 1) = true <;> cases k <;>
        simp [h1, h2, Outcome.world, World.creations, World.releases, Event.isCreate,
          Event.isDestroy, Mode.deviceCount, List.countP_cons]
    · rw [Timer_Init_nogpu env c _ w rfl hm hc]
      intro k
      simp [Outcome.world, World.creations, World.releases, Event.isCreate, Event.isDestroy,
        Mode.deviceCount]

theorem Timer_destruct_bounds (env : Env) (c : Ctx) (t : Timer) (w : World) :
    ∀ k, (Timer.destruct env c t w).world.creations k = w.creations k ∧
      (Timer.destruct env c t w).world.releases k ≤ w.releases k + c.mode.deviceCount := by
  cases hm : c.mode
  · rw [Timer_destruct_host env c t w hm]
    intro k
    simp [Outcome.world, World.creations, World.releases, Event.isCreate, Event.isDestroy,
      Mode.deviceCount]
  · cases hc : env.CPU_ONLY
    · rw [Timer_destruct_device env c t w hm hc]
      intro k
      by_cases h1 : env.cudaSuccess w.cudaCalls = true <;>
        by_cases h2 : env.cudaSuccess (w.cudaCalls + 1) = true <;> cases k <;>
        simp [h1, h2, Outcome.world, World.creations, World.releases, Event.isCreate,
          Event.isDestroy, Mode.deviceCount, List.countP_cons]
    · rw [Timer_destruct_nogpu env c t w hm hc]
      intro k
      simp [Outcome.world, World.creations, World.releases, Event.isCreate, Event.isDestroy,
        Mode.deviceCount]

theorem Timer_life_bounds (env : Env) (c0 : Ctx) (calls : List Call) (cend : Ctx) (raw : Timer)
    (w : World) (hstable : cend.mode = c0.mode) :
    ∀ k, (Timer.life env c0 calls cend raw w).world.creations k
          ≤ w.creations k + c0.mode.deviceCount ∧
        (Timer.life env c0 calls cend raw w).world.releases k + w.creations k
          ≤ (Timer.life env c0 calls cend raw w).world.creations k + w.releases k := by
  intro k
  have hb := Timer_construct_bounds env c0 raw w k
  simp only [Timer.life, bind_def, pure_def, M.bind, M.pure]
  cases h1 : Timer.construct env c0 raw w with
  | fatal u =>
    rw [h1] at hb
    simp only [Outcome.world] at hb ⊢
    omega
  | ok v1 t1 w1 =>
    have hc := Timer_construct_counts env c0 raw w t1 w1 h1 k
    have hr := keepsMarkers_run env calls t1 w1 k
    simp only []
    cases h2 : Timer.run env calls t1 w1 with
    | fatal u =>
      rw [h2] at hr
      simp only [Outcome.world] at hr ⊢
      omega
    | ok r t2 w2 =>
      rw [h2] at hr
      simp only [Outcome.world] at hr
      have hd := Timer_destruct_bounds env cend t2 w2 k
      rw [hstable] at hd
      simp only []
      cases h3 : Timer.destruct env cend t2 w2 with
      | fatal u =>
        rw [h3] at hd
        simp only [Outcome.world] at hd ⊢
        omega
      | ok v3 t3 w3 =>
        rw [h3] at hd
        simp only [Outcome.world] at hd ⊢
        omega

theorem Timer_life_host_returns (env : Env) (c0 : Ctx) (calls : List Call) (cend : Ctx)
    (raw : Timer) (w : World) (h0 : c0.mode = Mode.CPU) (hend : cend.mode = Mode.CPU)
    (hhost : hostCalls calls) : (Timer.life env c0 calls cend raw w).returns := by
  have hc : Timer.construct env c0 raw w =
      Outcome.ok ()
        { raw with initted_ := true, running_ := false, has_run_at_least_once_ := false }
        { w with log := w.log ++ [Event.modeQuery Mode.CPU] } := by
    rw [Timer_construct_eq, Timer_Init_host env c0 _ w rfl h0]
  obtain ⟨r, t1, w1, u1, h1, -, -⟩ := run_host_sim env calls hhost
    { raw with initted_ := true, running_ := false, has_run_at_least_once_ := false }
    { w with log := w.log ++ [Event.modeQuery Mode.CPU] } w
  simp only [Timer.life, bind_def, pure_def, M.bind, M.pure, hc, h1,
    Timer_destruct_host env cend t1 w1 hend, Outcome.returns]

/-- C12 (amended): for a Timer whose mode selector reports the same mode at
destruction as at construction, whether or not it was ever started.  When
that mode is Host no marker is allocated: construction returns having issued
no creation call, the destructor, in whatever state and world it runs, returns
having issued no release call, and a whole life of host-mode calls reaches no
fatal path.  Over the whole life (construction on raw storage, any sequence
of Start, Stop and query calls in any modes, destruction), also one cut short
by the abort of a failed runtime call, each marker gets at most one creation
call and at most as many release calls as creation calls.  When the life
reaches the end of the destructor, the destructor has issued release calls for
both markers exactly when Init created them: each marker is created once and
released once when the mode is Device, and never created and never released
when it is Host, so each marker is destroyed exactly as many times as it was
created. -/
theorem C12_release_matches_creation_when_mode_is_stable (env : Env) (c0 : Ctx)
    (calls : List Call) (cend : Ctx) (raw : Timer) (w : World)
    (hstable : cend.mode = c0.mode) :
    (c0.mode = Mode.CPU →
      Timer.construct env c0 raw w =
        Outcome.ok ()
          { raw with initted_ := true, running_ := false, has_run_at_least_once_ := false }
          { w with log := w.log ++ [Event.modeQuery Mode.CPU] } ∧
      (∀ t u, Timer.destruct env cend t u =
        Outcome.ok () t { u with log := u.log ++ [Event.modeQuery Mode.CPU] }) ∧
      (hostCalls calls → (Timer.life env c0 calls cend raw w).returns)) ∧
    (∀ k, (Timer.life env c0 calls cend raw w).world.creations k ≤ w.creations k + 1 ∧
      (Timer.life env c0 calls cend raw w).world.releases k + w.creations k
        ≤ (Timer.life env c0 calls cend raw w).world.creations k + w.releases k) ∧
    ((Timer.life env c0 calls cend raw w).returns →
      ∀ k, (Timer.life env c0 calls cend raw w).world.creations k
            = w.creations k + c0.mode.deviceCount ∧
          (Timer.life env c0 calls cend raw w).world.releases k
            = w.releases k + c0.mode.deviceCount ∧
          c0.mode.deviceCount ≤ 1) := by
  have hdc : c0.mode.deviceCount ≤ 1 := by cases c0.mode <;> simp [Mode.deviceCount]
  refine ⟨?_, ?_, ?_⟩
  · intro h0
    have hend : cend.mode = Mode.CPU := hstable.trans h0
    refine ⟨?_, fun t u => Timer_destruct_host env cend t u hend,
      Timer_life_host_returns env c0 calls cend raw w h0 hend⟩
    rw [Timer_construct_eq, Timer_Init_host env c0 _ w rfl h0]
  · intro k
    obtain ⟨h1, h2⟩ := Timer_life_bounds env c0 calls cend raw w hstable k
    exact ⟨by omega, h2⟩
  · intro hret k
    obtain ⟨h1, h2⟩ := Timer_life_counts env c0 calls cend raw w hret k
    rw [hstable] at h2
    exact ⟨h1, h2, hdc⟩

theorem C12_release_matches_creation_when_mode_is_stable_witness :
    (hostAt 9).mode = (hostAt 0).mode ∧ (hostAt 0).mode = Mode.CPU ∧
    hostCalls [⟨Op.Start, hostAt 1⟩] ∧
    (Timer.life sampleEnv (hostAt 0) [⟨Op.Start, hostAt 1⟩] (hostAt 9) sampleTimer
      sampleWorld).returns ∧
    (Timer.life sampleEnv (hostAt 0) [⟨Op.Start, hostAt 1⟩] (hostAt 9) sampleTimer
      sampleWorld).world.creations Marker.stop = 0 ∧
    (Timer.life sampleEnv (hostAt 0) [⟨Op.Start, hostAt 1⟩] (hostAt 9) sampleTimer
      sampleWorld).world.releases Marker.stop = 0 ∧
    (deviceAt 9).mode = (deviceAt 0).mode ∧
    (Timer.life sampleEnv (deviceAt 0) [⟨Op.Start, deviceAt 1⟩] (deviceAt 9) sampleTimer
      sampleWorld).returns ∧
    (Timer.life sampleEnv (deviceAt 0) [⟨Op.Start, deviceAt 1⟩] (deviceAt 9) sampleTimer
      sampleWorld).world.creations Marker.stop = 1 ∧
    (Timer.life sampleEnv (deviceAt 0) [⟨Op.Start, deviceAt 1⟩] (deviceAt 9) sampleTimer
      sampleWorld).world.releases Marker.stop = 1 := by
  have hh : hostCalls [⟨Op.Start, hostAt 1⟩] := by simp [hostCalls, hostAt]
  have a := C12_release_matches_creation_when_mode_is_stable sampleEnv (hostAt 0)
    [⟨Op.Start, hostAt 1⟩] (hostAt 9) sampleTimer sampleWorld rfl
  have b := C12_release_matches_creation_when_mode_is_stable sampleEnv (deviceAt 0)
    [⟨Op.Start, deviceAt 1⟩] (deviceAt 9) sampleTimer sampleWorld rfl
  have hret := (a.1 rfl).2.2 hh
  have hretd : (Timer.life sampleEnv (deviceAt 0) [⟨Op.Start, deviceAt 1⟩] (deviceAt 9)
      sampleTimer sampleWorld).returns := trivial
  exact ⟨rfl, rfl, hh, hret, (a.2.2 hret Marker.stop).1, (a.2.2 hret Marker.stop).2.1, rfl,
    hretd, (b.2.2 hretd Marker.stop).1, (b.2.2 hretd Marker.stop).2.1⟩

/-- C12 (counterexample): a Timer constructed while the mode selector reports
Host and destroyed while it reports Device.  Init created no marker, yet the
destructor issues release calls for both markers, on handles that were never
set. -/
theorem C12_counterexample_release_without_creation :
    Timer.life sampleEnv (hostAt 0) [] (deviceAt 1) sampleTimer sampleWorld
      = Outcome.ok [] sampleTimer
          { cudaCalls := 2, start_stamp := none, stop_stamp := none,
            log := [Event.modeQuery Mode.CPU, Event.modeQuery Mode.GPU,
                    Event.cudaEventDestroy Marker.start none,
                    Event.cudaEventDestroy Marker.stop none] } ∧
    (Timer.life sampleEnv (hostAt 0) [] (deviceAt 1) sampleTimer
      sampleWorld).world.creations Marker.start = 0 ∧
    (Timer.life sampleEnv (hostAt 0) [] (deviceAt 1) sampleTimer
      sampleWorld).world.releases Marker.start = 1 := by
  refine ⟨rfl, rfl, rfl⟩

/-! ## Device mode in a build without device support -/

theorem Timer_Start_nogpu (env : Env) (c : Ctx) (t : Timer) (w : World)
    (hc : env.CPU_ONLY = true) (hm : c.mode = Mode.GPU) (hr : t.running_ = false) :
    Timer.Start env c t w = Outcome.fatal w.afterDeviceModeQuery := by
  simp [Timer.Start, M.bind, M.pure, running, getT, hr, hm, hc, Caffe.mode, emit, NO_GPU,
    LOG_FATAL, World.afterDeviceModeQuery]

theorem Timer_Stop_nogpu (env : Env) (c : Ctx) (t : Timer) (w : World)
    (hc : env.CPU_ONLY = true) (hm : c.mode = Mode.GPU) (hr : t.running_ = true) :
    Timer.Stop env c t w = Outcome.fatal w.afterDeviceModeQuery := by
  simp [Timer.Stop, M.bind, M.pure, running, getT, hr, hm, hc, Caffe.mode, emit, NO_GPU,
    LOG_FATAL, World.afterDeviceModeQuery]

theorem Timer_MicroSeconds_nogpu (env : Env) (c : Ctx) (t : Timer) (w : World)
    (hc : env.CPU_ONLY = true) (hm : c.mode = Mode.GPU)
    (hh : t.has_run_at_least_once_ = true) :
    Timer.MicroSeconds env c t w = Outcome.fatal w.afterDeviceModeQuery := by
  cases hr : t.running_
  · simp [Timer.MicroSeconds, M.bind, M.pure, has_run_at_least_once, running, getT, hh, hr,
      Caffe.mode, emit, hm, hc, NO_GPU, LOG_FATAL, World.afterDeviceModeQuery]
  · rw [Timer_MicroSeconds_running env c c t w hr hh rfl]
    simp only [bind_def, M.bind, Timer_Stop_nogpu env c t w hc hm hr]

theorem Timer_MilliSeconds_nogpu (env : Env) (c : Ctx) (t : Timer) (w : World)
    (hc : env.CPU_ONLY = true) (hm : c.mode = Mode.GPU)
    (hh : t.has_run_at_least_once_ = true) :
    Timer.MilliSeconds env c t w = Outcome.fatal w.afterDeviceModeQuery := by
  cases hr : t.running_
  · simp [Timer.MilliSeconds, M.bind, M.pure, has_run_at_least_once, running, getT, hh, hr,
      Caffe.mode, emit, hm, hc, NO_GPU, LOG_FATAL, World.afterDeviceModeQuery]
  · rw [Timer_MilliSeconds_running env c c t w hr hh rfl]
    simp only [bind_def, M.bind, Timer_Stop_nogpu env c t w hc hm hr]

/-- C13: in a build with device support compiled out, while the mode selector
reports Device, every Timer call that selects a backend ends in the fatal
path: construction on any raw storage, Init on an uninitialised timer, Start
on a timer that is not Running, Stop on a Running timer, MicroSeconds,
MilliSeconds and Seconds on a timer that has run, and destruction.  In each
case the process aborts right after the consultation of the mode selector:
the effect log gains that consultation only, so no host clock is read, and
the call returns no value and no new object state. -/
theorem C13_device_mode_without_device_support_is_fatal (env : Env) (c : Ctx)
    (raw t : Timer) (w : World) (hc : env.CPU_ONLY = true) (hm : c.mode = Mode.GPU) :
    Timer.construct env c raw w = Outcome.fatal w.afterDeviceModeQuery ∧
    (t.initted_ = false → Timer.Init env c t w = Outcome.fatal w.afterDeviceModeQuery) ∧
    (t.running_ = false → Timer.Start env c t w = Outcome.fatal w.afterDeviceModeQuery) ∧
    (t.running_ = true → Timer.Stop env c t w = Outcome.fatal w.afterDeviceModeQuery) ∧
    (t.has_run_at_least_once_ = true →
      Timer.MicroSeconds env c t w = Outcome.fatal w.afterDeviceModeQuery ∧
      Timer.MilliSeconds env c t w = Outcome.fatal w.afterDeviceModeQuery ∧
      Timer.Seconds env c t w = Outcome.fatal w.afterDeviceModeQuery) ∧
    Timer.destruct env c t w = Outcome.fatal w.afterDeviceModeQuery := by
  refine ⟨?_, fun h => Timer_Init_nogpu env c t w h hm hc,
    fun h => Timer_Start_nogpu env c t w hc hm h, fun h => Timer_Stop_nogpu env c t w hc hm h,
    fun h => ⟨Timer_MicroSeconds_nogpu env c t w hc hm h,
      Timer_MilliSeconds_nogpu env c t w hc hm h, ?_⟩,
    Timer_destruct_nogpu env c t w hm hc⟩
  · rw [Timer_construct_eq, Timer_Init_nogpu env c _ w rfl hm hc]
    rfl
  · rw [Timer_Seconds_eq, Timer_MilliSeconds_nogpu env c t w hc hm h]
    rfl

theorem C13_device_mode_without_device_support_is_fatal_witness :
    sampleHostOnlyEnv.CPU_ONLY = true ∧ (deviceAt 3).mode = Mode.GPU ∧
    Timer.construct sampleHostOnlyEnv (deviceAt 3) sampleTimer sampleWorld
      = Outcome.fatal { sampleWorld with log := [Event.modeQuery Mode.GPU] } ∧
    Timer.Stop sampleHostOnlyEnv (deviceAt 3) sampleRunning sampleWorld
      = Outcome.fatal { sampleWorld with log := [Event.modeQuery Mode.GPU] } ∧
    Timer.destruct sampleHostOnlyEnv (deviceAt 3) sampleRunning sampleWorld
      = Outcome.fatal { sampleWorld with log := [Event.modeQuery Mode.GPU] } := by
  have h := C13_device_mode_without_device_support_is_fatal sampleHostOnlyEnv (deviceAt 3)
    sampleTimer sampleRunning sampleWorld rfl rfl
  exact ⟨rfl, rfl, h.1, h.2.2.2.1 rfl, h.2.2.2.2.2⟩

/-! ## Running, has-run-once and warnings along call sequences -/

theorem consistent_of_idle (t : Timer) (h : t.running_ = false) : t.consistent :=
  fun hr => by rw [h] at hr; exact Bool.noConfusion hr

theorem Timer_run_facts (env : Env) (calls : List Call) (t : Timer) (w : World)
    (r : List (Option ℚ × Timer)) (t1 : Timer) (w1 : World) (hwf : t.consistent)
    (h : Timer.run env calls t w = Outcome.ok r t1 w1) : runFacts calls t w r t1 w1 :=
  runWith_facts (Timer.call env) (Timer_call_facts env) calls t w r t1 w1 hwf h

theorem CPUTimer_run_facts (env : Env) (calls : List Call) (t : Timer) (w : World)
    (r : List (Option ℚ × Timer)) (t1 : Timer) (w1 : World) (hwf : t.consistent)
    (h : CPUTimer.run env calls t w = Outcome.ok r t1 w1) : runFacts calls t w r t1 w1 :=
  runWith_facts (CPUTimer.call env) (CPUTimer_call_facts env) calls t w r t1 w1 hwf h

theorem CPUTimer_run_returns (env : Env) (calls : List Call) (t : Timer) (w : World) :
    (CPUTimer.run env calls t w).returns := by
  obtain ⟨r, t1, w1, h, -⟩ := CPUTimer_run_hostOnly env calls t w
  rw [h]
  trivial

/-! ## The life of a `CPUTimer` -/

theorem CPUTimer_constructObject_flags (env : Env) (c : Ctx) (raw : Timer) (w : World)
    (t1 : Timer) (w1 : World) (h : CPUTimer.constructObject env c raw w = Outcome.ok () t1 w1) :
    t1.running_ = false ∧ t1.has_run_at_least_once_ = false ∧ t1.initted_ = true := by
  simp only [CPUTimer.constructObject, bind_def, M.bind] at h
  cases h1 : Timer.construct env c raw w with
  | fatal u => simp [h1] at h
  | ok v t2 w2 =>
    simp only [h1, CPUTimer_construct_flags, Outcome.ok.injEq, true_and] at h
    obtain ⟨rfl, -⟩ := h
    exact ⟨rfl, rfl, rfl⟩

/-- C14: for every finite sequence of Start, Stop and duration-query calls
applied to a timer that is not Running (as it is right after construction),
in any modes, whenever the sequence returns without fatal error the timer is
Running afterwards if and only if the sequence contains a Start and no Stop
and no duration query occurs after the last Start.  This holds for Timer and
for CPUTimer; a sequence on a CPUTimer always returns. -/
theorem C14_running_iff_start_pending (env : Env) (calls : List Call) (t : Timer) (w : World)
    (hidle : t.running_ = false) :
    (∀ r t1 w1, Timer.run env calls t w = Outcome.ok r t1 w1 →
      (t1.running_ = true ↔ startPending calls)) ∧
    (∀ r t1 w1, CPUTimer.run env calls t w = Outcome.ok r t1 w1 →
      (t1.running_ = true ↔ startPending calls)) ∧
    (CPUTimer.run env calls t w).returns := by
  have key : ∀ r t1 w1, runFacts calls t w r t1 w1 →
      (t1.running_ = true ↔ startPending calls) := by
    intro r t1 w1 hf
    obtain ⟨-, -, h3, -⟩ := hf
    rw [h3, startPending_iff]
    constructor
    · rintro (⟨-, h⟩ | h)
      · rw [hidle] at h
        exact Bool.noConfusion h
      · exact h
    · exact fun h => Or.inr h
  exact ⟨fun r t1 w1 h => key r t1 w1 (Timer_run_facts env calls t w r t1 w1
      (consistent_of_idle t hidle) h),
    fun r t1 w1 h => key r t1 w1 (CPUTimer_run_facts env calls t w r t1 w1
      (consistent_of_idle t hidle) h),
    CPUTimer_run_returns env calls t w⟩

theorem C14_running_iff_start_pending_witness :
    sampleTimer.running_ = false ∧
    Timer.run sampleEnv [⟨Op.Start, hostAt 1⟩, ⟨Op.MilliSeconds, hostAt 2⟩, ⟨Op.Start, hostAt 3⟩,
        ⟨Op.Start, hostAt 4⟩] sampleTimer sampleWorld
      = Outcome.ok
          [(none, { sampleTimer with start_cpu_ := 1, running_ := true,
                                     has_run_at_least_once_ := true }),
           (some 0, { sampleTimer with start_cpu_ := 1, stop_cpu_ := 2,
                                       has_run_at_least_once_ := true }),
           (none, { sampleTimer with start_cpu_ := 3, stop_cpu_ := 2, running_ := true,
                                     has_run_at_least_once_ := true }),
           (none, { sampleTimer with start_cpu_ := 3, stop_cpu_ := 2, running_ := true,
                                     has_run_at_least_once_ := true })]
          { sampleTimer with start_cpu_ := 3, stop_cpu_ := 2, running_ := true,
                             has_run_at_least_once_ := true }
          { sampleWorld with
              log := [Event.modeQuery Mode.CPU, Event.clockNow 1, Event.modeQuery Mode.CPU,
                      Event.clockNow 2, Event.modeQuery Mode.CPU, Event.modeQuery Mode.CPU,
                      Event.clockNow 3] } ∧
    startPending [⟨Op.Start, hostAt 1⟩, ⟨Op.MilliSeconds, hostAt 2⟩, ⟨Op.Start, hostAt 3⟩,
        ⟨Op.Start, hostAt 4⟩] := by
  have hrun : Timer.run sampleEnv [⟨Op.Start, hostAt 1⟩, ⟨Op.MilliSeconds, hostAt 2⟩,
        ⟨Op.Start, hostAt 3⟩, ⟨Op.Start, hostAt 4⟩] sampleTimer sampleWorld
      = Outcome.ok
          [(none, { sampleTimer with start_cpu_ := 1, running_ := true,
                                     has_run_at_least_once_ := true }),
           (some 0, { sampleTimer with start_cpu_ := 1, stop_cpu_ := 2,
                                       has_run_at_least_once_ := true }),
           (none, { sampleTimer with start_cpu_ := 3, stop_cpu_ := 2, running_ := true,
                                     has_run_at_least_once_ := true }),
           (none, { sampleTimer with start_cpu_ := 3, stop_cpu_ := 2, running_ := true,
                                     has_run_at_least_once_ := true })]
          { sampleTimer with start_cpu_ := 3, stop_cpu_ := 2, running_ := true,
                             has_run_at_least_once_ := true }
          { sampleWorld with
              log := [Event.modeQuery Mode.CPU, Event.clockNow 1, Event.modeQuery Mode.CPU,
                      Event.clockNow 2, Event.modeQuery Mode.CPU, Event.modeQuery Mode.CPU,
                      Event.clockNow 3] } := by
    simp [Timer.run, runWith_cons, runWith_nil, Timer.call, M.bind, M.pure, Timer_Start_host_eq,
      Timer_MilliSeconds_host_eq, hostAt, sampleTimer, sampleWorld, milliseconds, sampleEnv]
    rw [toFloat_intCast_eq _ (by decide) (by decide)]
    decide
  exact ⟨rfl, hrun,
    ((C14_running_iff_start_pending sampleEnv _ sampleTimer sampleWorld rfl).1 _ _ _ hrun).mp
      rfl⟩

/-- C16: the has-run-once flag is false right after construction (of a Timer
in any mode, and of a CPUTimer); along any sequence of Start, Stop,
MicroSeconds, MilliSeconds and Seconds calls that returns, started in a state
where Running implies has-run-once (as after construction), the flag is true
afterwards exactly when it was true before or the sequence contains a Start,
so it turns true at the first Start that completes and is never reset; and
once it is true no later call adds a warning to the effect log, that is, no
later query takes the warning-and-zero path.  This holds for Timer and for
CPUTimer. -/
theorem C16_has_run_once_is_set_by_start_and_never_reset (env : Env) (calls : List Call)
    (t : Timer) (w : World) (hwf : t.consistent) (c0 : Ctx) (raw : Timer) :
    (∀ t0 w0, Timer.construct env c0 raw w = Outcome.ok () t0 w0 →
      t0.has_run_at_least_once_ = false ∧ t0.running_ = false) ∧
    CPUTimer.construct raw w =
      Outcome.ok () { raw with initted_ := true, running_ := false,
                               has_run_at_least_once_ := false } w ∧
    (∀ r t1 w1, Timer.run env calls t w = Outcome.ok r t1 w1 →
      (t1.has_run_at_least_once_ = true ↔
        t.has_run_at_least_once_ = true ∨ ∃ x ∈ calls, x.op = Op.Start) ∧
      (t.has_run_at_least_once_ = true → w1.warnings = w.warnings)) ∧
    (∀ r t1 w1, CPUTimer.run env calls t w = Outcome.ok r t1 w1 →
      (t1.has_run_at_least_once_ = true ↔
        t.has_run_at_least_once_ = true ∨ ∃ x ∈ calls, x.op = Op.Start) ∧
      (t.has_run_at_least_once_ = true → w1.warnings = w.warnings)) := by
  refine ⟨fun t0 w0 h => ?_, CPUTimer_construct_flags raw w, fun r t1 w1 h => ?_,
    fun r t1 w1 h => ?_⟩
  · obtain ⟨a, b, -⟩ := Timer_construct_flags env c0 raw w t0 w0 h
    exact ⟨b, a⟩
  · obtain ⟨-, -, -, a4, -, -, -, -, a9⟩ := Timer_run_facts env calls t w r t1 w1 hwf h
    exact ⟨a4, a9⟩
  · obtain ⟨-, -, -, a4, -, -, -, -, a9⟩ := CPUTimer_run_facts env calls t w r t1 w1 hwf h
    exact ⟨a4, a9⟩

theorem C16_has_run_once_is_set_by_start_and_never_reset_witness :
    sampleTimer.consistent ∧
    CPUTimer.run sampleEnv [⟨Op.Seconds, hostAt 0⟩, ⟨Op.Start, hostAt 1⟩] sampleTimer sampleWorld
      = Outcome.ok [(some 0, sampleTimer), (none, { sampleRunning with start_cpu_ := 1 })]
          { sampleRunning with start_cpu_ := 1 }
          { sampleWorld with log := [Event.warning, Event.clockNow 1] } ∧
    (({ sampleRunning with start_cpu_ := 1 } : Timer).has_run_at_least_once_ = true ↔
      sampleTimer.has_run_at_least_once_ = true ∨
        ∃ x ∈ [(⟨Op.Seconds, hostAt 0⟩ : Call), ⟨Op.Start, hostAt 1⟩], x.op = Op.Start) := by
  have hrun : CPUTimer.run sampleEnv [⟨Op.Seconds, hostAt 0⟩, ⟨Op.Start, hostAt 1⟩] sampleTimer
      sampleWorld
      = Outcome.ok [(some 0, sampleTimer), (none, { sampleRunning with start_cpu_ := 1 })]
          { sampleRunning with start_cpu_ := 1 }
          { sampleWorld with log := [Event.warning, Event.clockNow 1] } := by
    simp [CPUTimer.run, runWith_cons, runWith_nil, CPUTimer.call, M.bind, M.pure,
      CPUTimer_Start_eq, CPUTimer_Seconds_eq, CPUTimer_MilliSeconds_never, Outcome.map,
      hostAt, sampleTimer, sampleWorld, sampleRunning]
  have hwf : sampleTimer.consistent := consistent_of_idle sampleTimer rfl
  exact ⟨hwf, hrun,
    ((C16_has_run_once_is_set_by_start_and_never_reset sampleEnv _ sampleTimer sampleWorld hwf
      (hostAt 0) sampleTimer).2.2.2 _ _ _ hrun).1⟩

theorem Timer_Init_ok_initted (env : Env) (c : Ctx) (t : Timer) (w : World) (t1 : Timer)
    (w1 : World) (h : Timer.Init env c t w = Outcome.ok () t1 w1) : t1.initted_ = true := by
  cases hi : t.initted_
  · cases hm : c.mode
    · rw [Timer_Init_host env c t w hi hm] at h
      simp only [Outcome.ok.injEq, true_and] at h
      rw [← h.1]
    · cases hc : env.CPU_ONLY
      · rw [Timer_Init_device env c t w hi hm hc] at h
        by_cases h1 : env.cudaSuccess w.cudaCalls = true
        · by_cases h2 : env.cudaSuccess (w.cudaCalls + 1) = true
          · simp only [h1, h2, if_true, Outcome.ok.injEq, true_and] at h
            rw [← h.1]
          · simp [h1, h2] at h
        · simp [h1] at h
      · rw [Timer_Init_nogpu env c t w hi hm hc] at h
        simp at h
  · rw [Timer_Init_initted env c t w hi] at h
    simp only [Outcome.ok.injEq, true_and] at h
    rw [← h.1]
    exact hi

theorem Timer_Inits_initted (env : Env) (cs : List Ctx) (t : Timer) (w : World)
    (h : t.initted_ = true) : Timer.Inits env cs t w = Outcome.ok () t w := by
  induction cs with
  | nil => rfl
  | cons c cs ih =>
    simp only [Timer.Inits, bind_def, M.bind, Timer_Init_initted env c t w h]
    exact ih

theorem Timer_Inits_cons (env : Env) (c : Ctx) (cs : List Ctx) (t : Timer) (w : World) :
    Timer.Inits env (c :: cs) t w = Timer.Init env c t w := by
  simp only [Timer.Inits, bind_def, M.bind]
  cases h : Timer.Init env c t w with
  | fatal u => rfl
  | ok v t1 w1 =>
    simp only []
    exact Timer_Inits_initted env cs t1 w1 (Timer_Init_ok_initted env c t w t1 w1 h)

theorem Timer_Init_creations (env : Env) (c : Ctx) (t : Timer) (w : World) (k : Marker) :
    (Timer.Init env c t w).world.creations k ≤ w.creations k + 1 := by
  cases hi : t.initted_
  · cases hm : c.mode
    · rw [Timer_Init_host env c t w hi hm]
      simp [Outcome.world, World.creations, Event.isCreate]
    · cases hc : env.CPU_ONLY
      · rw [Timer_Init_device env c t w hi hm hc]
        by_cases h1 : env.cudaSuccess w.cudaCalls = true
        · by_cases h2 : env.cudaSuccess (w.cudaCalls + 1) = true <;> cases k <;>
            simp [h1, h2, Outcome.world, World.creations, Event.isCreate, List.countP_cons]
        · cases k <;>
            simp [h1, Outcome.world, World.creations, Event.isCreate, List.countP_cons]
      · rw [Timer_Init_nogpu env c t w hi hm hc]
        simp [Outcome.world, World.creations, Event.isCreate]
  · rw [Timer_Init_initted env c t w hi]
    simp [Outcome.world]

/-- C17 (amended): Init() is idempotent.  On a Timer that is already
initialised it returns the object and the world unchanged, whatever the mode:
no field changes, no creation call, not even a mode query.  On an
uninitialised Timer: in Host mode it creates no marker and sets initted; in
Device mode with device support compiled in it issues the creation call for
the start marker and then for the stop marker and sets initted when both
succeed, a failed creation aborting; in Device mode with device support
compiled out it aborts right after the mode query, creating no marker and not
setting initted.  Hence Init() followed by any number of further Init() calls
has exactly the outcome of a single Init(), and at most one creation call per
marker, two in all, is ever made for an object. -/
theorem C17_init_is_idempotent (env : Env) (c : Ctx) (cs : List Ctx) (t : Timer) (w : World) :
    (t.initted_ = true → Timer.Init env c t w = Outcome.ok () t w) ∧
    (t.initted_ = false → c.mode = Mode.CPU →
      Timer.Init env c t w =
        Outcome.ok () { t with initted_ := true }
          { w with log := w.log ++ [Event.modeQuery Mode.CPU] }) ∧
    (t.initted_ = false → c.mode = Mode.GPU → env.CPU_ONLY = false →
      Timer.Init env c t w =
        if env.cudaSuccess w.cudaCalls = true then
          if env.cudaSuccess (w.cudaCalls + 1) = true then
            Outcome.ok ()
              { t with initted_ := true, start_gpu_ := some w.cudaCalls,
                       stop_gpu_ := some (w.cudaCalls + 1) }
              { w with cudaCalls := w.cudaCalls + 2,
                       log := w.log ++ [Event.modeQuery Mode.GPU,
                                        Event.cudaEventCreate Marker.start,
                                        Event.cudaEventCreate Marker.stop] }
          else
            Outcome.fatal
              { w with cudaCalls := w.cudaCalls + 2,
                       log := w.log ++ [Event.modeQuery Mode.GPU,
                                        Event.cudaEventCreate Marker.start,
                                        Event.cudaEventCreate Marker.stop] }
        else
          Outcome.fatal
            { w with cudaCalls := w.cudaCalls + 1,
                     log := w.log ++ [Event.modeQuery Mode.GPU,
                                      Event.cudaEventCreate Marker.start] }) ∧
    (t.initted_ = false → c.mode = Mode.GPU → env.CPU_ONLY = true →
      Timer.Init env c t w = Outcome.fatal w.afterDeviceModeQuery) ∧
    Timer.Inits env (c :: cs) t w = Timer.Init env c t w ∧
    ∀ k, (Timer.Inits env (c :: cs) t w).world.creations k ≤ w.creations k + 1 := by
  refine ⟨Timer_Init_initted env c t w, Timer_Init_host env c t w,
    Timer_Init_device env c t w, fun h hm hc => Timer_Init_nogpu env c t w h hm hc,
    Timer_Inits_cons env c cs t w, fun k => ?_⟩
  rw [Timer_Inits_cons]
  exact Timer_Init_creations env c t w k

/-- C17 (counterexample): an uninitialised Timer in a build with device
support compiled out, while the mode selector reports Device.  Init() aborts
right after the mode query: the mode is Device and yet no marker is created,
and initted is not set. -/
theorem C17_counterexample_init_without_device_support :
    Timer.Init sampleHostOnlyEnv (deviceAt 0) { sampleTimer with initted_ := false } sampleWorld
      = Outcome.fatal { sampleWorld with log := [Event.modeQuery Mode.GPU] } ∧
    (Timer.Init sampleHostOnlyEnv (deviceAt 0) { sampleTimer with initted_ := false }
      sampleWorld).world.creations Marker.start = 0 ∧
    ¬ (Timer.Init sampleHostOnlyEnv (deviceAt 0) { sampleTimer with initted_ := false }
      sampleWorld).returns := by
  refine ⟨rfl, rfl, fun h => h⟩

/-! ## Milliseconds are truncated microseconds -/

theorem milliseconds_eq_tdiv_microseconds (env : Env) (d : Int) (h : 0 ≤ d) :
    milliseconds env d = Int.tdiv (microseconds env d) 1000 := by
  obtain ⟨n, rfl⟩ := Int.eq_ofNat_of_zero_le h
  simp only [milliseconds, microseconds]
  have h1 : Int.tdiv (n : Int) (env.ticksPerMicrosecond : Int)
      = ((n / env.ticksPerMicrosecond : Nat) : Int) := rfl
  have h2 : (1000 * (env.ticksPerMicrosecond : Int))
      = ((1000 * env.ticksPerMicrosecond : Nat) : Int) := by push_cast; rfl
  have h3 : Int.tdiv ((n / env.ticksPerMicrosecond : Nat) : Int) 1000
      = ((n / env.ticksPerMicrosecond / 1000 : Nat) : Int) := rfl
  have h4 : Int.tdiv (n : Int) ((1000 * env.ticksPerMicrosecond : Nat) : Int)
      = ((n / (1000 * env.ticksPerMicrosecond) : Nat) : Int) := rfl
  rw [h1, h3, h2, h4, Nat.div_div_eq_div_mul, Nat.mul_comm]

theorem milliseconds_eq_zero (env : Env) (d : Int) (h : 0 ≤ d)
    (hlt : d < 1000 * (env.ticksPerMicrosecond : Int)) : milliseconds env d = 0 :=
  Int.tdiv_eq_zero_of_lt h hlt

theorem CPUTimer_MicroSeconds_value (env : Env) (c : Ctx) (t : Timer) (w : World)
    (hh : t.has_run_at_least_once_ = true) :
    (CPUTimer.MicroSeconds env c t w).value
      = some (toFloat ((microseconds env (stopMarkUsed t c - t.start_cpu_) : Int) : ℚ)) := by
  rw [CPUTimer_MicroSeconds_eq env c t w hh]
  cases hr : t.running_ <;> simp [Outcome.value, stopMarkUsed, hr]

theorem CPUTimer_MilliSeconds_value (env : Env) (c : Ctx) (t : Timer) (w : World)
    (hh : t.has_run_at_least_once_ = true) :
    (CPUTimer.MilliSeconds env c t w).value
      = some (toFloat ((milliseconds env (stopMarkUsed t c - t.start_cpu_) : Int) : ℚ)) := by
  rw [CPUTimer_MilliSeconds_eq env c t w hh]
  cases hr : t.running_ <;> simp [Outcome.value, stopMarkUsed, hr]

theorem Timer_MicroSeconds_host_value (env : Env) (c : Ctx) (t : Timer) (w : World)
    (hm : c.mode = Mode.CPU) (hh : t.has_run_at_least_once_ = true) :
    (Timer.MicroSeconds env c t w).value
      = some (toFloat ((microseconds env (stopMarkUsed t c - t.start_cpu_) : Int) : ℚ)) := by
  rw [Timer_MicroSeconds_host_eq env c t w hm hh]
  cases hr : t.running_ <;> simp [Outcome.value, stopMarkUsed, hr]

theorem Timer_MilliSeconds_host_value (env : Env) (c : Ctx) (t : Timer) (w : World)
    (hm : c.mode = Mode.CPU) (hh : t.has_run_at_least_once_ = true) :
    (Timer.MilliSeconds env c t w).value
      = some (toFloat ((milliseconds env (stopMarkUsed t c - t.start_cpu_) : Int) : ℚ)) := by
  rw [Timer_MilliSeconds_host_eq env c t w hm hh]
  cases hr : t.running_ <;> simp [Outcome.value, stopMarkUsed, hr]

theorem millisecondsTruncate_toFloat (n : Int) (h : 0 ≤ n) :
    millisecondsTruncate n (some (toFloat (n : ℚ)))
      (some (toFloat ((Int.tdiv n 1000 : Int) : ℚ))) := by
  refine ⟨⟨_, rfl, convertsToFloat_toFloat n⟩, ⟨_, rfl, convertsToFloat_toFloat _⟩, ?_, ?_⟩
  · obtain ⟨m, hm⟩ := toFloat_intCast_isInt (Int.tdiv n 1000)
    exact ⟨m, by rw [hm]⟩
  · intro hlt
    have h1 : 0 ≤ Int.tdiv n 1000 := Int.tdiv_nonneg h (by decide)
    have h2 : Int.tdiv n 1000 ≤ n := by
      rw [Int.tdiv_eq_ediv h (by decide)]
      exact Int.ediv_le_self 1000 h
    have a : |n| < 2 ^ 24 := by rw [abs_of_nonneg h]; exact hlt
    have b : |Int.tdiv n 1000| < 2 ^ 24 := by rw [abs_of_nonneg h1]; omega
    exact ⟨n, by rw [toFloat_intCast_of_lt n a], by rw [toFloat_intCast_of_lt _ b]⟩

/-- C18 (amended): for a CPUTimer, and for a Timer in host mode, that has run
and whose stop mark (the one the query uses) is not earlier than its start
mark, made in the same state and at the same instant MicroSeconds() returns
the `float` conversion of the whole number of microseconds between the marks
and MilliSeconds() returns the `float` conversion of that whole number divided
by 1000 with the fraction discarded (integer division truncating toward
zero).  The millisecond result is a whole number; it is the returned
MicroSeconds() value divided by 1000 with the fraction discarded whenever the
marks are less than 2^24 microseconds apart; and it is 0 whenever the marks
are less than one millisecond apart. -/
theorem C18_milliseconds_truncate_microseconds (env : Env) (c : Ctx) (t : Timer) (w : World)
    (hh : t.has_run_at_least_once_ = true) (hord : t.start_cpu_ ≤ stopMarkUsed t c) :
    millisecondsTruncate (microseconds env (stopMarkUsed t c - t.start_cpu_))
      (CPUTimer.MicroSeconds env c t w).value (CPUTimer.MilliSeconds env c t w).value ∧
    (stopMarkUsed t c - t.start_cpu_ < 1000 * (env.ticksPerMicrosecond : Int) →
      (CPUTimer.MilliSeconds env c t w).value = some 0) ∧
    (c.mode = Mode.CPU →
      millisecondsTruncate (microseconds env (stopMarkUsed t c - t.start_cpu_))
        (Timer.MicroSeconds env c t w).value (Timer.MilliSeconds env c t w).value ∧
      (stopMarkUsed t c - t.start_cpu_ < 1000 * (env.ticksPerMicrosecond : Int) →
        (Timer.MilliSeconds env c t w).value = some 0)) := by
  have hd : 0 ≤ stopMarkUsed t c - t.start_cpu_ := sub_nonneg.mpr hord
  have hms := milliseconds_eq_tdiv_microseconds env _ hd
  have hus : 0 ≤ microseconds env (stopMarkUsed t c - t.start_cpu_) :=
    Int.tdiv_nonneg hd (Int.ofNat_nonneg _)
  have key := millisecondsTruncate_toFloat _ hus
  refine ⟨?_, ?_, fun hm => ⟨?_, ?_⟩⟩
  · rw [CPUTimer_MicroSeconds_value env c t w hh, CPUTimer_MilliSeconds_value env c t w hh, hms]
    exact key
  · intro hlt
    rw [CPUTimer_MilliSeconds_value env c t w hh, milliseconds_eq_zero env _ hd hlt]
    simp
  · rw [Timer_MicroSeconds_host_value env c t w hm hh,
      Timer_MilliSeconds_host_value env c t w hm hh, hms]
    exact key
  · intro hlt
    rw [Timer_MilliSeconds_host_value env c t w hm hh, milliseconds_eq_zero env _ hd hlt]
    simp

theorem C18_milliseconds_truncate_microseconds_witness :
    sampleRunning.has_run_at_least_once_ = true ∧
    sampleRunning.start_cpu_ ≤ stopMarkUsed sampleRunning (hostAt 2999010) ∧
    (Timer.MicroSeconds sampleEnv (hostAt 2999010) sampleRunning sampleWorld).value
      = some 2999 ∧
    (Timer.MilliSeconds sampleEnv (hostAt 2999010) sampleRunning sampleWorld).value
      = some 2 := by
  have hord : sampleRunning.start_cpu_ ≤ stopMarkUsed sampleRunning (hostAt 2999010) := by
    decide
  have h := ((C18_milliseconds_truncate_microseconds sampleEnv (hostAt 2999010) sampleRunning
    sampleWorld rfl hord).2.2 rfl).1
  obtain ⟨⟨v1, e1, _, x1, _⟩, ⟨v2, e2, _, x2, _⟩, _, _⟩ := h
  refine ⟨rfl, hord, ?_, ?_⟩
  · rw [e1, x1 (by decide)]
    decide
  · rw [e2, x2 (by decide)]
    decide

/-- C18, counterexample: on a host-mode Timer with a nanosecond clock whose
marks are 16777999 whole microseconds apart, MicroSeconds() returns 16778000
(the count rounded to `float`) and MilliSeconds() returns 16777, which is not
16778000 divided by 1000 with the fraction discarded. -/
theorem C18_counterexample_rounded_microseconds :
    sampleRunning.start_cpu_ ≤ stopMarkUsed sampleRunning (hostAt 16777999010) ∧
    (Timer.MicroSeconds sampleEnv (hostAt 16777999010) sampleRunning sampleWorld).value
      = some 16778000 ∧
    (Timer.MilliSeconds sampleEnv (hostAt 16777999010) sampleRunning sampleWorld).value
      = some 16777 ∧
    ((Int.tdiv 16778000 1000 : Int) : ℚ) ≠ 16777 := by
  have hf : toFloat 16777999 = 16778000 := by
    have h := roundToFormat_eval 24 (-126) 16777999 24 8389000 (by norm_num) (by norm_num)
      (by norm_num) (by norm_num)
      (by rw [roundNearestEven_of_tie _ 8388999 (by norm_num)]; norm_num)
    unfold toFloat
    rw [h]
    norm_num
  have hg : toFloat 16777 = 16777 := toFloat_ofNat 16777 (by norm_num)
  have hu : microseconds sampleEnv (stopMarkUsed sampleRunning (hostAt 16777999010)
      - sampleRunning.start_cpu_) = 16777999 := by decide
  have hm : milliseconds sampleEnv (stopMarkUsed sampleRunning (hostAt 16777999010)
      - sampleRunning.start_cpu_) = 16777 := by decide
  refine ⟨by decide, ?_, ?_, by decide⟩
  · rw [Timer_MicroSeconds_host_value sampleEnv _ sampleRunning sampleWorld rfl rfl, hu]
    simp [hf]
  · rw [Timer_MilliSeconds_host_value sampleEnv _ sampleRunning sampleWorld rfl rfl, hm]
    simp [hg]

/-! ## Well-formed device-runtime calls of a device-mode Timer -/

theorem Protocol_run_append (p : Protocol) (es fs : List Event) :
    p.run (es ++ fs) = (p.run es).bind (fun q => q.run fs) := by
  induction es generalizing p with
  | nil => rfl
  | cons e es ih =>
    simp only [List.cons_append, Protocol.run]
    cases p.step e with
    | none => rfl
    | some q => exact ih q

theorem protocolKept_bind {α β : Type} (x : M α) (f : α → M β) (p : Protocol) (t : Timer)
    (w : World) (hx : protocolKept p w (x t w))
    (hf : ∀ a t1 w1 q, x t w = Outcome.ok a t1 w1 → q.tracks t1 w1 →
      protocolKept q w1 (f a t1 w1)) :
    protocolKept p w ((x >>= f) t w) := by
  obtain ⟨es, q, h1, h2, h3⟩ := hx
  simp only [bind_def, M.bind]
  cases h : x t w with
  | fatal u =>
    rw [h] at h1
    exact ⟨es, q, h1, h2, fun v t1 w1 hv => by simp at hv⟩
  | ok a t1 w1 =>
    rw [h] at h1
    simp only [Outcome.world] at h1
    obtain ⟨fs, q2, k1, k2, k3⟩ := hf a t1 w1 q h (h3 a t1 w1 h)
    refine ⟨es ++ fs, q2, ?_, ?_, k3⟩
    · rw [k1, h1, List.append_assoc]
    · rw [Protocol_run_append, h2]
      exact k2

theorem protocolKept_ok_same {α : Type} (p : Protocol) (t : Timer) (w : World) (a : α)
    (h : p.tracks t w) : protocolKept p w (Outcome.ok a t w) := by
  refine ⟨[], p, by simp [Outcome.world], rfl, ?_⟩
  intro v t1 w1 hv
  simp only [Outcome.ok.injEq] at hv
  obtain ⟨-, rfl, rfl⟩ := hv
  exact h

theorem Timer_Start_protocol (env : Env) (c : Ctx) (p : Protocol) (t : Timer) (w : World)
    (hc : env.CPU_ONLY = false) (hm : c.mode = Mode.GPU) (htr : p.tracks t w) :
    protocolKept p w (Timer.Start env c t w) := by
  obtain ⟨a1, a2, a3, a4, a5, a6, a7, a8⟩ := htr
  cases hr : t.running_
  · rw [Timer_Start_device env c t w hc hm hr]
    refine ⟨[Event.modeQuery Mode.GPU, Event.cudaEventRecord Marker.start t.start_gpu_],
      { p with next := p.next + 1, startRecorded := true, stopRecorded := false,
               stopSynced := false }, ?_, ?_, ?_⟩
    · by_cases h1 : env.cudaSuccess w.cudaCalls = true <;> simp [h1, Outcome.world]
    · simp [Protocol.run, Protocol.step, a2, a4]
    · intro v t1 w1 hv
      by_cases h1 : env.cudaSuccess w.cudaCalls = true
      · simp only [h1, if_true, Outcome.ok.injEq, true_and] at hv
        obtain ⟨rfl, rfl⟩ := hv
        exact ⟨by simp [a1], a2, a3, a4, a5, fun _ => rfl, fun _ => rfl,
          fun _ h => Bool.noConfusion h⟩
      · simp [h1] at hv
  · rw [Timer_Start_running env c t w hr]
    exact protocolKept_ok_same p t w () ⟨a1, a2, a3, a4, a5, a6, a7, a8⟩

theorem Timer_Stop_protocol (env : Env) (c : Ctx) (p : Protocol) (t : Timer) (w : World)
    (hc : env.CPU_ONLY = false) (hm : c.mode = Mode.GPU) (htr : p.tracks t w) :
    protocolKept p w (Timer.Stop env c t w) := by
  obtain ⟨a1, a2, a3, a4, a5, a6, a7, a8⟩ := htr
  cases hr : t.running_
  · rw [Timer_Stop_idle env c t w hr]
    exact protocolKept_ok_same p t w () ⟨a1, a2, a3, a4, a5, a6, a7, a8⟩
  · rw [Timer_Stop_device env c t w hc hm hr]
    by_cases h1 : env.cudaSuccess w.cudaCalls = true
    · refine ⟨[Event.modeQuery Mode.GPU, Event.cudaEventRecord Marker.stop t.stop_gpu_,
          Event.cudaEventSynchronize Marker.stop t.stop_gpu_],
        { p with next := p.next + 1 + 1, stopRecorded := true, stopSynced := true }, ?_, ?_, ?_⟩
      · by_cases h2 : env.cudaSuccess (w.cudaCalls + 1) = true <;> simp [h1, h2, Outcome.world]
      · simp [Protocol.run, Protocol.step, a3, a5]
      · intro v t1 w1 hv
        by_cases h2 : env.cudaSuccess (w.cudaCalls + 1) = true
        · simp only [h1, h2, if_true, Outcome.ok.injEq, true_and] at hv
          obtain ⟨rfl, rfl⟩ := hv
          exact ⟨by simp [a1], a2, a3, a4, a5, fun h => Bool.noConfusion h, a7,
            fun _ _ => ⟨rfl, rfl⟩⟩
        · simp [h1, h2] at hv
    · refine ⟨[Event.modeQuery Mode.GPU, Event.cudaEventRecord Marker.stop t.stop_gpu_],
        { p with next := p.next + 1, stopRecorded := true, stopSynced := false }, ?_, ?_, ?_⟩
      · simp [h1, Outcome.world]
      · simp [Protocol.run, Protocol.step, a3, a5]
      · intro v t1 w1 hv
        simp [h1] at hv

theorem Timer_MilliSeconds_protocol_idle (env : Env) (c : Ctx) (p : Protocol) (t : Timer)
    (w : World) (hc : env.CPU_ONLY = false) (hm : c.mode = Mode.GPU) (htr : p.tracks t w)
    (hh : t.has_run_at_least_once_ = true) (hr : t.running_ = false) :
    protocolKept p w (Timer.MilliSeconds env c t w) := by
  obtain ⟨a1, a2, a3, a4, a5, a6, a7, a8⟩ := htr
  rw [Timer_MilliSeconds_device_idle env c t w hc hm hh hr]
  refine ⟨[Event.modeQuery Mode.GPU, Event.cudaEventElapsedTime t.start_gpu_ t.stop_gpu_],
    { p with next := p.next + 1 }, ?_, ?_, ?_⟩
  · by_cases h1 : env.cudaSuccess w.cudaCalls = true <;>
      simp [h1, Outcome.world, World.afterElapsedQuery]
  · simp [Protocol.run, Protocol.step, a2, a3, a4, a5, a7 hh, a8 hh hr]
  · intro v t1 w1 hv
    by_cases h1 : env.cudaSuccess w.cudaCalls = true
    · simp only [h1, if_true, Outcome.ok.injEq] at hv
      obtain ⟨-, rfl, rfl⟩ := hv
      exact ⟨by simp [a1, World.afterElapsedQuery], a2, a3, a4, a5, a6, a7, a8⟩
    · simp [h1] at hv

theorem Timer_MicroSeconds_protocol_idle (env : Env) (c : Ctx) (p : Protocol) (t : Timer)
    (w : World) (hc : env.CPU_ONLY = false) (hm : c.mode = Mode.GPU) (htr : p.tracks t w)
    (hh : t.has_run_at_least_once_ = true) (hr : t.running_ = false) :
    protocolKept p w (Timer.MicroSeconds env c t w) := by
  obtain ⟨a1, a2, a3, a4, a5, a6, a7, a8⟩ := htr
  rw [Timer_MicroSeconds_device_idle env c t w hc hm hh hr]
  refine ⟨[Event.modeQuery Mode.GPU, Event.cudaEventElapsedTime t.start_gpu_ t.stop_gpu_],
    { p with next := p.next + 1 }, ?_, ?_, ?_⟩
  · by_cases h1 : env.cudaSuccess w.cudaCalls = true <;>
      simp [h1, Outcome.world, World.afterElapsedQuery]
  · simp [Protocol.run, Protocol.step, a2, a3, a4, a5, a7 hh, a8 hh hr]
  · intro v t1 w1 hv
    by_cases h1 : env.cudaSuccess w.cudaCalls = true
    · simp only [h1, if_true, Outcome.ok.injEq] at hv
      obtain ⟨-, rfl, rfl⟩ := hv
      exact ⟨by simp [a1, World.afterElapsedQuery], a2, a3, a4, a5, a6, a7, a8⟩
    · simp [h1] at hv

theorem protocolKept_map {α β : Type} (f : α → β) (p : Protocol) (w : World) (o : Outcome α)
    (h : protocolKept p w o) : protocolKept p w (o.map f) := by
  obtain ⟨es, q, h1, h2, h3⟩ := h
  cases o with
  | fatal u => exact ⟨es, q, h1, h2, fun v t1 w1 hv => by simp [Outcome.map] at hv⟩
  | ok a t w0 =>
    refine ⟨es, q, h1, h2, ?_⟩
    intro v t1 w1 hv
    simp only [Outcome.map, Outcome.ok.injEq] at hv
    obtain ⟨-, rfl, rfl⟩ := hv
    exact h3 a t w0 rfl

theorem protocolKept_warning {α : Type} (p : Protocol) (t : Timer) (w : World) (a : α)
    (h : p.tracks t w) :
    protocolKept p w (Outcome.ok a t { w with log := w.log ++ [Event.warning] }) := by
  refine ⟨[Event.warning], p, by simp [Outcome.world], rfl, ?_⟩
  intro v t1 w1 hv
  simp only [Outcome.ok.injEq] at hv
  obtain ⟨-, rfl, rfl⟩ := hv
  exact h

theorem Timer_MicroSeconds_protocol (env : Env) (c : Ctx) (p : Protocol) (t : Timer)
    (w : World) (hc : env.CPU_ONLY = false) (hm : c.mode = Mode.GPU) (htr : p.tracks t w) :
    protocolKept p w (Timer.MicroSeconds env c t w) := by
  cases hh : t.has_run_at_least_once_
  · rw [Timer_MicroSeconds_never env c t w hh]
    exact protocolKept_warning p t w 0 htr
  · cases hr : t.running_
    · exact Timer_MicroSeconds_protocol_idle env c p t w hc hm htr hh hr
    · rw [Timer_MicroSeconds_running env c c t w hr hh rfl]
      refine protocolKept_bind _ _ p t w (Timer_Stop_protocol env c p t w hc hm htr) ?_
      intro a t1 w1 q hS hq
      obtain ⟨b1, b2⟩ := Timer_Stop_frame env c t w t1 w1 hS
      exact Timer_MicroSeconds_protocol_idle env c q t1 w1 hc hm hq (b2.trans hh) b1

theorem Timer_MilliSeconds_protocol (env : Env) (c : Ctx) (p : Protocol) (t : Timer)
    (w : World) (hc : env.CPU_ONLY = false) (hm : c.mode = Mode.GPU) (htr : p.tracks t w) :
    protocolKept p w (Timer.MilliSeconds env c t w) := by
  cases hh : t.has_run_at_least_once_
  · rw [Timer_MilliSeconds_never env c t w hh]
    exact protocolKept_warning p t w 0 htr
  · cases hr : t.running_
    · exact Timer_MilliSeconds_protocol_idle env c p t w hc hm htr hh hr
    · rw [Timer_MilliSeconds_running env c c t w hr hh rfl]
      refine protocolKept_bind _ _ p t w (Timer_Stop_protocol env c p t w hc hm htr) ?_
      intro a t1 w1 q hS hq
      obtain ⟨b1, b2⟩ := Timer_Stop_frame env c t w t1 w1 hS
      exact Timer_MilliSeconds_protocol_idle env c q t1 w1 hc hm hq (b2.trans hh) b1

theorem Timer_call_eq_map (env : Env) (x : Call) (t : Timer) (w : World) :
    Timer.call env x t w =
      match x.op with
      | Op.Start => (Timer.Start env x.ctx t w).map (fun _ => none)
      | Op.Stop => (Timer.Stop env x.ctx t w).map (fun _ => none)
      | Op.MicroSeconds => (Timer.MicroSeconds env x.ctx t w).map some
      | Op.MilliSeconds => (Timer.MilliSeconds env x.ctx t w).map some
      | Op.Seconds => (Timer.Seconds env x.ctx t w).map some := by
  obtain ⟨op, c⟩ := x
  cases op <;> simp only [Timer.call, bind_def, pure_def, M.bind, M.pure]
  · cases Timer.Start env c t w <;> rfl
  · cases Timer.Stop env c t w <;> rfl
  · cases Timer.MicroSeconds env c t w <;> rfl
  · cases Timer.MilliSeconds env c t w <;> rfl
  · cases Timer.Seconds env c t w <;> rfl

theorem Timer_call_protocol (env : Env) (x : Call) (p : Protocol) (t : Timer) (w : World)
    (hc : env.CPU_ONLY = false) (hm : x.ctx.mode = Mode.GPU) (htr : p.tracks t w) :
    protocolKept p w (Timer.call env x t w) := by
  rw [Timer_call_eq_map]
  obtain ⟨op, c⟩ := x
  cases op
  · exact protocolKept_map _ p w _ (Timer_Start_protocol env c p t w hc hm htr)
  · exact protocolKept_map _ p w _ (Timer_Stop_protocol env c p t w hc hm htr)
  · exact protocolKept_map _ p w _ (Timer_MicroSeconds_protocol env c p t w hc hm htr)
  · exact protocolKept_map _ p w _ (Timer_MilliSeconds_protocol env c p t w hc hm htr)
  · simp only [Timer_Seconds_eq]
    exact protocolKept_map _ p w _
      (protocolKept_map _ p w _ (Timer_MilliSeconds_protocol env c p t w hc hm htr))

theorem Timer_run_protocol (env : Env) (calls : List Call) (hc : env.CPU_ONLY = false)
    (hdev : deviceCalls calls) :
    ∀ (p : Protocol) (t : Timer) (w : World), p.tracks t w →
      protocolKept p w (Timer.run env calls t w) := by
  induction calls with
  | nil =>
    intro p t w htr
    exact protocolKept_ok_same p t w [] htr
  | cons x xs ih =>
    intro p t w htr
    have hx := Timer_call_protocol env x p t w hc (hdev x (List.mem_cons_self _ _)) htr
    have hxs := ih (fun y hy => hdev y (List.mem_cons_of_mem _ hy))
    simp only [Timer.run] at hxs ⊢
    rw [runWith_cons]
    obtain ⟨es, q, h1, h2, h3⟩ := hx
    cases hcall : Timer.call env x t w with
    | fatal u =>
      rw [hcall] at h1
      exact ⟨es, q, h1, h2, fun v t1 w1 hv => by simp at hv⟩
    | ok v t1 w1 =>
      rw [hcall] at h1
      simp only [Outcome.world] at h1
      obtain ⟨fs, q2, k1, k2, k3⟩ := hxs q t1 w1 (h3 v t1 w1 hcall)
      simp only []
      cases hrest : runWith (Timer.call env) xs t1 w1 with
      | fatal u =>
        rw [hrest] at k1
        simp only [Outcome.world] at k1
        refine ⟨es ++ fs, q2, ?_, ?_, fun v t1 w1 hv => by simp at hv⟩
        · simp only [Outcome.world]
          rw [k1, h1, List.append_assoc]
        · rw [Protocol_run_append, h2]
          exact k2
      | ok r t2 w2 =>
        rw [hrest] at k1
        simp only [Outcome.world] at k1
        refine ⟨es ++ fs, q2, ?_, ?_, ?_⟩
        · simp only [Outcome.world]
          rw [k1, h1, List.append_assoc]
        · rw [Protocol_run_append, h2]
          exact k2
        · intro v' t' w' hv
          simp only [Outcome.ok.injEq] at hv
          obtain ⟨-, rfl, rfl⟩ := hv
          exact k3 r t2 w2 hrest

theorem Timer_construct_protocol (env : Env) (c : Ctx) (raw : Timer) (w : World)
    (hc : env.CPU_ONLY = false) (hm : c.mode = Mode.GPU) :
    protocolKept (Protocol.init w.cudaCalls) w (Timer.construct env c raw w) := by
  rw [Timer_construct_eq, Timer_Init_device env c _ w rfl hm hc]
  by_cases h1 : env.cudaSuccess w.cudaCalls = true
  · refine ⟨[Event.modeQuery Mode.GPU, Event.cudaEventCreate Marker.start,
        Event.cudaEventCreate Marker.stop],
      Protocol.mk (w.cudaCalls + 1 + 1) (some w.cudaCalls) (some (w.cudaCalls + 1))
          false false false, ?_, ?_, ?_⟩
    · by_cases h2 : env.cudaSuccess (w.cudaCalls + 1) = true <;> simp [h1, h2, Outcome.world]
    · simp [Protocol.run, Protocol.step, Protocol.init]
    · intro v t1 w1 hv
      by_cases h2 : env.cudaSuccess (w.cudaCalls + 1) = true
      · simp only [h1, h2, if_true, Outcome.ok.injEq, true_and] at hv
        obtain ⟨rfl, rfl⟩ := hv
        exact ⟨rfl, rfl, rfl, rfl, rfl, fun h => Bool.noConfusion h,
          fun h => Bool.noConfusion h, fun h => Bool.noConfusion h⟩
      · simp [h1, h2] at hv
  · refine ⟨[Event.modeQuery Mode.GPU, Event.cudaEventCreate Marker.start],
      Protocol.mk (w.cudaCalls + 1) (some w.cudaCalls) none false false false, ?_, ?_, ?_⟩
    · simp [h1, Outcome.world]
    · simp [Protocol.run, Protocol.step, Protocol.init]
    · intro v t1 w1 hv
      simp [h1] at hv

theorem Timer_destruct_protocol (env : Env) (c : Ctx) (p : Protocol) (t : Timer) (w : World)
    (hc : env.CPU_ONLY = false) (hm : c.mode = Mode.GPU) (htr : p.tracks t w) :
    ∃ ds q, (Timer.destruct env c t w).world.log = w.log ++ ds ∧ p.run ds = some q := by
  obtain ⟨a1, a2, a3, a4, a5, -, -, -⟩ := htr
  rw [Timer_destruct_device env c t w hm hc]
  by_cases h1 : env.cudaSuccess w.cudaCalls = true
  · refine ⟨[Event.modeQuery Mode.GPU, Event.cudaEventDestroy Marker.start t.start_gpu_,
        Event.cudaEventDestroy Marker.stop t.stop_gpu_],
      { p with next := p.next + 1 + 1, startHandle := none, stopHandle := none }, ?_, ?_⟩
    · by_cases h2 : env.cudaSuccess (w.cudaCalls + 1) = true <;> simp [h1, h2, Outcome.world]
    · simp [Protocol.run, Protocol.step, a2, a3, a4, a5]
  · refine ⟨[Event.modeQuery Mode.GPU, Event.cudaEventDestroy Marker.start t.start_gpu_],
      { p with next := p.next + 1, startHandle := none }, ?_, ?_⟩
    · simp [h1, Outcome.world]
    · simp [Protocol.run, Protocol.step, a2, a4]

/-- C19: for a Timer whose mode selector reports Device at construction, at
every call and at destruction, in a build with device support, the effects of
its whole life (construction on arbitrary raw storage, any sequence of Start,
Stop and query calls, destruction), up to the end or up to the fatal abort of
a failed runtime call, form a well-formed sequence of device-runtime calls:
every record, synchronize and release call passes the handle the creation
call of Init produced for that marker, every elapsed-time call passes both
created handles, and every elapsed-time call comes after a record of the
start marker and after a record and then a synchronize of the stop marker that
follow that record. -/
theorem C19_device_mode_calls_are_well_formed (env : Env) (c0 : Ctx) (calls : List Call)
    (cend : Ctx) (raw : Timer) (w : World) (hc : env.CPU_ONLY = false)
    (h0 : c0.mode = Mode.GPU) (hcalls : deviceCalls calls) (hend : cend.mode = Mode.GPU) :
    wellFormedCalls w (Timer.life env c0 calls cend raw w) := by
  obtain ⟨es1, q1, l1, r1, tr1⟩ := Timer_construct_protocol env c0 raw w hc h0
  simp only [Timer.life, bind_def, pure_def, M.bind, M.pure]
  cases h1 : Timer.construct env c0 raw w with
  | fatal u =>
    rw [h1] at l1
    exact ⟨es1, l1, by rw [r1]; rfl⟩
  | ok v1 t1 w1 =>
    rw [h1] at l1
    simp only [Outcome.world] at l1
    obtain ⟨es2, q2, l2, r2, tr2⟩ :=
      Timer_run_protocol env calls hc hcalls q1 t1 w1 (tr1 v1 t1 w1 h1)
    have hrun12 : (Protocol.init w.cudaCalls).run (es1 ++ es2) = some q2 := by
      rw [Protocol_run_append, r1]
      exact r2
    simp only []
    cases h2 : Timer.run env calls t1 w1 with
    | fatal u =>
      rw [h2] at l2
      simp only [Outcome.world] at l2
      refine ⟨es1 ++ es2, ?_, by rw [hrun12]; rfl⟩
      simp only [Outcome.world]
      rw [l2, l1, List.append_assoc]
    | ok r t2 w2 =>
      rw [h2] at l2
      simp only [Outcome.world] at l2
      obtain ⟨ds, q3, l3, r3⟩ :=
        Timer_destruct_protocol env cend q2 t2 w2 hc hend (tr2 r t2 w2 h2)
      have hrun123 : (Protocol.init w.cudaCalls).run (es1 ++ es2 ++ ds) = some q3 := by
        rw [Protocol_run_append, hrun12]
        exact r3
      simp only []
      refine ⟨es1 ++ es2 ++ ds, ?_, by rw [hrun123]; rfl⟩
      cases h3 : Timer.destruct env cend t2 w2 with
      | fatal u =>
        rw [h3] at l3
        simp only [Outcome.world] at l3 ⊢
        rw [l3, l2, l1]
        simp only [List.append_assoc]
      | ok v3 t3 w3 =>
        rw [h3] at l3
        simp only [Outcome.world] at l3 ⊢
        rw [l3, l2, l1]
        simp only [List.append_assoc]

theorem C19_device_mode_calls_are_well_formed_witness :
    sampleEnv.CPU_ONLY = false ∧ (deviceAt 0).mode = Mode.GPU ∧
    deviceCalls [⟨Op.Start, deviceAt 1⟩, ⟨Op.Stop, deviceAt 2⟩, ⟨Op.Start, deviceAt 3⟩,
      ⟨Op.MilliSeconds, deviceAt 4⟩] ∧
    (deviceAt 9).mode = Mode.GPU ∧
    wellFormedCalls sampleWorld
      (Timer.life sampleEnv (deviceAt 0) [⟨Op.Start, deviceAt 1⟩, ⟨Op.Stop, deviceAt 2⟩,
        ⟨Op.Start, deviceAt 3⟩, ⟨Op.MilliSeconds, deviceAt 4⟩] (deviceAt 9) sampleTimer
        sampleWorld) := by
  have hd : deviceCalls [⟨Op.Start, deviceAt 1⟩, ⟨Op.Stop, deviceAt 2⟩, ⟨Op.Start, deviceAt 3⟩,
      ⟨Op.MilliSeconds, deviceAt 4⟩] := by
    simp [deviceCalls, deviceAt]
  exact ⟨rfl, rfl, hd, rfl,
    C19_device_mode_calls_are_well_formed sampleEnv (deviceAt 0) _ (deviceAt 9) sampleTimer
      sampleWorld rfl rfl hd rfl⟩

theorem Protocol_rejects_elapsed_before_synchronize :
    (Protocol.init 0).run
      [Event.cudaEventCreate Marker.start, Event.cudaEventCreate Marker.stop,
       Event.cudaEventRecord Marker.start (some 0), Event.cudaEventRecord Marker.stop (some 1),
       Event.cudaEventElapsedTime (some 0) (some 1)] = none ∧
    (Protocol.init 0).run
      [Event.cudaEventCreate Marker.start, Event.cudaEventCreate Marker.stop,
       Event.cudaEventRecord Marker.start (some 0), Event.cudaEventRecord Marker.stop (some 1),
       Event.cudaEventSynchronize Marker.stop (some 1),
       Event.cudaEventRecord Marker.start (some 0),
       Event.cudaEventElapsedTime (some 0) (some 1)] = none ∧
    (Protocol.init 0).run [Event.cudaEventRecord Marker.start none] = none := by
  refine ⟨rfl, rfl, rfl⟩

/-! ## Durations are computed from captured marks -/

end caffe
